import Mathlib

/-! # CDB to 3D Tiles: container authoring, tileset JSON and conversion bookkeeping

A shallow embedding of `TileFormatIO.cpp` (B3DM, I3DM, CMPT writers, batch table,
tileset JSON emitters) and, from `CDBTo3DTiles.cpp`, of `Converter::combineDataset` and of the
subtree placement, elevation pass, subtree serialization and tileset combination of
`Converter::convert`, followed by the properties proved about them.

Conventions of the embedding.

* A byte is a natural number below 256; `std::string`, `std::vector<uint8_t>` and
  file contents are lists of bytes.
* `size_t` and `uint64_t` sizes are natural numbers (they count bytes of objects
  held in memory and do not wrap); the `uint32_t` header fields are reduced
  modulo `2 ^ 32` where the source casts to `uint32_t`.
* Numbers that the source holds in `float` or `double` are elements of a linearly
  ordered field `α`, with exact arithmetic.
* `nlohmann::json::dump` is an external library routine: the writers take it as
  the parameter `dump`.
-/

namespace CDBTo3DTiles

/-! ## Bytes, little-endian words and raw memory -/

/-- The bytes of an ASCII string literal. -/
def ascii (s : String) : List Nat := s.toList.map Char.toNat

/-- The four bytes of a `uint32_t`, least significant first. -/
def u32le (n : Nat) : List Nat :=
  [n % 256, n / 256 % 256, n / 65536 % 256, n / 16777216 % 256]

/-- The eight bytes of a `uint64_t`, least significant first. -/
def u64le (n : Nat) : List Nat :=
  u32le (n % 4294967296) ++ u32le (n / 4294967296 % 4294967296)

/-- The four bytes of an `int32_t` (two's complement), least significant first. -/
def i32le (v : Int) : List Nat := u32le (v % 4294967296).toNat

/-- The value of a little-endian byte sequence. -/
def fromLE : List Nat → Nat
  | [] => 0
  | b :: bs => b + 256 * fromLE bs

/-- The `uint32_t` stored little-endian at offset `off` of `bs`. -/
def u32At (bs : List Nat) (off : Nat) : Nat := fromLE ((bs.drop off).take 4)

/-- The `uint64_t` stored little-endian at offset `off` of `bs`. -/
def u64At (bs : List Nat) (off : Nat) : Nat := fromLE ((bs.drop off).take 8)

/-- Storing `src` at offset `off` of a memory region (`memcpy(mem + off, src, n)`):
the bytes before `off` and after `off + n` are kept.  The region is a list that
grows when the store ends past its current end. -/
def writeAt (mem : List Nat) (off : Nat) (src : List Nat) : List Nat :=
  mem.take off ++ List.replicate (off - mem.length) 0 ++ src ++ mem.drop (off + src.length)

/-- Modelled from the spec: `roundUp(value, multiple)`, declared outside the shown
sources; "rounded up" to the next multiple. -/
def roundUp (value multiple : Nat) : Nat :=
  (value + multiple - 1) / multiple * multiple

/-- Line 20 of `CDBTo3DTiles.cpp`: `(v + 7) & ~7`, the bits of `v + 7` with the three
low bits (those of `7`) cleared. -/
def alignTo8 (v : Nat) : Nat := Nat.ldiff (v + 7) 7

/-! ## Output streams -/

/-- A `std::ofstream`: the bytes of the file and the put position. -/
structure OFStream where
  data : List Nat
  pos : Nat

/-- A freshly opened, empty file. -/
def OFStream.empty : OFStream := ⟨[], 0⟩

/-- The effect of `fs.write(bytes, n)`: the bytes are stored at the put position, which advances. -/
def OFStream.write (fs : OFStream) (bytes : List Nat) : OFStream :=
  ⟨writeAt fs.data fs.pos bytes, fs.pos + bytes.length⟩

/-- The effect of `fs.seekp(p, std::ios::beg)`. -/
def OFStream.seekp (fs : OFStream) (p : Nat) : OFStream :=
  ⟨fs.data, p⟩

/-- A stream whose put position is at the end of the file. -/
def OFStream.atEnd (fs : OFStream) : Prop := fs.pos = fs.data.length

/-! ## JSON values (`nlohmann::json`) -/

/-- The JSON values built by the writers.  Unsigned, signed and floating-point numbers
are kept apart as in the library; `α` is the type of floating-point numbers. -/
inductive Json (α : Type) where
  | null : Json α
  | uint (n : Nat) : Json α
  | int (n : Int) : Json α
  | float (x : α) : Json α
  | str (s : String) : Json α
  | arr (items : List (Json α)) : Json α
  | obj (members : List (String × Json α)) : Json α

/-- Replace the value of `key` in a member list, or add the member. -/
def insertKey {β : Type} : List (String × β) → String → β → List (String × β)
  | [], k, v => [(k, v)]
  | (k', v') :: ms, k, v => if k' = k then (k, v) :: ms else (k', v') :: insertKey ms k v

namespace Json

variable {α : Type}

/-- The member `key` of an object, if any. -/
def get (j : Json α) (key : String) : Option (Json α) :=
  match j with
  | obj ms => ms.lookup key
  | _ => none

/-- The value `j[key]` read as in the library: a missing member reads as `null`. -/
def index (j : Json α) (key : String) : Json α := (j.get key).getD null

/-- The assignment `j[key] = v`: a `null` value becomes an object.  (The library raises
a type error when `j` is neither `null` nor an object; the model starts a new object.) -/
def set (j : Json α) (key : String) (v : Json α) : Json α :=
  match j with
  | obj ms => obj (insertKey ms key v)
  | _ => obj [(key, v)]

/-- The assignment `j[k1][k2] = v`. -/
def set2 (j : Json α) (k1 k2 : String) (v : Json α) : Json α :=
  j.set k1 ((j.index k1).set k2 v)

/-- The member `k2` of the member `k1`, if both exist. -/
def get2 (j : Json α) (k1 k2 : String) : Option (Json α) :=
  (j.get k1).bind (fun v => v.get k2)

/-- The call `j.push_back(v)` (or `emplace_back`): a `null` value becomes an array. -/
def pushBack (j : Json α) (v : Json α) : Json α :=
  match j with
  | arr xs => arr (xs ++ [v])
  | _ => arr [v]

/-- The elements of an array. -/
def items (j : Json α) : Option (List (Json α)) :=
  match j with
  | arr xs => some xs
  | _ => none

/-- An array of strings. -/
def strings (ss : List String) : Json α := arr (ss.map str)

end Json

/-! ## Batch table (`createBatchTable`) -/

/-- Modelled from the spec: the instance attribute table `CDBInstancesAttributes`, declared
outside the shown sources: an instance count, the class names, and integer, double and
string columns keyed by attribute name (listed in the iteration order of the maps).
A `double` entry is given by its 64-bit pattern. -/
structure CDBInstancesAttributes where
  instancesCount : Nat
  CNAMs : List String
  integerAttribs : List (String × List Int)
  doubleAttribs : List (String × List Nat)
  stringAttribs : List (String × List String)

/-- The loop state of `createBatchTable`: the JSON, the memory at `batchTableBuffer.data()`
and `batchTableOffset`. -/
structure BatchTableState (α : Type) where
  json : Json α
  mem : List Nat
  offset : Nat

/-- One iteration of the column loops of `createBatchTable` (lines 325-333 and 336-344):
copy the column, declare its `byteOffset`, `type` and `componentType`, advance the offset. -/
def batchTableColumn {α : Type} (componentType : String) (st : BatchTableState α)
    (key : String) (column : List Nat) : BatchTableState α :=
  { json := ((st.json.set2 key "byteOffset" (Json.uint st.offset)).set2 key "type"
        (Json.str "SCALAR")).set2 key "componentType" (Json.str componentType)
    mem := writeAt st.mem st.offset column
    offset := st.offset + column.length }

/-- The state of `createBatchTable` after the integer and the double loops. -/
def batchTableColumns {α : Type} (attribs : CDBInstancesAttributes) : BatchTableState α :=
  let instancesCount := attribs.instancesCount
  let totalIntegerSize := roundUp (attribs.integerAttribs.length * 4 * instancesCount) 8
  let totalDoubleSize := attribs.doubleAttribs.length * 8 * instancesCount
  let json0 : Json α := Json.null.set "CNAM" (Json.strings attribs.CNAMs)
  let json1 := attribs.stringAttribs.foldl (fun j kv => j.set kv.1 (Json.strings kv.2)) json0
  let st0 : BatchTableState α :=
    { json := json1, mem := List.replicate (totalIntegerSize + totalDoubleSize) 0, offset := 0 }
  let st1 := attribs.integerAttribs.foldl
    (fun st kv => batchTableColumn "INT" st kv.1 (kv.2.flatMap i32le)) st0
  let st2 : BatchTableState α := { st1 with offset := roundUp st1.offset 8 }
  attribs.doubleAttribs.foldl
    (fun st kv => batchTableColumn "DOUBLE" st kv.1 (kv.2.flatMap u64le)) st2

/-- Lines 299-349 of `TileFormatIO.cpp`: the batch table JSON text (space-padded to a multiple
of 8) and the batch table buffer; both stay empty when there is no attribute table.  The
buffer is the `size()` bytes at `data()` after the copies. -/
def createBatchTable {α : Type} (dump : Json α → List Nat)
    (instancesAttribs : Option CDBInstancesAttributes) : List Nat × List Nat :=
  match instancesAttribs with
  | none => ([], [])
  | some attribs =>
    let totalIntegerSize :=
      roundUp (attribs.integerAttribs.length * 4 * attribs.instancesCount) 8
    let totalDoubleSize := attribs.doubleAttribs.length * 8 * attribs.instancesCount
    let st : BatchTableState α := batchTableColumns attribs
    let batchTableJsonStr := dump st.json
    (batchTableJsonStr ++
        List.replicate (roundUp batchTableJsonStr.length 8 - batchTableJsonStr.length) 32,
      st.mem.take (totalIntegerSize + totalDoubleSize))

/-! ## B3DM (`writeToB3DM`) -/

/-- Lines 7-16 of `TileFormatIO.cpp`. -/
structure B3dmHeader where
  magic : List Nat
  version : Nat
  byteLength : Nat
  featureTableJsonByteLength : Nat
  featureTableBinByteLength : Nat
  batchTableJsonByteLength : Nat
  batchTableBinByteLength : Nat

/-- The 28 bytes of a `B3dmHeader` as stored by `fs.write(&header, sizeof(B3dmHeader))`. -/
def B3dmHeader.bytes (h : B3dmHeader) : List Nat :=
  h.magic ++ u32le h.version ++ u32le h.byteLength ++ u32le h.featureTableJsonByteLength
    ++ u32le h.featureTableBinByteLength ++ u32le h.batchTableJsonByteLength
    ++ u32le h.batchTableBinByteLength

/-- The cast `static_cast<uint32_t>(n)`. -/
def toU32 (n : Nat) : Nat := n % 4294967296

/-- Lines 238-241: `numOfBatchID`, the instance count of the attribute table, 0 without one. -/
def numOfBatchID (instancesAttribs : Option CDBInstancesAttributes) : Nat :=
  match instancesAttribs with
  | some attribs => attribs.instancesCount
  | none => 0

/-- The feature table string of `writeToB3DM` (lines 238-244): `{"BATCH_LENGTH":n}` followed
by the spaces that bring header plus string to a multiple of 8. -/
def b3dmFeatureTableString (instancesAttribs : Option CDBInstancesAttributes) : List Nat :=
  let numOfBatchID :=
    match instancesAttribs with
    | some attribs => attribs.instancesCount
    | none => 0
  let featureTableString := ascii "\x7b\"BATCH_LENGTH\":" ++ ascii (Nat.repr numOfBatchID) ++ ascii "\x7d"
  let headerToRoundUp := 28 + featureTableString.length
  featureTableString ++ List.replicate (roundUp headerToRoundUp 8 - headerToRoundUp) 32

/-- The GLB buffer of `writeToB3DM` (lines 232-235): `roundUp(offset, 8)` zero bytes over
which the stream content `glb` is read. -/
def b3dmGlbBuffer (glb : List Nat) : List Nat :=
  let offset := glb.length
  (writeAt (List.replicate (roundUp offset 8) 0) 0 (glb.take (roundUp offset 8))).take
    (roundUp offset 8)

/-- The header built at lines 252-266. -/
def b3dmHeader (featureTableString batchTableHeader batchTableBuffer glbBuffer : List Nat) :
    B3dmHeader :=
  { magic := ascii "b3dm"
    version := 1
    byteLength := toU32 (28 + toU32 featureTableString.length + toU32 batchTableHeader.length
      + toU32 batchTableBuffer.length + toU32 glbBuffer.length)
    featureTableJsonByteLength := toU32 featureTableString.length
    featureTableBinByteLength := 0
    batchTableJsonByteLength := toU32 batchTableHeader.length
    batchTableBinByteLength := toU32 batchTableBuffer.length }

/-- Lines 224-275 of `TileFormatIO.cpp`.  `glb` is the binary glTF that the glTF writer
leaves in the string stream. -/
def writeToB3DM {α : Type} (dump : Json α → List Nat) (glb : List Nat)
    (instancesAttribs : Option CDBInstancesAttributes) (fs : OFStream) : OFStream :=
  let glbBuffer := b3dmGlbBuffer glb
  let featureTableString := b3dmFeatureTableString instancesAttribs
  let batchTable := createBatchTable dump instancesAttribs
  let batchTableHeader := batchTable.1
  let batchTableBuffer := batchTable.2
  let header := b3dmHeader featureTableString batchTableHeader batchTableBuffer glbBuffer
  ((((fs.write header.bytes).write featureTableString).write batchTableHeader).write
    batchTableBuffer).write glbBuffer

/-! ## I3DM (`writeToI3DM`) -/

/-- Lines 18-28 of `TileFormatIO.cpp`. -/
structure I3dmHeader where
  magic : List Nat
  version : Nat
  byteLength : Nat
  featureTableJsonByteLength : Nat
  featureTableBinByteLength : Nat
  batchTableJsonByteLength : Nat
  batchTableBinByteLength : Nat
  gltfFormat : Nat

/-- The 32 bytes of an `I3dmHeader` as stored by `fs.write(&header, sizeof(I3dmHeader))`. -/
def I3dmHeader.bytes (h : I3dmHeader) : List Nat :=
  h.magic ++ u32le h.version ++ u32le h.byteLength ++ u32le h.featureTableJsonByteLength
    ++ u32le h.featureTableBinByteLength ++ u32le h.batchTableJsonByteLength
    ++ u32le h.batchTableBinByteLength ++ u32le h.gltfFormat

/-- Modelled from the spec: `Core::Cartographic`, declared outside the shown sources:
longitude, latitude and height of a geodetic position. -/
structure Cartographic (α : Type) where
  longitude : α
  latitude : α
  height : α

/-- A `glm::dvec3` or `glm::vec3`. -/
structure Vec3 (α : Type) where
  x : α
  y : α
  z : α

/-- The componentwise minimum `glm::min`. -/
def Vec3.min {α : Type} [LinearOrder α] (a b : Vec3 α) : Vec3 α :=
  ⟨Min.min a.x b.x, Min.min a.y b.y, Min.min a.z b.z⟩

/-- The componentwise maximum `glm::max`. -/
def Vec3.max {α : Type} [LinearOrder α] (a b : Vec3 α) : Vec3 α :=
  ⟨Max.max a.x b.x, Max.max a.y b.y, Max.max a.z b.z⟩

/-- The componentwise sum. -/
def Vec3.add {α : Type} [Add α] (a b : Vec3 α) : Vec3 α := ⟨a.x + b.x, a.y + b.y, a.z + b.z⟩

/-- The componentwise difference. -/
def Vec3.sub {α : Type} [Sub α] (a b : Vec3 α) : Vec3 α := ⟨a.x - b.x, a.y - b.y, a.z - b.z⟩

/-- The division of a vector by the scalar `2.0`. -/
def Vec3.half {α : Type} [Div α] [OfNat α 2] (a : Vec3 α) : Vec3 α := ⟨a.x / 2, a.y / 2, a.z / 2⟩

/-- The collaborators of `writeToI3DM` that are declared outside the shown sources, taken as
parameters: the ellipsoid's `cartographicToCartesian`, the normalized columns 1 and 0 of
`calculateModelOrientation(worldPosition, orientation)`, and the four bytes of a number
converted to single precision. -/
structure I3dmEnv (α : Type) where
  cartographicToCartesian : Cartographic α → Vec3 α
  normalUp : Vec3 α → α → Vec3 α
  normalRight : Vec3 α → α → Vec3 α
  f32 : α → List Nat
  f32_length : ∀ x, (f32 x).length = 4

/-- The 12 bytes of a `glm::vec3` (`sizeof(glm::vec3)`). -/
def I3dmEnv.vec3Bytes {α : Type} (env : I3dmEnv α) (v : Vec3 α) : List Nat :=
  env.f32 v.x ++ env.f32 v.y ++ env.f32 v.z

/-- The loop `for (size_t i = start; i < stop; ++i)` with a body that fails where the
source reads past the end of a vector. -/
def forLoop {σ : Type} (start stop : Nat) (body : Nat → σ → Option σ) (s : σ) : Option σ :=
  (List.range' start (stop - start)).foldlM (fun s i => body i s) s

/-- Lines 129-136: the componentwise minimum and maximum of the world positions. -/
def i3dmBounds {α : Type} [LinearOrder α] (env : I3dmEnv α) (totalInstances : Nat)
    (cartographicPositions : List (Cartographic α)) : Option (Vec3 α × Vec3 α) := do
  let front ← cartographicPositions.head?
  let min := env.cartographicToCartesian front
  forLoop 1 totalInstances (fun i mm => do
    let position ← cartographicPositions[i]?
    let worldPosition := env.cartographicToCartesian position
    pure (Vec3.min worldPosition mm.1, Vec3.max worldPosition mm.2)) (min, min)

/-- Lines 144-150: the feature table JSON. -/
def i3dmFeatureTableJson {α : Type} (totalInstances : Nat) (center : Vec3 α)
    (positionOffset scaleOffset normalUpOffset normalRightOffset : Nat) : Json α :=
  (((((Json.null.set "INSTANCES_LENGTH" (Json.uint totalInstances)).set "RTC_CENTER"
      (Json.arr [Json.float center.x, Json.float center.y, Json.float center.z])).set "POSITION"
      (Json.obj [("byteOffset", Json.uint positionOffset)])).set "SCALE_NON_UNIFORM"
      (Json.obj [("byteOffset", Json.uint scaleOffset)])).set "NORMAL_UP"
      (Json.obj [("byteOffset", Json.uint normalUpOffset)])).set "NORMAL_RIGHT"
      (Json.obj [("byteOffset", Json.uint normalRightOffset)])

/-- One iteration of the loop at lines 156-179: the four records of instance `i` are copied
into the memory of the feature table buffer. -/
def i3dmInstance {α : Type} [Sub α] (env : I3dmEnv α) (center : Vec3 α)
    (cartographicPositions : List (Cartographic α)) (scales : List (Vec3 α))
    (orientations : List α)
    (positionOffset scaleOffset normalUpOffset normalRightOffset : Nat)
    (i : Nat) (mem : List Nat) : Option (List Nat) := do
  let position ← cartographicPositions[i]?
  let worldPosition := env.cartographicToCartesian position
  let positionRTC := worldPosition.sub center
  let orientation ← orientations[i]?
  let normalUp := env.normalUp worldPosition orientation
  let normalRight := env.normalRight worldPosition orientation
  let mem := writeAt mem (positionOffset + i * 12) (env.vec3Bytes positionRTC)
  let scale ← scales[i]?
  let mem := writeAt mem (scaleOffset + i * 12) (env.vec3Bytes scale)
  let mem := writeAt mem (normalUpOffset + i * 12) (env.vec3Bytes normalUp)
  let mem := writeAt mem (normalRightOffset + i * 12) (env.vec3Bytes normalRight)
  pure mem

/-- Lines 153-179: the feature table buffer, `roundUp(48 N, 8)` bytes. -/
def i3dmFeatureTableBuffer {α : Type} [Sub α] (env : I3dmEnv α) (totalInstances : Nat)
    (center : Vec3 α) (cartographicPositions : List (Cartographic α)) (scales : List (Vec3 α))
    (orientations : List α) : Option (List Nat) :=
  let totalPositionSize := totalInstances * 12
  let totalScaleSize := totalInstances * 12
  let totalNormalUpSize := totalInstances * 12
  let totalNormalRightSize := totalInstances * 12
  let positionOffset := 0
  let scaleOffset := totalPositionSize
  let normalUpOffset := scaleOffset + totalScaleSize
  let normalRightOffset := normalUpOffset + totalNormalUpSize
  let size :=
    roundUp (totalPositionSize + totalScaleSize + totalNormalUpSize + totalNormalRightSize) 8
  (forLoop 0 totalInstances
    (i3dmInstance env center cartographicPositions scales orientations
      positionOffset scaleOffset normalUpOffset normalRightOffset)
    (List.replicate size 0)).map (fun mem => mem.take size)

/-- The header built at lines 194-210. -/
def i3dmHeader (featureTableString featureTableBuffer batchTableJson batchTableBuffer
    GltfURI : List Nat) : I3dmHeader :=
  { magic := ascii "i3dm"
    version := 1
    byteLength := toU32 (32 + toU32 featureTableString.length + toU32 featureTableBuffer.length
      + toU32 batchTableJson.length + toU32 batchTableBuffer.length + toU32 GltfURI.length)
    featureTableJsonByteLength := toU32 featureTableString.length
    featureTableBinByteLength := toU32 featureTableBuffer.length
    batchTableJsonByteLength := toU32 batchTableJson.length
    batchTableBinByteLength := toU32 batchTableBuffer.length
    gltfFormat := 0 }

/-- The string `s` followed by the spaces that bring `base + s.size()` to a multiple of 8
(lines 188-192). -/
def padSpaces (base : Nat) (s : List Nat) : List Nat :=
  s ++ List.replicate (roundUp (base + s.length) 8 - (base + s.length)) 32

/-- Lines 115-222 of `TileFormatIO.cpp`: the stream after the writes and the returned
`header.byteLength`; `none` where the source reads past the end of `cartographicPositions`,
`scales` or `orientations`. -/
def writeToI3DM {α : Type} [LinearOrderedField α] (env : I3dmEnv α) (dump : Json α → List Nat)
    (GltfURI : List Nat) (instancesAttribs : CDBInstancesAttributes)
    (cartographicPositions : List (Cartographic α)) (scales : List (Vec3 α))
    (orientations : List α) (fs : OFStream) : Option (OFStream × Nat) := do
  let totalInstances := instancesAttribs.instancesCount
  let totalPositionSize := totalInstances * 12
  let totalScaleSize := totalInstances * 12
  let totalNormalUpSize := totalInstances * 12
  let bounds ← i3dmBounds env totalInstances cartographicPositions
  let center := (bounds.1.add bounds.2).half
  let positionOffset := 0
  let scaleOffset := totalPositionSize
  let normalUpOffset := scaleOffset + totalScaleSize
  let normalRightOffset := normalUpOffset + totalNormalUpSize
  let featureTableJson : Json α := i3dmFeatureTableJson totalInstances center
    positionOffset scaleOffset normalUpOffset normalRightOffset
  let featureTableBuffer ← i3dmFeatureTableBuffer env totalInstances center
    cartographicPositions scales orientations
  let batchTable := createBatchTable dump (some instancesAttribs)
  let batchTableBuffer := batchTable.2
  let featureTableString := padSpaces 32 (dump featureTableJson)
  let batchTableJson := padSpaces 0 batchTable.1
  let GltfURI := padSpaces 0 GltfURI
  let header :=
    i3dmHeader featureTableString featureTableBuffer batchTableJson batchTableBuffer GltfURI
  pure ((((((fs.write header.bytes).write featureTableString).write featureTableBuffer).write
    batchTableJson).write batchTableBuffer).write GltfURI, header.byteLength)

/-- The four 12-byte records of instance `i` of `totalInstances` stand in `mem` at the offsets
of lines 165-178: position, scale, normal-up and normal-right. -/
def i3dmRecordsAt {α : Type} [Sub α] (env : I3dmEnv α) (center : Vec3 α)
    (cartographicPositions : List (Cartographic α)) (scales : List (Vec3 α))
    (orientations : List α) (totalInstances : Nat) (mem : List Nat) (i : Nat) : Prop :=
  ∀ (p : Cartographic α) (s : Vec3 α) (o : α), cartographicPositions[i]? = some p →
    scales[i]? = some s → orientations[i]? = some o →
    (mem.drop (0 + i * 12)).take 12
        = env.vec3Bytes ((env.cartographicToCartesian p).sub center)
    ∧ (mem.drop (totalInstances * 12 + i * 12)).take 12 = env.vec3Bytes s
    ∧ (mem.drop (totalInstances * 12 + totalInstances * 12 + i * 12)).take 12
        = env.vec3Bytes (env.normalUp (env.cartographicToCartesian p) o)
    ∧ (mem.drop (totalInstances * 12 + totalInstances * 12 + totalInstances * 12 + i * 12)).take 12
        = env.vec3Bytes (env.normalRight (env.cartographicToCartesian p) o)

/-- The squared Euclidean norm of a vector. -/
def Vec3.normSq {α : Type} [Add α] [Mul α] (v : Vec3 α) : α := v.x * v.x + v.y * v.y + v.z * v.z

/-- The pair `mm` is the componentwise minimum and maximum of the world positions of the
first `k` instances: it bounds each of them and each of its six components is attained. -/
def i3dmBoundsOf {α : Type} [LinearOrder α] (env : I3dmEnv α)
    (cartographicPositions : List (Cartographic α)) (k : Nat) (mm : Vec3 α × Vec3 α) : Prop :=
  (∀ (i : Nat) (p : Cartographic α), i < k → cartographicPositions[i]? = some p →
      mm.1.x ≤ (env.cartographicToCartesian p).x ∧ (env.cartographicToCartesian p).x ≤ mm.2.x
      ∧ mm.1.y ≤ (env.cartographicToCartesian p).y ∧ (env.cartographicToCartesian p).y ≤ mm.2.y
      ∧ mm.1.z ≤ (env.cartographicToCartesian p).z ∧ (env.cartographicToCartesian p).z ≤ mm.2.z)
  ∧ (∃ (i : Nat) (p : Cartographic α), i < k ∧ cartographicPositions[i]? = some p
      ∧ mm.1.x = (env.cartographicToCartesian p).x)
  ∧ (∃ (i : Nat) (p : Cartographic α), i < k ∧ cartographicPositions[i]? = some p
      ∧ mm.1.y = (env.cartographicToCartesian p).y)
  ∧ (∃ (i : Nat) (p : Cartographic α), i < k ∧ cartographicPositions[i]? = some p
      ∧ mm.1.z = (env.cartographicToCartesian p).z)
  ∧ (∃ (i : Nat) (p : Cartographic α), i < k ∧ cartographicPositions[i]? = some p
      ∧ mm.2.x = (env.cartographicToCartesian p).x)
  ∧ (∃ (i : Nat) (p : Cartographic α), i < k ∧ cartographicPositions[i]? = some p
      ∧ mm.2.y = (env.cartographicToCartesian p).y)
  ∧ (∃ (i : Nat) (p : Cartographic α), i < k ∧ cartographicPositions[i]? = some p
      ∧ mm.2.z = (env.cartographicToCartesian p).z)

/-! ## CMPT (`writeToCMPT`) -/

/-- Lines 30-36 of `TileFormatIO.cpp`. -/
structure CmptHeader where
  magic : List Nat
  version : Nat
  byteLength : Nat
  titleLength : Nat

/-- The 16 bytes of a `CmptHeader` as stored by `fs.write(&header, sizeof(header))`. -/
def CmptHeader.bytes (h : CmptHeader) : List Nat :=
  h.magic ++ u32le h.version ++ u32le h.byteLength ++ u32le h.titleLength

/-- The header of lines 281-288 with the given `byteLength`. -/
def cmptHeader (numOfTiles byteLength : Nat) : CmptHeader :=
  { magic := ascii "cmpt"
    version := 1
    byteLength := byteLength
    titleLength := numOfTiles }

/-- One iteration of the loop at lines 291-293: the callback writes tile `i` and its return
value is added to the `uint32_t` field `header.byteLength`. -/
def cmptStep (writeToTileFormat : OFStream → Nat → OFStream × Nat) (st : OFStream × Nat)
    (i : Nat) : OFStream × Nat :=
  ((writeToTileFormat st.1 i).1, toU32 (st.2 + (writeToTileFormat st.1 i).2))

/-- Lines 277-297 of `TileFormatIO.cpp`: a placeholder header, the inner tiles written by the
callback for `i = 0, ..., numOfTiles - 1`, then the header rewritten at offset 0. -/
def writeToCMPT (numOfTiles : Nat) (fs : OFStream)
    (writeToTileFormat : OFStream → Nat → OFStream × Nat) : OFStream :=
  let header := cmptHeader numOfTiles 16
  let fs := fs.write header.bytes
  let st := (List.range numOfTiles).foldl (cmptStep writeToTileFormat) (fs, header.byteLength)
  let header := cmptHeader numOfTiles st.2
  (st.1.seekp 0).write header.bytes

/-! ## Subtree availability files (`Converter::convert`, implicit tiling) -/

/-- Line 116: `static_cast<int>((pow(4, subtreeLevels) - 1) / 3)`; the `double` computation
is exact and within `int` for `subtreeLevels ≤ 15`. -/
def subtreeNodeCount (subtreeLevels : Nat) : Nat := (4 ^ subtreeLevels - 1) / 3

/-- Line 117: `static_cast<int>(pow(4, subtreeLevels))`. -/
def childSubtreeCount (subtreeLevels : Nat) : Nat := 4 ^ subtreeLevels

/-- Line 119: `static_cast<int>(ceil(static_cast<double>(subtreeNodeCount) / 8.0))`. -/
def availabilityByteLength (subtreeLevels : Nat) : Nat :=
  (subtreeNodeCount subtreeLevels + 7) / 8

/-- Line 120. -/
def nodeAvailabilityByteLengthWithPadding (subtreeLevels : Nat) : Nat :=
  alignTo8 (availabilityByteLength subtreeLevels)

/-- Line 121: `static_cast<int>(ceil(static_cast<double>(childSubtreeCount) / 8.0))`. -/
def childSubtreeAvailabilityByteLength (subtreeLevels : Nat) : Nat :=
  (childSubtreeCount subtreeLevels + 7) / 8

/-- Line 122. -/
def childSubtreeAvailabilityByteLengthWithPadding (subtreeLevels : Nat) : Nat :=
  alignTo8 (childSubtreeAvailabilityByteLength subtreeLevels)

/-- Line 124. -/
def headerByteLength : Nat := 24

/-- Line 125. -/
def childSubtreeAvailabilityByteOffset (subtreeLevels : Nat) : Nat :=
  headerByteLength + availabilityByteLength subtreeLevels

/-- Line 126. -/
def bufferByteLength (subtreeLevels : Nat) : Nat :=
  availabilityByteLength subtreeLevels + headerByteLength
    + childSubtreeAvailabilityByteLength subtreeLevels

/-- The variables of lines 185-187 while the subtree JSON is built. -/
structure SubtreeJsonState (α : Type) where
  subtreeJson : Json α
  bufferViewIndexAccum : Nat
  bufferByteLengthAccum : Nat

/-- Lines 185-239: the subtree JSON and the accumulators for a subtree with
`availableNodeCount` available nodes and `availableChildCount` available child subtrees. -/
def subtreeJsonState {α : Type} (subtreeLevels availableNodeCount availableChildCount : Nat) :
    SubtreeJsonState α :=
  let constantNodeAvailability : Bool :=
    availableNodeCount == 0 || availableNodeCount == subtreeNodeCount subtreeLevels
  let constantChildAvailability : Bool :=
    availableChildCount == 0 || availableChildCount == childSubtreeCount subtreeLevels
  let byteLength :=
    (if constantNodeAvailability then 0 else 1) * availabilityByteLength subtreeLevels
      + (if constantChildAvailability then 0 else 1)
        * childSubtreeAvailabilityByteLength subtreeLevels
  let constantNodeAndChildAvailability : Bool := byteLength == 0
  let s0 : SubtreeJsonState α :=
    { subtreeJson := Json.null, bufferViewIndexAccum := 0, bufferByteLengthAccum := 0 }
  let s1 : SubtreeJsonState α :=
    if constantNodeAndChildAvailability then s0
    else
      let json := s0.subtreeJson.set "buffers" (Json.arr [])
      let byteLengthJson : Json α := (Json.obj []).set "byteLength" (Json.uint byteLength)
      { s0 with subtreeJson := json.set "buffers" ((json.index "buffers").pushBack byteLengthJson) }
  let s2 : SubtreeJsonState α :=
    if constantNodeAvailability then
      let constant : Int := if availableNodeCount != 0 then 1 else 0
      { s1 with
        subtreeJson := (s1.subtreeJson.set2 "tileAvailability" "constant" (Json.int constant)).set2
          "contentAvailability" "constant" (Json.int constant) }
    else
      let json := (s1.subtreeJson.set2 "tileAvailability" "bufferView"
        (Json.uint s1.bufferViewIndexAccum)).set2 "contentAvailability" "bufferView"
        (Json.uint s1.bufferViewIndexAccum)
      { subtreeJson := json.set "bufferViews" ((json.index "bufferViews").pushBack
          (Json.obj [("buffer", Json.int 0), ("byteOffset", Json.uint s1.bufferByteLengthAccum),
            ("byteLength", Json.uint (availabilityByteLength subtreeLevels))]))
        bufferByteLengthAccum :=
          s1.bufferByteLengthAccum + nodeAvailabilityByteLengthWithPadding subtreeLevels
        bufferViewIndexAccum := s1.bufferViewIndexAccum + 1 }
  if constantChildAvailability then
    let constant : Int := if availableChildCount != 0 then 1 else 0
    { s2 with
      subtreeJson := s2.subtreeJson.set2 "childSubtreeAvailability" "constant" (Json.int constant) }
  else
    let json := s2.subtreeJson.set2 "childSubtreeAvailability" "bufferView"
      (Json.uint s2.bufferViewIndexAccum)
    { s2 with
      subtreeJson := json.set "bufferViews" ((json.index "bufferViews").pushBack
        (Json.obj [("buffer", Json.int 0), ("byteOffset", Json.uint s2.bufferByteLengthAccum),
          ("byteLength", Json.uint (childSubtreeAvailabilityByteLength subtreeLevels))]))
      bufferByteLengthAccum :=
        s2.bufferByteLengthAccum + childSubtreeAvailabilityByteLengthWithPadding subtreeLevels }

/-- The subtree JSON of lines 185-239. -/
def subtreeJson {α : Type} (subtreeLevels availableNodeCount availableChildCount : Nat) :
    Json α :=
  (subtreeJsonState subtreeLevels availableNodeCount availableChildCount).subtreeJson

/-- The output of lines 241-269 for one subtree: `allocated`, the size of `outputBuffer`
(line 247); `memory`, what the stores of lines 248-267 hold, taken on raw memory at `outBuffer`;
and `written`, the final `outBufferByteOffset`, where the last store ends and the count handed
to `writeBinaryFile`.  The stores are in bounds exactly when `written ≤ allocated`.  A store
past `allocated` is undefined behaviour in the source: `memory` beyond `allocated` then only
records which bytes the stores address, so that `allocated` and `written` can be compared, and
is not a state of the program.  The file the program writes is `SubtreeFile.file`. -/
structure SubtreeFile where
  allocated : Nat
  memory : List Nat
  written : Nat

/-- The first `written` bytes at `outBuffer`, the argument of
`writeBinaryFile(path, outBuffer, outBufferByteOffset)`. -/
def SubtreeFile.bytes (f : SubtreeFile) : List Nat := f.memory.take f.written

/-- The file written at line 269: the `written` bytes at `outBuffer` when every store stayed
inside `outputBuffer`; `none` when a store of lines 260 or 265 ran past its end, where the
source has undefined behaviour and determines no file. -/
def SubtreeFile.file (f : SubtreeFile) : Option (List Nat) :=
  if f.written ≤ f.allocated then some f.bytes else none

/-- Lines 183-269 of `CDBTo3DTiles.cpp` for one entry of `subtreeBuffers`: `buffer` is the
subtree buffer, `availableNodeCount` and `availableChildCount` its counters. -/
def serializeSubtree {α : Type} (dump : Json α → List Nat)
    (subtreeLevels availableNodeCount availableChildCount : Nat) (buffer : List Nat) :
    SubtreeFile :=
  let constantNodeAvailability : Bool :=
    availableNodeCount == 0 || availableNodeCount == subtreeNodeCount subtreeLevels
  let constantChildAvailability : Bool :=
    availableChildCount == 0 || availableChildCount == childSubtreeCount subtreeLevels
  let nodeAvailabilityBuffer := buffer.drop headerByteLength
  let childSubtreeAvailabilityBuffer :=
    buffer.drop (childSubtreeAvailabilityByteOffset subtreeLevels)
  let st : SubtreeJsonState α :=
    subtreeJsonState subtreeLevels availableNodeCount availableChildCount
  let jsonString := dump st.subtreeJson
  let jsonStringByteLength := jsonString.length
  let jsonStringByteLengthWithPadding := alignTo8 jsonStringByteLength
  let allocated := jsonStringByteLengthWithPadding + bufferByteLength subtreeLevels
  let mem := List.replicate allocated 0
  let mem := writeAt mem 0 (u32le 0x74627573)
  let mem := writeAt mem 4 (u32le 1)
  let mem := writeAt mem 8 (u64le jsonStringByteLengthWithPadding)
  let mem := writeAt mem 16 (u64le st.bufferByteLengthAccum)
  let mem := writeAt mem headerByteLength jsonString
  let mem := writeAt mem (headerByteLength + jsonStringByteLength)
    (List.replicate (jsonStringByteLengthWithPadding - jsonStringByteLength) 32)
  let outBufferByteOffset := headerByteLength + jsonStringByteLengthWithPadding
  let s1 : List Nat × Nat :=
    if constantNodeAvailability then (mem, outBufferByteOffset)
    else
      (writeAt mem outBufferByteOffset
          (nodeAvailabilityBuffer.take (nodeAvailabilityByteLengthWithPadding subtreeLevels)),
        outBufferByteOffset + nodeAvailabilityByteLengthWithPadding subtreeLevels)
  let s2 : List Nat × Nat :=
    if constantChildAvailability then s1
    else
      (writeAt s1.1 s1.2
          (childSubtreeAvailabilityBuffer.take
            (childSubtreeAvailabilityByteLengthWithPadding subtreeLevels)),
        s1.2 + childSubtreeAvailabilityByteLengthWithPadding subtreeLevels)
  { allocated := allocated, memory := s2.1, written := s2.2 }

/-! ## Tileset JSON (`combineTilesetJson`, `writeToTilesetJson`) -/

/-- Modelled from the spec: `Core::GlobeRectangle`, declared outside the shown sources: west,
south, east and north in radians. -/
structure GlobeRectangle (α : Type) where
  west : α
  south : α
  east : α
  north : α

/-- Modelled from the spec: `GlobeRectangle::computeUnion`, declared outside the shown sources:
the "union producing the smallest enclosing rectangle" of two rectangles with west ≤ east. -/
def GlobeRectangle.computeUnion {α : Type} [LinearOrder α] (a b : GlobeRectangle α) :
    GlobeRectangle α :=
  { west := min a.west b.west
    south := min a.south b.south
    east := max a.east b.east
    north := max a.north b.north }

/-- Modelled from the spec: `Core::BoundingRegion`, declared outside the shown sources: "a
rectangle plus a minimum and maximum height in metres". -/
structure BoundingRegion (α : Type) where
  rectangle : GlobeRectangle α
  minimumHeight : α
  maximumHeight : α

/-- Modelled from the spec: `BoundingRegion::computeUnion`, declared outside the shown sources:
"union is the componentwise union (rectangle union, min-min, max-max)". -/
def BoundingRegion.computeUnion {α : Type} [LinearOrder α] (a b : BoundingRegion α) :
    BoundingRegion α :=
  { rectangle := a.rectangle.computeUnion b.rectangle
    minimumHeight := min a.minimumHeight b.minimumHeight
    maximumHeight := max a.maximumHeight b.maximumHeight }

/-- The region `a` contains the region `b`: componentwise, `a` reaches at least as far west,
south and down, and at least as far east, north and up. -/
def BoundingRegion.contains {α : Type} [LE α] (a b : BoundingRegion α) : Prop :=
  a.rectangle.west ≤ b.rectangle.west ∧ a.rectangle.south ≤ b.rectangle.south
    ∧ b.rectangle.east ≤ a.rectangle.east ∧ b.rectangle.north ≤ a.rectangle.north
    ∧ a.minimumHeight ≤ b.minimumHeight ∧ b.maximumHeight ≤ a.maximumHeight

/-- Line 38 of `TileFormatIO.cpp`. -/
def MAX_GEOMETRIC_ERROR {α : Type} [LinearOrderedField α] : α := 300000

/-- The six numbers `west, south, east, north, minimum height, maximum height` of a region as
a JSON array. -/
def regionArray {α : Type} (region : BoundingRegion α) : Json α :=
  Json.arr [Json.float region.rectangle.west, Json.float region.rectangle.south,
    Json.float region.rectangle.east, Json.float region.rectangle.north,
    Json.float region.minimumHeight, Json.float region.maximumHeight]

/-- The bounding volume object with the single member `region` (the initializer lists at
lines 67-75, 83-91, 358-366 and 376-384). -/
def regionJson {α : Type} (region : BoundingRegion α) : Json α :=
  Json.obj [("region", regionArray region)]

/-- Lines 63-75: the child node for one tileset path and its region. -/
def combineChildJson {α : Type} [LinearOrderedField α] (path : String)
    (childBoundRegion : BoundingRegion α) : Json α :=
  let childJson : Json α := Json.null.set "geometricError" (Json.float MAX_GEOMETRIC_ERROR)
  let childJson := childJson.set "content" (Json.obj [])
  let childJson := childJson.set2 "content" "uri" (Json.str path)
  childJson.set "boundingVolume" (regionJson childBoundRegion)

/-- One iteration of the loop at lines 59-79 on `rootChildren` and `rootRegion`; it fails where
the source reads past the end of `regions`. -/
def combineStep {α : Type} [LinearOrderedField α] (tilesetJsonPaths : List String)
    (regions : List (BoundingRegion α)) (i : Nat) (st : Json α × BoundingRegion α) :
    Option (Json α × BoundingRegion α) := do
  let path ← tilesetJsonPaths[i]?
  let childBoundRegion ← regions[i]?
  pure (st.1.pushBack (combineChildJson path childBoundRegion),
    st.2.computeUnion childBoundRegion)

/-- Lines 50-91 of `TileFormatIO.cpp`: the document `tilesetJson` that `combineTilesetJson`
sends to the stream; `none` where the source calls `regions.front()` on an empty vector or
reads past the end of `regions`. -/
def combinedDocument {α : Type} [LinearOrderedField α] (tilesetJsonPaths : List String)
    (regions : List (BoundingRegion α)) : Option (Json α) := do
  let tilesetJson : Json α := Json.null.set "asset" (Json.obj [("version", Json.str "1.0")])
  let tilesetJson := tilesetJson.set "geometricError" (Json.float MAX_GEOMETRIC_ERROR)
  let tilesetJson := tilesetJson.set "root" (Json.obj [])
  let tilesetJson := tilesetJson.set2 "root" "refine" (Json.str "ADD")
  let tilesetJson := tilesetJson.set2 "root" "geometricError" (Json.float MAX_GEOMETRIC_ERROR)
  let rootChildren : Json α := Json.arr []
  let rootRegion ← regions.head?
  let st ← forLoop 0 tilesetJsonPaths.length (combineStep tilesetJsonPaths regions)
    (rootChildren, rootRegion)
  let tilesetJson := tilesetJson.set2 "root" "children" st.1
  let tilesetJson := tilesetJson.set2 "root" "boundingVolume" (regionJson st.2)
  pure tilesetJson

/-- Lines 46-94 of `TileFormatIO.cpp`: the document followed by a newline is written. -/
def combineTilesetJson {α : Type} [LinearOrderedField α] (dump : Json α → List Nat)
    (tilesetJsonPaths : List String) (regions : List (BoundingRegion α)) (fs : OFStream) :
    Option OFStream :=
  (combinedDocument tilesetJsonPaths regions).map (fun doc => fs.write (dump doc ++ [10]))

/-- Modelled from the spec: `CDBTile`, declared outside the shown sources, as far as
`convertTilesetToJson` reads it: the bounding region, the optional content URI, the optional
content region and the children, a null pointer being `none`. -/
inductive CDBTile (α : Type) where
  | mk (boundRegion : BoundingRegion α) (customContentURI : Option String)
      (contentRegion : Option (BoundingRegion α)) (children : List (Option (CDBTile α))) :
      CDBTile α

/-- Modelled from the spec: `CDBTileset`, declared outside the shown sources, as far as
`writeToTilesetJson` reads it: the root tile, if any. -/
structure CDBTileset (α : Type) where
  root : Option (CDBTile α)

/-- Lines 368-386 of `TileFormatIO.cpp`: the member `content` is written when the tile has a
content URI, and `content.boundingVolume` when it also has a content region. -/
def tileContentJson {α : Type} (contentURI : Option String)
    (contentRegion : Option (BoundingRegion α)) (json : Json α) : Json α :=
  match contentURI with
  | some uri =>
    let json := json.set "content" (Json.obj [])
    let json := json.set2 "content" "uri" (Json.str uri)
    match contentRegion with
    | some region => json.set2 "content" "boundingVolume" (regionJson region)
    | none => json
  | none => json

mutual
/-- Lines 351-397 of `TileFormatIO.cpp`: the JSON node `json` after the call. -/
def convertTilesetToJson {α : Type} [LinearOrderedField α] :
    CDBTile α → α → Json α → Json α
  | CDBTile.mk tileRegion contentURI contentRegion children, geometricError, json =>
    let json := json.set "geometricError" (Json.float geometricError)
    let json := json.set "boundingVolume" (regionJson tileRegion)
    let json := tileContentJson contentURI contentRegion json
    convertChildren children geometricError json
/-- The loop at lines 388-396 over the children of a tile. -/
def convertChildren {α : Type} [LinearOrderedField α] :
    List (Option (CDBTile α)) → α → Json α → Json α
  | [], _, json => json
  | none :: rest, geometricError, json => convertChildren rest geometricError json
  | some child :: rest, geometricError, json =>
    let childJson := convertTilesetToJson child (geometricError / 2) (Json.obj [])
    convertChildren rest geometricError
      (json.set "children" ((json.index "children").pushBack childJson))
end

/-- Lines 98-110 of `TileFormatIO.cpp`: the document that `writeToTilesetJson` sends to the
stream, `none` when the tileset has no root. -/
def tilesetDocument {α : Type} [LinearOrderedField α] (tileset : CDBTileset α)
    (replace : Bool) : Option (Json α) :=
  let tilesetJson : Json α := Json.null.set "asset" (Json.obj [("version", Json.str "1.0")])
  let tilesetJson := tilesetJson.set "root" (Json.obj [])
  let tilesetJson :=
    if replace then tilesetJson.set2 "root" "refine" (Json.str "REPLACE")
    else tilesetJson.set2 "root" "refine" (Json.str "ADD")
  match tileset.root with
  | some root =>
    let tilesetJson := tilesetJson.set "root"
      (convertTilesetToJson root MAX_GEOMETRIC_ERROR (tilesetJson.index "root"))
    let tilesetJson := tilesetJson.set "geometricError"
      ((tilesetJson.index "root").index "geometricError")
    some tilesetJson
  | none => none

/-- Lines 96-113 of `TileFormatIO.cpp`: nothing is written when the tileset has no root. -/
def writeToTilesetJson {α : Type} [LinearOrderedField α] (dump : Json α → List Nat)
    (tileset : CDBTileset α) (replace : Bool) (fs : OFStream) : OFStream :=
  match tilesetDocument tileset replace with
  | some doc => fs.write (dump doc ++ [10])
  | none => fs

/-- The `i`-th element of the member `children` of a JSON node. -/
def Json.child {α : Type} (j : Json α) (i : Nat) : Option (Json α) :=
  ((j.get "children").bind Json.items).bind (fun xs => xs[i]?)

/-- The node reached from `j` by following the child indices of `path`. -/
def Json.descend {α : Type} : Json α → List Nat → Option (Json α)
  | j, [] => some j
  | j, i :: path => (j.child i).bind (fun c => Json.descend c path)

/-- Every node reached from `j` along a path of child indices carries the `geometricError`
`e / 2 ^ depth`, where the depth is the length of the path. -/
def Json.halvesFrom {α : Type} [LinearOrderedField α] (e : α) (j : Json α) : Prop :=
  ∀ path node, j.descend path = some node →
    node.get "geometricError" = some (Json.float (e / 2 ^ path.length))

/-- The node `j` carries the `geometricError` `e` and each of its children halves from
`e / 2`. -/
def Json.errorNode {α : Type} [LinearOrderedField α] (e : α) (j : Json α) : Prop :=
  j.get "geometricError" = some (Json.float e)
    ∧ ∀ i c, j.child i = some c → c.halvesFrom (e / 2)

/-! ## Tiles and their JSON nodes -/

/-- The getter `CDBTile::getBoundRegion`. -/
def CDBTile.getBoundRegion {α : Type} : CDBTile α → BoundingRegion α
  | CDBTile.mk boundRegion _ _ _ => boundRegion

/-- The getter `CDBTile::getCustomContentURI`. -/
def CDBTile.getCustomContentURI {α : Type} : CDBTile α → Option String
  | CDBTile.mk _ customContentURI _ _ => customContentURI

/-- The getter `CDBTile::getContentRegion`. -/
def CDBTile.getContentRegion {α : Type} : CDBTile α → Option (BoundingRegion α)
  | CDBTile.mk _ _ contentRegion _ => contentRegion

/-- The getter `CDBTile::getChildren`; a null pointer is `none`. -/
def CDBTile.getChildren {α : Type} : CDBTile α → List (Option (CDBTile α))
  | CDBTile.mk _ _ _ children => children

mutual
/-- The tile reached from a tile by following `path`; each index counts the non-null children
of a tile, in their order. -/
def CDBTile.descend {α : Type} : CDBTile α → List Nat → Option (CDBTile α)
  | CDBTile.mk boundRegion customContentURI contentRegion children, [] =>
    some (CDBTile.mk boundRegion customContentURI contentRegion children)
  | CDBTile.mk _ _ _ children, i :: path => descendChildren children i path
/-- The tile reached through the `i`-th non-null entry of a list of children. -/
def descendChildren {α : Type} : List (Option (CDBTile α)) → Nat → List Nat → Option (CDBTile α)
  | [], _, _ => none
  | none :: rest, i, path => descendChildren rest i path
  | some child :: _, 0, path => CDBTile.descend child path
  | some _ :: rest, i + 1, path => descendChildren rest i path
end

/-- The elements of the member `children` of a JSON node, none when the member is absent. -/
def Json.childList {α : Type} (j : Json α) : List (Json α) :=
  ((j.get "children").bind Json.items).getD []

/-- The JSON node carries the content of the tile: the member `content` exists exactly when
the tile has a content URI, `content.uri` is that URI, and `content.boundingVolume` is the
content region of the tile when the tile has both a URI and a content region, absent
otherwise. -/
def Json.contentOf {α : Type} (node : Json α) (tile : CDBTile α) : Prop :=
  (node.get "content").isSome = tile.getCustomContentURI.isSome
    ∧ node.get2 "content" "uri" = tile.getCustomContentURI.map Json.str
    ∧ node.get2 "content" "boundingVolume"
        = tile.getCustomContentURI.bind (fun _ => tile.getContentRegion.map regionJson)

/-- The JSON tree below `node` has a node exactly where the tile tree below `tile` has a tile,
and each node carries the content of its tile. -/
def Json.mirrors {α : Type} (node : Json α) (tile : CDBTile α) : Prop :=
  ∀ path : List Nat, (tile.descend path = none → node.descend path = none)
    ∧ ∀ t : CDBTile α, tile.descend path = some t →
        ∃ n : Json α, node.descend path = some n ∧ n.contentOf t

/-- The same for a list of JSON nodes and a list of children. -/
def mirrorsChildren {α : Type} (nodes : List (Json α)) (children : List (Option (CDBTile α))) :
    Prop :=
  ∀ (i : Nat) (path : List Nat),
    (descendChildren children i path = none
        → (nodes[i]?).bind (fun c => c.descend path) = none)
    ∧ ∀ t : CDBTile α, descendChildren children i path = some t →
        ∃ n : Json α, (nodes[i]?).bind (fun c => c.descend path) = some n ∧ n.contentOf t

/-! ## Placement of an elevation tile in its subtree (`Converter::convert`, lines 143-178, 268)

`level`, `x`, `y` and `subtreeLevels` are C++ `int`s; `/` on them truncates (`Int.tdiv`).
`static_cast<int>(glm::pow(2, levelWithinSubtree))` is the exact power of two whenever it fits
an `int`, that is for `levelWithinSubtree ≤ 30`, which covers every CDB level (at most 23). -/

/-- The values computed at lines 156-164 for one elevation tile. -/
structure SubtreePlacement where
  subtreeRootLevel : Int
  levelWithinSubtree : Int
  subtreeRootX : Int
  subtreeRootY : Int
  bufferKey : String
  deriving DecidableEq, Repr

/-- Lines 145-164: `x` is the tile's RREF and `y` its UREF; tiles of negative level are placed
in no subtree. -/
def subtreePlacement (subtreeLevels level UREF RREF : Int) : Option SubtreePlacement :=
  let x := RREF
  let y := UREF
  if level ≥ 0 then
    let subtreeRootLevel := (level.tdiv subtreeLevels) * subtreeLevels
    let levelWithinSubtree := level - subtreeRootLevel
    let subtreeRootX := x.tdiv (2 ^ levelWithinSubtree.toNat)
    let subtreeRootY := y.tdiv (2 ^ levelWithinSubtree.toNat)
    let bufferKey :=
      toString subtreeRootLevel ++ "_" ++ toString subtreeRootX ++ "_" ++ toString subtreeRootY
    some { subtreeRootLevel, levelWithinSubtree, subtreeRootX, subtreeRootY, bufferKey }
  else
    none

/-- Line 268: the path of the subtree file of buffer `key`; a `std::filesystem::path` is the
list of its components and `/` appends one. -/
def subtreeFilePath (geoCellAbsolutePath : List String) (key : String) : List String :=
  geoCellAbsolutePath ++ ["Elevation"] ++ ["subtrees"] ++ [key ++ ".subtree"]

/-! ## Elevation pass of one geocell (`Converter::convert`, lines 133-179, implicit tiling)

The maps `subtreeBuffers`, `subtreeAvailableNodeCount` and `subtreeAvailableChildCount` are
cleared together and receive their keys together, under the one test of line 165; they are one
association list from the key to the buffer and the two counters, listed in insertion order
(the pass does not depend on the iteration order of `std::map`).  The element type of
`forEachElevationTile` and `ConverterImpl::addElevationAvailability`, declared outside the
shown sources, are parameters. -/

/-- The buffer and the counters of one subtree. -/
structure SubtreeEntry where
  buffer : List Nat
  availableNodeCount : Nat
  availableChildCount : Nat
  deriving DecidableEq, Repr

/-- What the pass reads of an elevation tile, and `addElevationAvailability`, which may change
the buffer and the two counters of the subtree it is handed (through
`nodeAvailabilityBuffer`, `childSubtreeAvailabilityBuffer` and the two counter pointers). -/
structure ElevationEnv (ε : Type) where
  getLevel : ε → Int
  getUREF : ε → Int
  getRREF : ε → Int
  addElevationAvailability : ε → SubtreeEntry → Int → Int → Int → SubtreeEntry

/-- Lines 167-170: a new buffer of `bufferByteLength * 2` zero bytes and zero counters. -/
def newSubtreeEntry (subtreeLevels : Nat) : SubtreeEntry :=
  { buffer := List.replicate (bufferByteLength subtreeLevels * 2) 0
    availableNodeCount := 0
    availableChildCount := 0 }

/-- The call `map.insert({key, value})`: nothing happens when the key is present. -/
def mapInsert {β : Type} (m : List (String × β)) (key : String) (value : β) :
    List (String × β) :=
  if (m.lookup key).isSome then m else m ++ [(key, value)]

/-- Lines 143-178: the body of the `forEachElevationTile` callback on the subtree maps. -/
def elevationStep {ε : Type} (env : ElevationEnv ε) (subtreeLevels : Nat)
    (subtreeBuffers : List (String × SubtreeEntry)) (elevation : ε) :
    List (String × SubtreeEntry) :=
  match subtreePlacement subtreeLevels (env.getLevel elevation) (env.getUREF elevation)
      (env.getRREF elevation) with
  | some p =>
    let subtreeBuffers :=
      if (subtreeBuffers.lookup p.bufferKey).isNone then
        mapInsert subtreeBuffers p.bufferKey (newSubtreeEntry subtreeLevels)
      else subtreeBuffers
    match subtreeBuffers.lookup p.bufferKey with
    | some entry =>
      insertKey subtreeBuffers p.bufferKey
        (env.addElevationAvailability elevation entry p.subtreeRootLevel p.subtreeRootX
          p.subtreeRootY)
    | none => subtreeBuffers
  | none => subtreeBuffers

/-- The call `map.clear()`. -/
def mapClear {β : Type} (_ : List (String × β)) : List (String × β) := []

/-- Lines 133-179: the maps, as the previous geocell left them, are cleared, then the callback
runs on each elevation tile of the geocell in the order the reader yields them. -/
def elevationPass {ε : Type} (env : ElevationEnv ε) (subtreeLevels : Nat)
    (previous : List (String × SubtreeEntry)) (tiles : List ε) : List (String × SubtreeEntry) :=
  let subtreeBuffers := mapClear previous
  tiles.foldl (elevationStep env subtreeLevels) subtreeBuffers

/-- The entry the subtree `key` is to hold after the tiles: nothing until a tile of the
subtree is met; the first such tile finds a new zeroed entry, each later one the entry as the
former left it. -/
def subtreeEntryOf {ε : Type} (env : ElevationEnv ε) (subtreeLevels : Nat) (key : String)
    (start : Option SubtreeEntry) (tiles : List ε) : Option SubtreeEntry :=
  tiles.foldl (fun entry elevation =>
    match subtreePlacement subtreeLevels (env.getLevel elevation) (env.getUREF elevation)
        (env.getRREF elevation) with
    | some p =>
      if p.bufferKey = key then
        some (env.addElevationAvailability elevation
          (entry.getD (newSubtreeEntry subtreeLevels)) p.subtreeRootLevel p.subtreeRootX
          p.subtreeRootY)
      else entry
    | none => entry) start

/-! ## Requested dataset combinations (`Converter::combineDataset`, lines 31-75)

A dataset string is a `String`; its characters are read through `String.data`.  A thrown
`std::runtime_error` is `Except.error` with the message.  `DATASET_PATHS`, a member of
`ConverterImpl` declared outside the shown sources, is a parameter. -/

deriving instance DecidableEq for Except

/-- The call `s.find(c, pos)` of `std::string` with a one-character pattern: the first index
at or after `pos` that holds `c`; `none` is `npos`. -/
def find (s : List Char) (c : Char) (pos : Nat) : Option Nat :=
  if (s.drop pos).indexOf c < (s.drop pos).length then
    some (pos + (s.drop pos).indexOf c)
  else
    none

/-- The call `s.substr(pos, len)` of `std::string`, for `pos` inside the string. -/
def substr (s : List Char) (pos len : Nat) : List Char :=
  (s.drop pos).take len

/-- The message of lines 44-45 and 59-60. -/
def wrongFormatMessage : String :=
  "Wrong format. Required format should be: \x7bDatasetName\x7d_\x7bComponent "
    ++ "Selector 1\x7d_\x7bComponent Selector 2\x7d"

/-- Lines 50-54: the message that enumerates the allowed dataset names. -/
def unrecognizedMessage (DATASET_PATHS : List String) (datasetName : String) : String :=
  DATASET_PATHS.foldl (fun errorMessage requiredDataset => errorMessage ++ requiredDataset ++ "\n")
    ("Unrecognize dataset: " ++ datasetName ++ "\n" ++ "Correct dataset names are: \n")

/-- The test of lines 65 and 70: `CS.empty() || !std::all_of(CS.begin(), CS.end(), ::isdigit)`. -/
def notANumber (CS : List Char) : Bool :=
  CS.isEmpty || !CS.all Char.isDigit

/-- The body of the loop of `combineDataset` (lines 42-73) for one dataset string. -/
def validateDataset (DATASET_PATHS : List String) (dataset : String) : Except String Unit :=
  match find dataset.data '_' 0 with
  | none => Except.error wrongFormatMessage
  | some datasetNamePos =>
    let datasetName := String.mk (substr dataset.data 0 datasetNamePos)
    if datasetName ∉ DATASET_PATHS then
      Except.error (unrecognizedMessage DATASET_PATHS datasetName)
    else
      match find dataset.data '_' (datasetNamePos + 1) with
      | none => Except.error wrongFormatMessage
      | some CS_1Pos =>
        let CS_1 := substr dataset.data (datasetNamePos + 1) (CS_1Pos - datasetNamePos - 1)
        if notANumber CS_1 then
          Except.error "Component selector 1 has to be a number"
        else
          let CS_2 := dataset.data.drop (CS_1Pos + 1)
          if notANumber CS_2 then
            Except.error "Component selector 2 has to be a number"
          else
            Except.ok ()

/-- The function `Converter::combineDataset`: the new value of `requestedDatasetToCombine`
(the list is recorded at line 40, before any string is checked, and stays recorded when a
later check throws) and the outcome of the call. -/
def combineDataset (DATASET_PATHS : List String) (requestedDatasetToCombine : List (List String))
    (datasets : List String) : List (List String) × Except String Unit :=
  if datasets.length = 1 then
    (requestedDatasetToCombine, Except.ok ())
  else
    (requestedDatasetToCombine ++ [datasets], datasets.forM (validateDataset DATASET_PATHS))

/-- The well-formed dataset strings in the words of the specification:
`DatasetName_Selector1_Selector2` with `DatasetName`, the text before the first `_`, in the
allowed set and both selectors non-empty strings of decimal digits. -/
def WellFormedDataset (DATASET_PATHS : List String) (dataset : String) : Prop :=
  ∃ name cs1 cs2 : List Char, dataset.data = name ++ '_' :: (cs1 ++ '_' :: cs2)
    ∧ '_' ∉ name ∧ String.mk name ∈ DATASET_PATHS
    ∧ cs1 ≠ [] ∧ (∀ c ∈ cs1, c.isDigit = true)
    ∧ cs2 ≠ [] ∧ (∀ c ∈ cs2, c.isDigit = true)

/-- The integer a string of decimal digits denotes. -/
def decimalValue (cs : List Char) : Nat :=
  cs.foldl (fun n c => 10 * n + (c.toNat - '0'.toNat)) 0

/-! ## Combination of the converted tilesets (`Converter::convert`, lines 292-302 and 386-417)

The maps of `convert` are association lists in the iteration order of `std::map`;
`map[key]` on a missing key reads as the empty vector.  Each
`std::ofstream fs(outputPath / name); combineTilesetJson(paths, regions, fs);`
is recorded as one `CombineCall`, in the order of execution. -/

/-- The variables the last stage of `convert` reads, as the geocell loop leaves them. -/
structure CombineState (α : Type) where
  combinedTilesets : List (String × List String)
  combinedTilesetsRegions : List (String × List (BoundingRegion α))
  aggregateTilesetsRegion : List (String × BoundingRegion α)
  requestedDatasetToCombine : List (List String)

/-- One file opened under the output root and the arguments of the `combineTilesetJson` call
that fills it. -/
structure CombineCall (α : Type) where
  fileName : String
  tilesetJsonPaths : List String
  regions : List (BoundingRegion α)

/-- Lines 292-302 (implicit tiling): the paths and regions of all default tilesets are
gathered and combined into `tileset.json`. -/
def implicitCombine {α : Type} (st : CombineState α) : List (CombineCall α) :=
  let gathered := st.combinedTilesets.foldl
    (fun (acc : List String × List (BoundingRegion α)) tileset =>
      let tilesetRegions := (st.combinedTilesetsRegions.lookup tileset.1).getD []
      (acc.1 ++ tileset.2, acc.2 ++ tilesetRegions))
    ([], [])
  [{ fileName := "tileset.json", tilesetJsonPaths := gathered.1, regions := gathered.2 }]

/-- Lines 386-390: one file per default tileset. -/
def defaultCombine {α : Type} (st : CombineState α) : List (CombineCall α) :=
  st.combinedTilesets.map (fun tileset =>
    { fileName := tileset.1 ++ ".json"
      tilesetJsonPaths := tileset.2
      regions := (st.combinedTilesetsRegions.lookup tileset.1).getD [] })

/-- Lines 403-412: the requested tilesets that exist, with their aggregate regions. -/
def existTilesets {α : Type} (aggregateTilesetsRegion : List (String × BoundingRegion α))
    (tilesets : List String) : List String × List (BoundingRegion α) :=
  tilesets.foldl
    (fun (acc : List String × List (BoundingRegion α)) tileset =>
      match aggregateTilesetsRegion.lookup tileset with
      | some tilesetRegion => (acc.1 ++ [tileset ++ ".json"], acc.2 ++ [tilesetRegion])
      | none => acc)
    ([], [])

/-- Lines 394-401: the file name of a requested combination. -/
def combinedTilesetName (requestedDatasetToCombine : List (List String))
    (tilesets : List String) : String :=
  if requestedDatasetToCombine.length > 1 then
    tilesets.foldl (fun name tileset => name ++ tileset) "" ++ ".json"
  else
    "tileset.json"

/-- Lines 392-416: one file per requested combination. -/
def requestedCombine {α : Type} (st : CombineState α) : List (CombineCall α) :=
  st.requestedDatasetToCombine.map (fun tilesets =>
    { fileName := combinedTilesetName st.requestedDatasetToCombine tilesets
      tilesetJsonPaths := (existTilesets st.aggregateTilesetsRegion tilesets).1
      regions := (existTilesets st.aggregateTilesetsRegion tilesets).2 })

/-- The last stage of `convert` in either mode. -/
def convertCombine {α : Type} (threeDTilesNext : Bool) (st : CombineState α) :
    List (CombineCall α) :=
  if threeDTilesNext then implicitCombine st
  else defaultCombine st ++ requestedCombine st

/-! ## Sample inputs -/

/-- An attribute table with two instances, one integer, one double and one string column. -/
def sampleAttribs : CDBInstancesAttributes :=
  { instancesCount := 2
    CNAMs := ["tree", "house"]
    integerAttribs := [("AHGT", [1, -1])]
    doubleAttribs := [("BSR", [4607182418800017408, 4611686018427387904])]
    stringAttribs := [("FACC", ["EC030", "AL015"])] }

/-- A stand-in for the JSON serializer in examples: every value is printed as `{}`. -/
def sampleDump {α : Type} (_ : Json α) : List Nat := ascii "\x7b\x7d"

/-- Stand-ins for the collaborators of `writeToI3DM` in examples: positions are taken as
Cartesian, the normals are the unit axes, and every number is stored as four zero bytes. -/
def sampleEnv : I3dmEnv ℚ :=
  { cartographicToCartesian := fun c => ⟨c.longitude, c.latitude, c.height⟩
    normalUp := fun _ _ => ⟨0, 0, 1⟩
    normalRight := fun _ _ => ⟨1, 0, 0⟩
    f32 := fun _ => [0, 0, 0, 0]
    f32_length := fun _ => rfl }

/-- Two instance positions for examples. -/
def samplePositions : List (Cartographic ℚ) := [⟨0, 0, 0⟩, ⟨2, 4, 6⟩]

/-- Two unit scales for examples. -/
def sampleScales : List (Vec3 ℚ) := [⟨1, 1, 1⟩, ⟨1, 1, 1⟩]

/-- Two headings for examples. -/
def sampleOrientations : List ℚ := [0, 90]

/-- A tile writer for examples: call `i` appends `256 * (i + 1)` bytes and returns that count. -/
def sampleTileWriter (fs : OFStream) (i : Nat) : OFStream × Nat :=
  (fs.write (List.replicate (256 * (i + 1)) 7), 256 * (i + 1))

/-- A tile writer for examples: every call appends `2 ^ 31` zero bytes and returns that count. -/
def hugeTileWriter (fs : OFStream) (_ : Nat) : OFStream × Nat :=
  (fs.write (List.replicate 2147483648 0), 2147483648)

/-- A subtree buffer of depth 4 as `convert` allocates it (`2 * 67` bytes) with the bit of the
subtree root set in the node availability bitmap. -/
def sampleSubtreeBuffer : List Nat :=
  List.replicate 24 0 ++ [1] ++ List.replicate 109 0

/-- Two tileset paths for examples. -/
def samplePaths : List String := ["N32/E118/tileset.json", "N32/E119/tileset.json"]

/-- Two regions for examples. -/
def sampleRegions : List (BoundingRegion ℚ) :=
  [⟨⟨-1, 0, 0, 1⟩, 0, 100⟩, ⟨⟨0, 0, 1, 1⟩, -10, 50⟩]

/-- A tile tree for examples: a root with a null child and one child, which has one child with
a content URI and a content region. -/
def sampleTile : CDBTile ℚ :=
  CDBTile.mk ⟨⟨0, 0, 4, 4⟩, 0, 100⟩ none none
    [none,
      some (CDBTile.mk ⟨⟨0, 0, 2, 2⟩, 0, 50⟩ (some "0_0_0.b3dm") none
        [some (CDBTile.mk ⟨⟨0, 0, 1, 1⟩, 0, 20⟩ (some "1_0_0.b3dm")
          (some ⟨⟨0, 0, 1, 1⟩, 5, 10⟩) [])])]

/-- A sample of allowed dataset names. -/
def sampleDatasetPaths : List String :=
  ["Elevation", "GSFeature", "GSModels", "GTFeature", "GTModels", "RoadNetwork"]

/-- A tile for examples whose content region is its own bounding region. -/
def equalRegionTile : CDBTile ℚ :=
  CDBTile.mk ⟨⟨0, 0, 1, 1⟩, 0, 20⟩ (some "0_0_0.b3dm") (some ⟨⟨0, 0, 1, 1⟩, 0, 20⟩) []

/-- The state after converting one geocell with elevation and road network tilesets, with the
given requested combinations. -/
def sampleCombineState (requested : List (List String)) : CombineState ℚ :=
  { combinedTilesets :=
      [("Elevation_1_1", ["N32W118/Elevation/1_1/tileset.json"]),
        ("RoadNetwork_2_3", ["N32W118/RoadNetwork/2_3/tileset.json"])]
    combinedTilesetsRegions :=
      [("Elevation_1_1", [⟨⟨-1, 0, 0, 1⟩, 0, 100⟩]), ("RoadNetwork_2_3", [⟨⟨-1, 0, 0, 1⟩, 0, 100⟩])]
    aggregateTilesetsRegion :=
      [("Elevation_1_1", ⟨⟨-1, 0, 0, 1⟩, 0, 100⟩), ("RoadNetwork_2_3", ⟨⟨-1, 0, 0, 1⟩, 0, 100⟩)]
    requestedDatasetToCombine := requested }

/-- A subtree buffer of depth 4 (`2 * 67` bytes) with the bit of the subtree root set in the
node availability bitmap (byte 24) and the bit of child subtree 0 set in the child subtree
availability bitmap (byte 35). -/
def sampleSubtreeBufferWithChild : List Nat :=
  List.replicate 24 0 ++ [1] ++ List.replicate 10 0 ++ [1] ++ List.replicate 98 0

/-- Elevation tiles for examples are triples (level, UREF, RREF); the stand-in for
`addElevationAvailability` counts the tile as one more available node. -/
def sampleElevationEnv : ElevationEnv (Int × Int × Int) :=
  { getLevel := fun t => t.1
    getUREF := fun t => t.2.1
    getRREF := fun t => t.2.2
    addElevationAvailability := fun _ entry _ _ _ =>
      { entry with availableNodeCount := entry.availableNodeCount + 1 } }

/-! # Properties -/

/-! ## Memory, streams and words -/

theorem length_writeAt (mem : List Nat) (off : Nat) (src : List Nat) :
    (writeAt mem off src).length = max mem.length (off + src.length) := by
  simp only [writeAt, List.length_append, List.length_take, List.length_replicate,
    List.length_drop]
  omega

theorem writeAt_end (mem src : List Nat) : writeAt mem mem.length src = mem ++ src := by
  simp [writeAt]

theorem length_u32le (n : Nat) : (u32le n).length = 4 := rfl

theorem length_u64le (n : Nat) : (u64le n).length = 8 := rfl

theorem length_i32le (v : Int) : (i32le v).length = 4 := rfl

theorem fromLE_u32le (n : Nat) : fromLE (u32le n) = n % 4294967296 := by
  simp only [u32le, fromLE]
  omega

theorem fromLE_u64le (n : Nat) : fromLE (u64le n) = n % 18446744073709551616 := by
  simp only [u64le, u32le, fromLE, List.cons_append, List.nil_append]
  omega

theorem OFStream.write_atEnd (fs : OFStream) (bytes : List Nat) (h : fs.atEnd) :
    (fs.write bytes).data = fs.data ++ bytes ∧ (fs.write bytes).atEnd := by
  unfold OFStream.atEnd at h
  simp [OFStream.write, OFStream.atEnd, h, writeAt_end]

theorem OFStream.write_empty (bytes : List Nat) :
    OFStream.empty.write bytes = ⟨bytes, bytes.length⟩ := by
  simp [OFStream.write, OFStream.empty, writeAt]

theorem OFStream.write_end (d bytes : List Nat) :
    (OFStream.mk d d.length).write bytes = ⟨d ++ bytes, (d ++ bytes).length⟩ := by
  simp [OFStream.write, writeAt_end]

/-! ## Rounding -/

theorem roundUp_eight (n : Nat) : roundUp n 8 = (n + 7) / 8 * 8 := by
  simp [roundUp]

theorem roundUp_mod (n : Nat) : roundUp n 8 % 8 = 0 := by
  rw [roundUp_eight]; omega

theorem le_roundUp (n : Nat) : n ≤ roundUp n 8 := by
  rw [roundUp_eight]; omega

theorem roundUp_lt (n : Nat) : roundUp n 8 < n + 8 := by
  rw [roundUp_eight]; omega

theorem alignTo8_eq (v : Nat) : alignTo8 v = (v + 7) / 8 * 8 := by
  unfold alignTo8
  apply Nat.eq_of_testBit_eq
  intro i
  rw [Nat.testBit_ldiff]
  have h7 : (7 : Nat) = 2 ^ 3 - 1 := by norm_num
  have h8 : (v + 7) / 8 * 8 = ((v + 7) >>> 3) <<< 3 := by
    rw [Nat.shiftLeft_eq, Nat.shiftRight_eq_div_pow]
  rw [h8, Nat.testBit_shiftLeft, h7, Nat.testBit_two_pow_sub_one]
  by_cases hi : i < 3
  · simp [hi]
  · have hge : 3 ≤ i := by omega
    simp [hi, hge, Nat.testBit_shiftRight]

theorem alignTo8_mod (v : Nat) : alignTo8 v % 8 = 0 := by
  rw [alignTo8_eq]; omega

theorem le_alignTo8 (v : Nat) : v ≤ alignTo8 v := by
  rw [alignTo8_eq]; omega

theorem alignTo8_lt (v : Nat) : alignTo8 v < v + 8 := by
  rw [alignTo8_eq]; omega

/-! ## Batch table -/

theorem batchTableColumn_mem_length {α : Type} (ct : String) (st : BatchTableState α)
    (key : String) (column : List Nat) :
    st.mem.length ≤ (batchTableColumn ct st key column).mem.length := by
  simp only [batchTableColumn, length_writeAt]
  omega

theorem foldl_batchTableColumn_mem_length {α : Type} {γ : Type} (ct : String)
    (enc : γ → List Nat) (cols : List (String × γ)) (st : BatchTableState α) :
    st.mem.length ≤
      (cols.foldl (fun st kv => batchTableColumn ct st kv.1 (enc kv.2)) st).mem.length := by
  induction cols generalizing st with
  | nil => simp
  | cons kv rest ih =>
    rw [List.foldl_cons]
    exact le_trans (batchTableColumn_mem_length ct st kv.1 (enc kv.2)) (ih _)

theorem batchTableColumns_mem_length {α : Type} (attribs : CDBInstancesAttributes) :
    roundUp (attribs.integerAttribs.length * 4 * attribs.instancesCount) 8
        + attribs.doubleAttribs.length * 8 * attribs.instancesCount
      ≤ (batchTableColumns attribs : BatchTableState α).mem.length := by
  unfold batchTableColumns
  refine le_trans ?_ (foldl_batchTableColumn_mem_length "DOUBLE" (fun (c : List Nat) => c.flatMap u64le) _ _)
  refine le_trans ?_ (foldl_batchTableColumn_mem_length "INT" (fun (c : List Int) => c.flatMap i32le) _ _)
  simp

theorem createBatchTable_json_length {α : Type} (dump : Json α → List Nat)
    (instancesAttribs : Option CDBInstancesAttributes) :
    (createBatchTable dump instancesAttribs).1.length % 8 = 0 := by
  cases instancesAttribs with
  | none => simp [createBatchTable]
  | some attribs =>
    simp only [createBatchTable, List.length_append, List.length_replicate]
    have h1 := le_roundUp (dump (batchTableColumns attribs).json).length
    have h2 := roundUp_mod (dump (batchTableColumns attribs).json).length
    omega

theorem createBatchTable_buffer_length {α : Type} (dump : Json α → List Nat)
    (attribs : CDBInstancesAttributes) :
    (createBatchTable dump (some attribs)).2.length
      = roundUp (attribs.integerAttribs.length * 4 * attribs.instancesCount) 8
        + attribs.doubleAttribs.length * 8 * attribs.instancesCount := by
  simp only [createBatchTable, List.length_take]
  have h : _ ≤ (batchTableColumns attribs : BatchTableState α).mem.length :=
    batchTableColumns_mem_length attribs
  omega

theorem createBatchTable_buffer_mod {α : Type} (dump : Json α → List Nat)
    (instancesAttribs : Option CDBInstancesAttributes) :
    (createBatchTable dump instancesAttribs).2.length % 8 = 0 := by
  cases instancesAttribs with
  | none => simp [createBatchTable]
  | some attribs =>
    rw [createBatchTable_buffer_length]
    have h := roundUp_mod (attribs.integerAttribs.length * 4 * attribs.instancesCount)
    have h8 : attribs.doubleAttribs.length * 8 * attribs.instancesCount
        = 8 * (attribs.doubleAttribs.length * attribs.instancesCount) := by ring
    omega

/-! ## B3DM -/

theorem ascii_b3dm : ascii "b3dm" = [98, 51, 100, 109] := by decide

theorem length_b3dmGlbBuffer (glb : List Nat) :
    (b3dmGlbBuffer glb).length = roundUp glb.length 8 := by
  have h := le_roundUp glb.length
  simp only [b3dmGlbBuffer, List.length_take, length_writeAt, List.length_replicate]
  omega

theorem b3dmFeatureTableString_mod (instancesAttribs : Option CDBInstancesAttributes) :
    (28 + (b3dmFeatureTableString instancesAttribs).length) % 8 = 0 := by
  simp only [b3dmFeatureTableString, List.length_append, List.length_replicate]
  generalize (ascii "\x7b\"BATCH_LENGTH\":").length + (ascii (Nat.repr _)).length
    + (ascii "\x7d").length = n
  have h1 := le_roundUp (28 + n)
  have h2 := roundUp_mod (28 + n)
  omega

theorem writeToB3DM_data {α : Type} (dump : Json α → List Nat) (glb : List Nat)
    (instancesAttribs : Option CDBInstancesAttributes) :
    (writeToB3DM dump glb instancesAttribs OFStream.empty).data
      = (b3dmHeader (b3dmFeatureTableString instancesAttribs)
            (createBatchTable dump instancesAttribs).1
            (createBatchTable dump instancesAttribs).2 (b3dmGlbBuffer glb)).bytes
          ++ b3dmFeatureTableString instancesAttribs
          ++ (createBatchTable dump instancesAttribs).1
          ++ (createBatchTable dump instancesAttribs).2 ++ b3dmGlbBuffer glb := by
  simp only [writeToB3DM, OFStream.write_empty, OFStream.write_end]

theorem b3dmHeader_length_bytes (h : B3dmHeader) (hm : h.magic.length = 4) :
    h.bytes.length = 28 := by
  simp [B3dmHeader.bytes, length_u32le, hm]

theorem b3dmHeader_fields (h : B3dmHeader) (hm : h.magic.length = 4) (rest : List Nat) :
    (h.bytes ++ rest).take 4 = h.magic
    ∧ ((h.bytes ++ rest).drop 4).take 4 = u32le h.version
    ∧ ((h.bytes ++ rest).drop 8).take 4 = u32le h.byteLength
    ∧ ((h.bytes ++ rest).drop 12).take 4 = u32le h.featureTableJsonByteLength
    ∧ ((h.bytes ++ rest).drop 16).take 4 = u32le h.featureTableBinByteLength
    ∧ ((h.bytes ++ rest).drop 20).take 4 = u32le h.batchTableJsonByteLength
    ∧ ((h.bytes ++ rest).drop 24).take 4 = u32le h.batchTableBinByteLength := by
  obtain ⟨magic, v, bl, a, b, c, d⟩ := h
  match magic, hm with
  | [m0, m1, m2, m3], _ => simp [B3dmHeader.bytes, u32le]

/-- C1: the file written by `writeToB3DM` to a fresh stream starts with `b3dm`, the
little-endian word 1 and a little-endian `byteLength` equal to the number of bytes written,
which is 28 plus the four declared section lengths plus the GLB length rounded up to a
multiple of 8, provided that total is below `2 ^ 32`. -/
theorem writeToB3DM_byteLength {α : Type} (dump : Json α → List Nat) (glb : List Nat)
    (instancesAttribs : Option CDBInstancesAttributes)
    (hfit : (writeToB3DM dump glb instancesAttribs OFStream.empty).data.length < 2 ^ 32) :
    (writeToB3DM dump glb instancesAttribs OFStream.empty).data.take 4 = ascii "b3dm"
    ∧ ((writeToB3DM dump glb instancesAttribs OFStream.empty).data.drop 4).take 4 = u32le 1
    ∧ ((writeToB3DM dump glb instancesAttribs OFStream.empty).data.drop 8).take 4
        = u32le (writeToB3DM dump glb instancesAttribs OFStream.empty).data.length
    ∧ u32At (writeToB3DM dump glb instancesAttribs OFStream.empty).data 8
        = (writeToB3DM dump glb instancesAttribs OFStream.empty).data.length
    ∧ (writeToB3DM dump glb instancesAttribs OFStream.empty).data.length
        = 28 + u32At (writeToB3DM dump glb instancesAttribs OFStream.empty).data 12
          + u32At (writeToB3DM dump glb instancesAttribs OFStream.empty).data 16
          + u32At (writeToB3DM dump glb instancesAttribs OFStream.empty).data 20
          + u32At (writeToB3DM dump glb instancesAttribs OFStream.empty).data 24
          + roundUp glb.length 8 := by
  rw [writeToB3DM_data] at hfit ⊢
  generalize hft : b3dmFeatureTableString instancesAttribs = ft at hfit ⊢
  generalize hbj : (createBatchTable dump instancesAttribs).1 = bj at hfit ⊢
  generalize hbb : (createBatchTable dump instancesAttribs).2 = bb at hfit ⊢
  have hg := length_b3dmGlbBuffer glb
  generalize b3dmGlbBuffer glb = g at hfit hg ⊢
  have hm : (b3dmHeader ft bj bb g).magic.length = 4 := by simp [b3dmHeader, ascii_b3dm]
  have hlen : ((b3dmHeader ft bj bb g).bytes ++ ft ++ bj ++ bb ++ g).length
      = 28 + ft.length + bj.length + bb.length + g.length := by
    simp only [List.length_append, b3dmHeader_length_bytes _ hm]
  rw [hlen] at hfit
  have hbl : (b3dmHeader ft bj bb g).byteLength
      = 28 + ft.length + bj.length + bb.length + g.length := by
    simp only [b3dmHeader, toU32]
    omega
  obtain ⟨f0, f1, f2, f3, f4, f5, f6⟩ :=
    b3dmHeader_fields (b3dmHeader ft bj bb g) hm (ft ++ bj ++ bb ++ g)
  simp only [← List.append_assoc] at f0 f1 f2 f3 f4 f5 f6
  refine ⟨f0, f1, ?_, ?_, ?_⟩
  · rw [f2, hlen, hbl]
  · rw [u32At, f2, fromLE_u32le, hlen, hbl]
    omega
  · rw [u32At, u32At, u32At, u32At, f3, f4, f5, f6, hlen, hg]
    simp only [fromLE_u32le, b3dmHeader, toU32]
    omega

/-- C5 (as stated, refuted): without an attribute table the declared
`featureTableJsonByteLength` is 20, which is not a multiple of 8. -/
theorem writeToB3DM_featureTableJsonByteLength_unaligned :
    u32At (writeToB3DM (fun _ : Json ℚ => []) [] none OFStream.empty).data 12 = 20
    ∧ u32At (writeToB3DM (fun _ : Json ℚ => []) [] none OFStream.empty).data 12 % 8 ≠ 0 := by
  decide

/-- C5 (amended): in every B3DM written by `writeToB3DM` the declared
`featureTableJsonByteLength` brings the 28-byte header plus the feature table JSON to a
multiple of 8 (so it is 4 modulo 8), `featureTableBinByteLength` is 0, and
`batchTableJsonByteLength` and `batchTableBinByteLength` are multiples of 8. -/
theorem writeToB3DM_section_alignment {α : Type} (dump : Json α → List Nat) (glb : List Nat)
    (instancesAttribs : Option CDBInstancesAttributes) :
    (28 + u32At (writeToB3DM dump glb instancesAttribs OFStream.empty).data 12) % 8 = 0
    ∧ u32At (writeToB3DM dump glb instancesAttribs OFStream.empty).data 12 % 8 = 4
    ∧ u32At (writeToB3DM dump glb instancesAttribs OFStream.empty).data 16 = 0
    ∧ u32At (writeToB3DM dump glb instancesAttribs OFStream.empty).data 20 % 8 = 0
    ∧ u32At (writeToB3DM dump glb instancesAttribs OFStream.empty).data 24 % 8 = 0 := by
  rw [writeToB3DM_data]
  have hft := b3dmFeatureTableString_mod instancesAttribs
  have hbj := createBatchTable_json_length dump instancesAttribs
  have hbb := createBatchTable_buffer_mod dump instancesAttribs
  generalize b3dmFeatureTableString instancesAttribs = ft at hft ⊢
  generalize (createBatchTable dump instancesAttribs).1 = bj at hbj ⊢
  generalize (createBatchTable dump instancesAttribs).2 = bb at hbb ⊢
  generalize b3dmGlbBuffer glb = g
  have hm : (b3dmHeader ft bj bb g).magic.length = 4 := by simp [b3dmHeader, ascii_b3dm]
  obtain ⟨-, -, -, f3, f4, f5, f6⟩ :=
    b3dmHeader_fields (b3dmHeader ft bj bb g) hm (ft ++ bj ++ bb ++ g)
  simp only [← List.append_assoc] at f3 f4 f5 f6
  rw [u32At, u32At, u32At, u32At, f3, f4, f5, f6]
  simp only [fromLE_u32le, b3dmHeader, toU32]
  refine ⟨by omega, by omega, trivial, by omega, by omega⟩

set_option maxRecDepth 4000 in
/-- Witness of C1: a three-byte payload with the sample attribute table. -/
theorem writeToB3DM_byteLength_witness :
    (writeToB3DM (sampleDump : Json ℚ → List Nat) [1, 2, 3] (some sampleAttribs)
        OFStream.empty).data.length < 2 ^ 32
    ∧ u32At (writeToB3DM (sampleDump : Json ℚ → List Nat) [1, 2, 3] (some sampleAttribs)
        OFStream.empty).data 8
      = (writeToB3DM (sampleDump : Json ℚ → List Nat) [1, 2, 3] (some sampleAttribs)
        OFStream.empty).data.length :=
  ⟨by decide, (writeToB3DM_byteLength sampleDump [1, 2, 3] (some sampleAttribs)
    (by decide)).2.2.2.1⟩

/-! ## I3DM -/

theorem forLoop_inv {σ : Type} (P : σ → Prop) (stop : Nat) (body : Nat → σ → Option σ)
    (hbody : ∀ i s, i < stop → P s → ∃ s', body i s = some s' ∧ P s') :
    ∀ (n start : Nat) (s : σ), start + n ≤ stop → P s →
      ∃ s', (List.range' start n).foldlM (fun s i => body i s) s = some s' ∧ P s' := by
  intro n
  induction n with
  | zero => intro start s _ hs; exact ⟨s, rfl, hs⟩
  | succ n ih =>
    intro start s hle hs
    obtain ⟨s1, h1, hp1⟩ := hbody start s (by omega) hs
    obtain ⟨s2, h2, hp2⟩ := ih (start + 1) s1 (by omega) hp1
    refine ⟨s2, ?_, hp2⟩
    rw [List.range'_succ, List.foldlM_cons, h1]
    exact h2

theorem forLoop_some {σ : Type} (P : σ → Prop) (start stop : Nat) (body : Nat → σ → Option σ)
    (s : σ) (hs : P s) (hbody : ∀ i s, i < stop → P s → ∃ s', body i s = some s' ∧ P s') :
    ∃ s', forLoop start stop body s = some s' ∧ P s' := by
  unfold forLoop
  by_cases h : start ≤ stop
  · exact forLoop_inv P stop body hbody (stop - start) start s (by omega) hs
  · have h0 : stop - start = 0 := by omega
    rw [h0]
    exact ⟨s, rfl, hs⟩

theorem i3dmBounds_some {α : Type} [LinearOrder α] (env : I3dmEnv α) (n : Nat)
    (positions : List (Cartographic α)) (h1 : 1 ≤ n) (hn : n ≤ positions.length) :
    ∃ b, i3dmBounds env n positions = some b := by
  cases positions with
  | nil => simp at hn; omega
  | cons p ps =>
    obtain ⟨b, hb, -⟩ := forLoop_some (fun _ => True) 1 n
      (fun i (mm : Vec3 α × Vec3 α) => do
        let position ← (p :: ps)[i]?
        let worldPosition := env.cartographicToCartesian position
        pure (Vec3.min worldPosition mm.1, Vec3.max worldPosition mm.2))
      (env.cartographicToCartesian p, env.cartographicToCartesian p) trivial
      (by
        intro i s hi _
        have hlt : i < (p :: ps).length := by omega
        simp [List.getElem?_eq_getElem hlt])
    exact ⟨b, by simpa [i3dmBounds] using hb⟩

theorem i3dmInstance_some {α : Type} [Sub α] (env : I3dmEnv α) (center : Vec3 α)
    (positions : List (Cartographic α)) (scales : List (Vec3 α)) (orientations : List α)
    (o1 o2 o3 o4 i : Nat) (mem : List Nat) (size : Nat) (hp : i < positions.length)
    (hs : i < scales.length) (ho : i < orientations.length) (hm : size ≤ mem.length) :
    ∃ mem', i3dmInstance env center positions scales orientations o1 o2 o3 o4 i mem = some mem'
      ∧ size ≤ mem'.length := by
  simp only [i3dmInstance, List.getElem?_eq_getElem hp, List.getElem?_eq_getElem hs,
    List.getElem?_eq_getElem ho, Option.pure_def, Option.bind_eq_bind, Option.some_bind]
  refine ⟨_, rfl, ?_⟩
  simp only [length_writeAt]
  omega

theorem i3dmFeatureTableBuffer_some {α : Type} [Sub α] (env : I3dmEnv α) (n : Nat)
    (center : Vec3 α) (positions : List (Cartographic α)) (scales : List (Vec3 α))
    (orientations : List α) (hp : n ≤ positions.length) (hs : n ≤ scales.length)
    (ho : n ≤ orientations.length) :
    ∃ fb, i3dmFeatureTableBuffer env n center positions scales orientations = some fb
      ∧ fb.length = roundUp (n * 12 + n * 12 + n * 12 + n * 12) 8 := by
  obtain ⟨mem, hmem, hlen⟩ := forLoop_some
    (fun mem : List Nat => roundUp (n * 12 + n * 12 + n * 12 + n * 12) 8 ≤ mem.length) 0 n
    (i3dmInstance env center positions scales orientations 0 (n * 12) (n * 12 + n * 12)
      (n * 12 + n * 12 + n * 12))
    (List.replicate (roundUp (n * 12 + n * 12 + n * 12 + n * 12) 8) 0) (by simp)
    (fun i s hi hlen => i3dmInstance_some env center positions scales orientations _ _ _ _ i s _
      (by omega) (by omega) (by omega) hlen)
  refine ⟨mem.take (roundUp (n * 12 + n * 12 + n * 12 + n * 12) 8), ?_, ?_⟩
  · simp only [i3dmFeatureTableBuffer, hmem, Option.map_some']
  · rw [List.length_take]
    omega

theorem ascii_i3dm : ascii "i3dm" = [105, 51, 100, 109] := by decide

theorem length_padSpaces (base : Nat) (s : List Nat) :
    (padSpaces base s).length = roundUp (base + s.length) 8 - base := by
  have h := le_roundUp (base + s.length)
  simp only [padSpaces, List.length_append, List.length_replicate]
  omega

theorem i3dmHeader_length_bytes (h : I3dmHeader) (hm : h.magic.length = 4) :
    h.bytes.length = 32 := by
  simp [I3dmHeader.bytes, length_u32le, hm]

theorem i3dmHeader_fields (h : I3dmHeader) (hm : h.magic.length = 4) (rest : List Nat) :
    (h.bytes ++ rest).take 4 = h.magic
    ∧ u32At (h.bytes ++ rest) 4 = h.version % 4294967296
    ∧ u32At (h.bytes ++ rest) 8 = h.byteLength % 4294967296
    ∧ u32At (h.bytes ++ rest) 12 = h.featureTableJsonByteLength % 4294967296
    ∧ u32At (h.bytes ++ rest) 16 = h.featureTableBinByteLength % 4294967296
    ∧ u32At (h.bytes ++ rest) 20 = h.batchTableJsonByteLength % 4294967296
    ∧ u32At (h.bytes ++ rest) 24 = h.batchTableBinByteLength % 4294967296
    ∧ u32At (h.bytes ++ rest) 28 = h.gltfFormat % 4294967296 := by
  obtain ⟨magic, v, bl, a, b, c, d, e⟩ := h
  match magic, hm with
  | [m0, m1, m2, m3], _ =>
    simp only [← fromLE_u32le]
    simp [I3dmHeader.bytes, u32le, u32At]

/-- The stream and the value that `writeToI3DM` produces on a fresh stream. -/
theorem writeToI3DM_eq {α : Type} [LinearOrderedField α] (env : I3dmEnv α)
    (dump : Json α → List Nat) (uri : List Nat) (attribs : CDBInstancesAttributes)
    (positions : List (Cartographic α)) (scales : List (Vec3 α)) (orientations : List α)
    (h1 : 1 ≤ attribs.instancesCount) (hp : attribs.instancesCount ≤ positions.length)
    (hs : attribs.instancesCount ≤ scales.length)
    (ho : attribs.instancesCount ≤ orientations.length) :
    ∃ (center : Vec3 α) (fb : List Nat),
      fb.length = roundUp (attribs.instancesCount * 12 + attribs.instancesCount * 12
        + attribs.instancesCount * 12 + attribs.instancesCount * 12) 8
      ∧ writeToI3DM env dump uri attribs positions scales orientations OFStream.empty
        = some (⟨(i3dmHeader
              (padSpaces 32 (dump (i3dmFeatureTableJson attribs.instancesCount center 0
                (attribs.instancesCount * 12)
                (attribs.instancesCount * 12 + attribs.instancesCount * 12)
                (attribs.instancesCount * 12 + attribs.instancesCount * 12
                  + attribs.instancesCount * 12))))
              fb (padSpaces 0 (createBatchTable dump (some attribs)).1)
              (createBatchTable dump (some attribs)).2 (padSpaces 0 uri)).bytes
            ++ padSpaces 32 (dump (i3dmFeatureTableJson attribs.instancesCount center 0
                (attribs.instancesCount * 12)
                (attribs.instancesCount * 12 + attribs.instancesCount * 12)
                (attribs.instancesCount * 12 + attribs.instancesCount * 12
                  + attribs.instancesCount * 12)))
            ++ fb ++ padSpaces 0 (createBatchTable dump (some attribs)).1
            ++ (createBatchTable dump (some attribs)).2 ++ padSpaces 0 uri,
          ((i3dmHeader
              (padSpaces 32 (dump (i3dmFeatureTableJson attribs.instancesCount center 0
                (attribs.instancesCount * 12)
                (attribs.instancesCount * 12 + attribs.instancesCount * 12)
                (attribs.instancesCount * 12 + attribs.instancesCount * 12
                  + attribs.instancesCount * 12))))
              fb (padSpaces 0 (createBatchTable dump (some attribs)).1)
              (createBatchTable dump (some attribs)).2 (padSpaces 0 uri)).bytes
            ++ padSpaces 32 (dump (i3dmFeatureTableJson attribs.instancesCount center 0
                (attribs.instancesCount * 12)
                (attribs.instancesCount * 12 + attribs.instancesCount * 12)
                (attribs.instancesCount * 12 + attribs.instancesCount * 12
                  + attribs.instancesCount * 12)))
            ++ fb ++ padSpaces 0 (createBatchTable dump (some attribs)).1
            ++ (createBatchTable dump (some attribs)).2 ++ padSpaces 0 uri).length⟩,
          (i3dmHeader
              (padSpaces 32 (dump (i3dmFeatureTableJson attribs.instancesCount center 0
                (attribs.instancesCount * 12)
                (attribs.instancesCount * 12 + attribs.instancesCount * 12)
                (attribs.instancesCount * 12 + attribs.instancesCount * 12
                  + attribs.instancesCount * 12))))
              fb (padSpaces 0 (createBatchTable dump (some attribs)).1)
              (createBatchTable dump (some attribs)).2 (padSpaces 0 uri)).byteLength) := by
  obtain ⟨b, hb⟩ := i3dmBounds_some env attribs.instancesCount positions h1 hp
  obtain ⟨fb, hfb, hlen⟩ := i3dmFeatureTableBuffer_some env attribs.instancesCount
    ((b.1.add b.2).half) positions scales orientations hp hs ho
  refine ⟨(b.1.add b.2).half, fb, hlen, ?_⟩
  simp only [writeToI3DM, hb, hfb, Option.pure_def, Option.bind_eq_bind, Option.some_bind,
    OFStream.write_empty, OFStream.write_end, Nat.zero_add]

/-- C2 (amended): with `N ≥ 1` instances and at least `N` positions, scales and orientations,
`writeToI3DM` writes (to a fresh stream) a file with magic `i3dm`, version 1 and gltfFormat 0;
the four declared section lengths and the length of the space-padded URI, which ends the
file, are multiples of 8; the returned value is `header.byteLength`; and when the number of
bytes written is below `2 ^ 32` the returned value equals it, namely 32 plus the four
declared section lengths plus the padded URI length. -/
theorem writeToI3DM_layout {α : Type} [LinearOrderedField α] (env : I3dmEnv α)
    (dump : Json α → List Nat) (uri : List Nat) (attribs : CDBInstancesAttributes)
    (positions : List (Cartographic α)) (scales : List (Vec3 α)) (orientations : List α)
    (h1 : 1 ≤ attribs.instancesCount) (hp : attribs.instancesCount ≤ positions.length)
    (hs : attribs.instancesCount ≤ scales.length)
    (ho : attribs.instancesCount ≤ orientations.length) :
    ∃ (fs : OFStream) (ret : Nat),
      writeToI3DM env dump uri attribs positions scales orientations OFStream.empty
        = some (fs, ret)
      ∧ fs.data.take 4 = ascii "i3dm" ∧ u32At fs.data 4 = 1 ∧ u32At fs.data 28 = 0
      ∧ u32At fs.data 12 % 8 = 0 ∧ u32At fs.data 16 % 8 = 0
      ∧ u32At fs.data 20 % 8 = 0 ∧ u32At fs.data 24 % 8 = 0
      ∧ (padSpaces 0 uri).length % 8 = 0
      ∧ fs.data.drop (fs.data.length - (padSpaces 0 uri).length) = padSpaces 0 uri
      ∧ ret = u32At fs.data 8
      ∧ (fs.data.length < 2 ^ 32 →
          ret = fs.data.length
          ∧ fs.data.length = 32 + u32At fs.data 12 + u32At fs.data 16 + u32At fs.data 20
              + u32At fs.data 24 + (padSpaces 0 uri).length) := by
  obtain ⟨center, fb, hfb, heq⟩ :=
    writeToI3DM_eq env dump uri attribs positions scales orientations h1 hp hs ho
  refine ⟨_, _, heq, ?_⟩
  have hft := length_padSpaces 32 (dump (i3dmFeatureTableJson attribs.instancesCount center 0
    (attribs.instancesCount * 12) (attribs.instancesCount * 12 + attribs.instancesCount * 12)
    (attribs.instancesCount * 12 + attribs.instancesCount * 12 + attribs.instancesCount * 12)))
  have hft8 := roundUp_mod (32 + (dump (i3dmFeatureTableJson attribs.instancesCount center 0
    (attribs.instancesCount * 12) (attribs.instancesCount * 12 + attribs.instancesCount * 12)
    (attribs.instancesCount * 12 + attribs.instancesCount * 12
      + attribs.instancesCount * 12))).length)
  have hft32 := le_roundUp (32 + (dump (i3dmFeatureTableJson attribs.instancesCount center 0
    (attribs.instancesCount * 12) (attribs.instancesCount * 12 + attribs.instancesCount * 12)
    (attribs.instancesCount * 12 + attribs.instancesCount * 12
      + attribs.instancesCount * 12))).length)
  generalize padSpaces 32 (dump (i3dmFeatureTableJson attribs.instancesCount center 0
    (attribs.instancesCount * 12) (attribs.instancesCount * 12 + attribs.instancesCount * 12)
    (attribs.instancesCount * 12 + attribs.instancesCount * 12
      + attribs.instancesCount * 12))) = ft at hft ⊢
  have hfb8 := roundUp_mod (attribs.instancesCount * 12 + attribs.instancesCount * 12
    + attribs.instancesCount * 12 + attribs.instancesCount * 12)
  rw [← hfb] at hfb8
  have hbj := length_padSpaces 0 (createBatchTable dump (some attribs)).1
  have hbj8 := roundUp_mod (0 + (createBatchTable dump (some attribs)).1.length)
  generalize padSpaces 0 (createBatchTable dump (some attribs)).1 = bj at hbj ⊢
  have hbb8 := createBatchTable_buffer_mod dump (some attribs)
  generalize (createBatchTable dump (some attribs)).2 = bb at hbb8 ⊢
  have hu := length_padSpaces 0 uri
  have hu8 := roundUp_mod (0 + uri.length)
  generalize padSpaces 0 uri = u at hu ⊢
  have hm : (i3dmHeader ft fb bj bb u).magic.length = 4 := by simp [i3dmHeader, ascii_i3dm]
  have hlen : ((i3dmHeader ft fb bj bb u).bytes ++ ft ++ fb ++ bj ++ bb ++ u).length
      = 32 + ft.length + fb.length + bj.length + bb.length + u.length := by
    simp only [List.length_append, i3dmHeader_length_bytes _ hm]
  obtain ⟨f0, f1, f2, f3, f4, f5, f6, f7⟩ :=
    i3dmHeader_fields (i3dmHeader ft fb bj bb u) hm (ft ++ fb ++ bj ++ bb ++ u)
  simp only [← List.append_assoc] at f0 f1 f2 f3 f4 f5 f6 f7
  have hd : ((i3dmHeader ft fb bj bb u).bytes ++ ft ++ fb ++ bj ++ bb ++ u).drop
      (32 + ft.length + fb.length + bj.length + bb.length + u.length - u.length) = u := by
    have hd' : 32 + ft.length + fb.length + bj.length + bb.length + u.length - u.length
        = ((i3dmHeader ft fb bj bb u).bytes ++ ft ++ fb ++ bj ++ bb).length := by
      simp only [List.length_append, i3dmHeader_length_bytes _ hm]
      omega
    rw [hd', List.drop_left]
  simp only [hlen, f0, f1, f2, f3, f4, f5, f6, f7, hd]
  simp only [i3dmHeader, toU32]
  clear f0 f1 f2 f3 f4 f5 f6 f7 hd
  refine ⟨trivial, trivial, trivial, by omega, by omega, by omega, by omega, by omega, trivial,
    by omega, ?_⟩
  intro hfit
  omega

/-- Witness of C2: two instances and the URI `a.glb`. -/
theorem writeToI3DM_layout_witness :
    1 ≤ sampleAttribs.instancesCount
    ∧ sampleAttribs.instancesCount ≤ samplePositions.length
    ∧ sampleAttribs.instancesCount ≤ sampleScales.length
    ∧ sampleAttribs.instancesCount ≤ sampleOrientations.length
    ∧ ∃ (fs : OFStream) (ret : Nat),
        writeToI3DM sampleEnv sampleDump (ascii "a.glb") sampleAttribs samplePositions
          sampleScales sampleOrientations OFStream.empty = some (fs, ret)
        ∧ fs.data.take 4 = ascii "i3dm" ∧ ret = u32At fs.data 8 := by
  refine ⟨by decide, by decide, by decide, by decide, ?_⟩
  obtain ⟨fs, ret, h, hmagic, -, -, -, -, -, -, -, -, h8, -⟩ :=
    writeToI3DM_layout sampleEnv sampleDump (ascii "a.glb") sampleAttribs samplePositions
      sampleScales sampleOrientations (by decide) (by decide) (by decide) (by decide)
  exact ⟨fs, ret, h, hmagic, h8⟩

/-- Whatever the serializer and the collaborators are, a URI of `2 ^ 32` bytes makes the
returned `header.byteLength` smaller than the number of bytes written. -/
theorem writeToI3DM_wraps {α : Type} [LinearOrderedField α] (env : I3dmEnv α)
    (dump : Json α → List Nat) (uri : List Nat) (attribs : CDBInstancesAttributes)
    (positions : List (Cartographic α)) (scales : List (Vec3 α)) (orientations : List α)
    (h1 : 1 ≤ attribs.instancesCount) (hp : attribs.instancesCount ≤ positions.length)
    (hs : attribs.instancesCount ≤ scales.length)
    (ho : attribs.instancesCount ≤ orientations.length) (hu : uri.length = 4294967296) :
    ∃ (fs : OFStream) (ret : Nat),
      writeToI3DM env dump uri attribs positions scales orientations OFStream.empty
        = some (fs, ret)
      ∧ ret < 4294967296 ∧ 4294967296 ≤ fs.data.length := by
  obtain ⟨center, fb, -, heq⟩ :=
    writeToI3DM_eq env dump uri attribs positions scales orientations h1 hp hs ho
  refine ⟨_, _, heq, ?_, ?_⟩
  · simp only [i3dmHeader, toU32]
    exact Nat.mod_lt _ (by norm_num)
  · have hlen := length_padSpaces 0 uri
    have hle := le_roundUp (0 + uri.length)
    simp only [List.length_append]
    omega

theorem writeToI3DM_long_uri (uri : List Nat) (hu : uri.length = 4294967296) :
    (writeToI3DM sampleEnv sampleDump uri sampleAttribs samplePositions sampleScales
      sampleOrientations OFStream.empty).map (fun r => (r.2, r.1.data.length))
      = some (168, 4294967464) := by
  obtain ⟨center, fb, hfb, heq⟩ :=
    writeToI3DM_eq sampleEnv sampleDump uri sampleAttribs samplePositions sampleScales
      sampleOrientations (by decide) (by decide) (by decide) (by decide)
  rw [heq]
  have hN : sampleAttribs.instancesCount = 2 := rfl
  have hbj : (createBatchTable (sampleDump : Json ℚ → List Nat) (some sampleAttribs)).1.length
      = 8 := by decide
  have hbb : (createBatchTable (sampleDump : Json ℚ → List Nat) (some sampleAttribs)).2.length
      = 24 := by decide
  have hd : ∀ j : Json ℚ, (sampleDump j).length = 2 := fun _ => rfl
  have hm : ∀ a b c d e : List Nat, (i3dmHeader a b c d e).magic.length = 4 := by
    intro a b c d e
    simp [i3dmHeader, ascii_i3dm]
  simp only [Option.map_some', List.length_append, i3dmHeader_length_bytes _ (hm _ _ _ _ _),
    length_padSpaces, hd, hbj, hbb, hfb, hu, hN, roundUp_eight]
  simp only [i3dmHeader, toU32, length_padSpaces, hd, hbj, hbb, hfb, hu, hN, roundUp_eight]

/-- C2 (as stated, refuted): with a URI of `2 ^ 32` bytes (two instances, the sample attribute
table) the returned `header.byteLength` is 168 while 4294967464 bytes are written. -/
theorem writeToI3DM_byteLength_wraps :
    (writeToI3DM sampleEnv sampleDump (List.replicate 4294967296 47) sampleAttribs
      samplePositions sampleScales sampleOrientations OFStream.empty).map
        (fun r => (r.2, r.1.data.length))
      = some (168, 4294967464) :=
  writeToI3DM_long_uri _ (List.length_replicate _ _)

/-! ## CMPT -/

theorem ascii_cmpt : ascii "cmpt" = [99, 109, 112, 116] := by decide

theorem length_cmptHeader_bytes (k b : Nat) : (cmptHeader k b).bytes.length = 16 := by
  simp [cmptHeader, CmptHeader.bytes, length_u32le, ascii_cmpt]

theorem cmptHeader_fields (k b : Nat) (rest : List Nat) :
    ((cmptHeader k b).bytes ++ rest).take 4 = ascii "cmpt"
    ∧ u32At ((cmptHeader k b).bytes ++ rest) 4 = 1
    ∧ u32At ((cmptHeader k b).bytes ++ rest) 8 = b % 4294967296
    ∧ u32At ((cmptHeader k b).bytes ++ rest) 12 = k % 4294967296 := by
  simp only [← fromLE_u32le]
  simp [cmptHeader, CmptHeader.bytes, ascii_cmpt, u32le, u32At, fromLE]

/-- The loop of `writeToCMPT` started after a prefix `pre`: the tiles appended by the
callback, the accumulated `byteLength`, and the stream each call was made on. -/
theorem cmptLoop_spec (cb : OFStream → Nat → OFStream × Nat)
    (hcb : ∀ fs i, fs.atEnd → ∃ bs, cb fs i = (fs.write bs, bs.length))
    (pre : List Nat) (b0 : Nat) (n : Nat) :
    ∃ tiles : List (List Nat), tiles.length = n
      ∧ (List.range n).foldl (cmptStep cb) (⟨pre, pre.length⟩, b0 % 4294967296)
          = (⟨pre ++ tiles.flatten, (pre ++ tiles.flatten).length⟩,
              (b0 + tiles.flatten.length) % 4294967296)
      ∧ ∀ i, i < n →
          cb ⟨pre ++ (tiles.take i).flatten, (pre ++ (tiles.take i).flatten).length⟩ i
            = (⟨pre ++ (tiles.take (i + 1)).flatten,
                  (pre ++ (tiles.take (i + 1)).flatten).length⟩, (tiles.getD i []).length) := by
  induction n with
  | zero => exact ⟨[], rfl, by simp, by intro i hi; omega⟩
  | succ n ih =>
    obtain ⟨tiles, hlen, hfold, hcalls⟩ := ih
    obtain ⟨bs, hbs⟩ := hcb ⟨pre ++ tiles.flatten, (pre ++ tiles.flatten).length⟩ n rfl
    rw [OFStream.write_end] at hbs
    refine ⟨tiles ++ [bs], by simp [hlen], ?_, ?_⟩
    · rw [List.range_succ, List.foldl_append, hfold]
      simp only [List.foldl_cons, List.foldl_nil, cmptStep, hbs, toU32, List.flatten_concat,
        List.append_assoc]
      congr 1
      rw [List.length_append]
      omega
    · intro i hi
      by_cases hin : i < n
      · have h1 : (tiles ++ [bs]).take i = tiles.take i :=
          List.take_append_of_le_length (by omega)
        have h2 : (tiles ++ [bs]).take (i + 1) = tiles.take (i + 1) :=
          List.take_append_of_le_length (by omega)
        have h3 : (tiles ++ [bs]).getD i [] = tiles.getD i [] :=
          List.getD_append _ _ _ _ (by omega)
        rw [h1, h2, h3]
        exact hcalls i hin
      · have hi' : i = n := by omega
        subst hi'
        have h1 : (tiles ++ [bs]).take i = tiles := by
          rw [← hlen, List.take_left]
        have h2 : (tiles ++ [bs]).take (i + 1) = tiles ++ [bs] :=
          List.take_of_length_le (by simp [hlen])
        have h3 : (tiles ++ [bs]).getD i [] = bs := by
          rw [List.getD_append_right _ _ _ _ (by omega), hlen]
          simp
        rw [h1, h2, h3, hbs, List.flatten_concat, List.append_assoc]

theorem seekp_write_header (h0 h1 t : List Nat) (p : Nat) (h : h0.length = h1.length) :
    ((OFStream.mk (h0 ++ t) p).seekp 0).write h1 = ⟨h1 ++ t, h1.length⟩ := by
  simp only [OFStream.seekp, OFStream.write, writeAt, List.take_zero, List.nil_append,
    Nat.zero_sub, List.replicate_zero, Nat.zero_add, ← h, List.drop_left]

/-- The file that `writeToCMPT` leaves when started on a fresh stream. -/
theorem writeToCMPT_data (k : Nat) (cb : OFStream → Nat → OFStream × Nat)
    (hcb : ∀ fs i, fs.atEnd → ∃ bs, cb fs i = (fs.write bs, bs.length)) :
    ∃ tiles : List (List Nat), tiles.length = k
      ∧ (writeToCMPT k OFStream.empty cb).data
          = (cmptHeader k ((16 + tiles.flatten.length) % 4294967296)).bytes ++ tiles.flatten
      ∧ ∀ i, i < k →
          cb ⟨(cmptHeader k 16).bytes ++ (tiles.take i).flatten,
              ((cmptHeader k 16).bytes ++ (tiles.take i).flatten).length⟩ i
            = (⟨(cmptHeader k 16).bytes ++ (tiles.take (i + 1)).flatten,
                  ((cmptHeader k 16).bytes ++ (tiles.take (i + 1)).flatten).length⟩,
                (tiles.getD i []).length) := by
  obtain ⟨tiles, hlen, hfold, hcalls⟩ := cmptLoop_spec cb hcb (cmptHeader k 16).bytes 16 k
  refine ⟨tiles, hlen, ?_, hcalls⟩
  have h16 : (16 : Nat) % 4294967296 = 16 := by norm_num
  rw [h16] at hfold
  have hb : (cmptHeader k 16).byteLength = 16 := rfl
  simp only [writeToCMPT, OFStream.write_empty, hb, hfold]
  rw [seekp_write_header (cmptHeader k 16).bytes
    (cmptHeader k ((16 + tiles.flatten.length) % 4294967296)).bytes tiles.flatten _
    (by rw [length_cmptHeader_bytes, length_cmptHeader_bytes])]

set_option maxRecDepth 100000 in
theorem writeToCMPT_s5 :
    u32At (writeToCMPT 2 OFStream.empty sampleTileWriter).data 8 = 784
    ∧ u32At (writeToCMPT 2 OFStream.empty sampleTileWriter).data 12 = 2
    ∧ (writeToCMPT 2 OFStream.empty sampleTileWriter).data.length = 784
    ∧ ((writeToCMPT 2 OFStream.empty sampleTileWriter).data.drop 16).take 256
        = List.replicate 256 7
    ∧ ((writeToCMPT 2 OFStream.empty sampleTileWriter).data.drop 272).take 512
        = List.replicate 512 7 := by
  decide

theorem flatten_drop_take (tiles : List (List Nat)) (i : Nat) (hi : i < tiles.length) :
    (tiles.flatten.drop ((tiles.take i).map List.length).sum).take (tiles.getD i []).length
      = tiles.getD i [] := by
  have hsplit : tiles = tiles.take i ++ (tiles.getD i [] :: tiles.drop (i + 1)) := by
    rw [List.getD_eq_getElem _ _ hi, ← List.drop_eq_getElem_cons hi]
    exact (List.take_append_drop i tiles).symm
  have hflat : tiles.flatten
      = (tiles.take i).flatten ++ (tiles.getD i [] ++ (tiles.drop (i + 1)).flatten) := by
    conv_lhs => rw [hsplit]
    rw [List.flatten_append, List.flatten_cons]
  rw [hflat, ← List.length_flatten, List.drop_left, List.take_left]

/-- C3 (amended): for a tile count `k` (a `uint32_t`) and a callback each of whose calls appends
the bytes it reports, `writeToCMPT` on a fresh stream calls the callback for `i = 0, ..., k-1`
in that order, each time on the placeholder header followed by the earlier tiles; provided the
file stays below `2 ^ 32` bytes, the file starts with `cmpt`, version 1,
`byteLength = 16 + the sum of the returned lengths` (the file size) and tile count `k`, and
tile `i` stands untouched at offset `16 + the lengths of tiles 0..i-1`.  With lengths 256 and
512 this gives `byteLength` 784 and offsets 16 and 272. -/
theorem writeToCMPT_layout (k : Nat) (cb : OFStream → Nat → OFStream × Nat)
    (hk : k < 2 ^ 32)
    (hcb : ∀ fs i, fs.atEnd → ∃ bs, cb fs i = (fs.write bs, bs.length))
    (hfit : (writeToCMPT k OFStream.empty cb).data.length < 2 ^ 32) :
    (∃ tiles : List (List Nat), tiles.length = k
      ∧ (∀ i, i < k →
          cb ⟨(cmptHeader k 16).bytes ++ (tiles.take i).flatten,
              ((cmptHeader k 16).bytes ++ (tiles.take i).flatten).length⟩ i
            = (⟨(cmptHeader k 16).bytes ++ (tiles.take (i + 1)).flatten,
                  ((cmptHeader k 16).bytes ++ (tiles.take (i + 1)).flatten).length⟩,
                (tiles.getD i []).length))
      ∧ (writeToCMPT k OFStream.empty cb).data.take 4 = ascii "cmpt"
      ∧ u32At (writeToCMPT k OFStream.empty cb).data 4 = 1
      ∧ u32At (writeToCMPT k OFStream.empty cb).data 8 = 16 + (tiles.map List.length).sum
      ∧ (writeToCMPT k OFStream.empty cb).data.length = 16 + (tiles.map List.length).sum
      ∧ u32At (writeToCMPT k OFStream.empty cb).data 12 = k
      ∧ ∀ i, i < k →
          ((writeToCMPT k OFStream.empty cb).data.drop
              (16 + ((tiles.take i).map List.length).sum)).take (tiles.getD i []).length
            = tiles.getD i [])
    ∧ (u32At (writeToCMPT 2 OFStream.empty sampleTileWriter).data 8 = 784
      ∧ u32At (writeToCMPT 2 OFStream.empty sampleTileWriter).data 12 = 2
      ∧ (writeToCMPT 2 OFStream.empty sampleTileWriter).data.length = 784
      ∧ ((writeToCMPT 2 OFStream.empty sampleTileWriter).data.drop 16).take 256
          = List.replicate 256 7
      ∧ ((writeToCMPT 2 OFStream.empty sampleTileWriter).data.drop 272).take 512
          = List.replicate 512 7) := by
  refine ⟨?_, writeToCMPT_s5⟩
  obtain ⟨tiles, hlen, hdata, hcalls⟩ := writeToCMPT_data k cb hcb
  rw [hdata] at hfit ⊢
  have hl : ((cmptHeader k ((16 + tiles.flatten.length) % 4294967296)).bytes
      ++ tiles.flatten).length = 16 + (tiles.map List.length).sum := by
    rw [List.length_append, length_cmptHeader_bytes, List.length_flatten]
  rw [hl] at hfit
  obtain ⟨f0, f1, f2, f3⟩ :=
    cmptHeader_fields k ((16 + tiles.flatten.length) % 4294967296) tiles.flatten
  refine ⟨tiles, hlen, hcalls, f0, f1, ?_, hl, ?_, ?_⟩
  · rw [f2, List.length_flatten]
    omega
  · rw [f3]
    omega
  · intro i hi
    have h16 := length_cmptHeader_bytes k ((16 + tiles.flatten.length) % 4294967296)
    generalize (cmptHeader k ((16 + tiles.flatten.length) % 4294967296)).bytes = hb at h16 ⊢
    rw [← h16, List.drop_append]
    exact flatten_drop_take tiles i (by omega)

theorem sampleTileWriter_appends :
    ∀ fs i, fs.atEnd → ∃ bs, sampleTileWriter fs i = (fs.write bs, bs.length) :=
  fun _ i _ => ⟨List.replicate (256 * (i + 1)) 7, by simp [sampleTileWriter]⟩

theorem hugeTileWriter_appends :
    ∀ fs i, fs.atEnd → ∃ bs, hugeTileWriter fs i = (fs.write bs, bs.length) :=
  fun _ _ _ => ⟨List.replicate 2147483648 0, by
    unfold hugeTileWriter
    rw [List.length_replicate]⟩

/-- Witness of C3: the two tiles of 256 and 512 bytes. -/
theorem writeToCMPT_layout_witness :
    2 < 2 ^ 32
    ∧ (∀ fs i, fs.atEnd → ∃ bs, sampleTileWriter fs i = (fs.write bs, bs.length))
    ∧ (writeToCMPT 2 OFStream.empty sampleTileWriter).data.length < 2 ^ 32
    ∧ ∃ tiles : List (List Nat), tiles.length = 2
        ∧ u32At (writeToCMPT 2 OFStream.empty sampleTileWriter).data 8
            = 16 + (tiles.map List.length).sum
        ∧ (writeToCMPT 2 OFStream.empty sampleTileWriter).data.length
            = 16 + (tiles.map List.length).sum := by
  have hfit : (writeToCMPT 2 OFStream.empty sampleTileWriter).data.length < 2 ^ 32 := by
    rw [writeToCMPT_s5.2.2.1]
    norm_num
  refine ⟨by norm_num, sampleTileWriter_appends, hfit, ?_⟩
  obtain ⟨⟨tiles, hlen, -, -, -, h8, hl, -⟩, -⟩ :=
    writeToCMPT_layout 2 sampleTileWriter (by norm_num) sampleTileWriter_appends hfit
  exact ⟨tiles, hlen, h8, hl⟩

/-- C3 (as stated, refuted): two tiles of `2 ^ 31` bytes each, written by a callback that
appends exactly the bytes it reports, leave a file of `2 ^ 32 + 16` bytes whose header
declares `byteLength = 16`. -/
theorem writeToCMPT_byteLength_wraps :
    (∀ fs i, fs.atEnd → ∃ bs, hugeTileWriter fs i = (fs.write bs, bs.length))
    ∧ u32At (writeToCMPT 2 OFStream.empty hugeTileWriter).data 8 = 16
    ∧ (writeToCMPT 2 OFStream.empty hugeTileWriter).data.length = 4294967312 := by
  refine ⟨hugeTileWriter_appends, ?_⟩
  obtain ⟨tiles, hlen, hdata, hcalls⟩ := writeToCMPT_data 2 hugeTileWriter hugeTileWriter_appends
  have h0 : 2147483648 = (tiles.getD 0 []).length := congrArg Prod.snd (hcalls 0 (by omega))
  have h1 : 2147483648 = (tiles.getD 1 []).length := congrArg Prod.snd (hcalls 1 (by omega))
  have hflat : tiles.flatten.length = 4294967296 := by
    match tiles, hlen with
    | [t0, t1], _ =>
      simp only [List.getD_cons_zero, List.getD_cons_succ] at h0 h1
      simp only [List.flatten_cons, List.flatten_nil, List.length_append, List.append_nil]
      omega
  obtain ⟨-, -, f2, -⟩ :=
    cmptHeader_fields 2 ((16 + tiles.flatten.length) % 4294967296) tiles.flatten
  rw [hdata, f2, List.length_append, length_cmptHeader_bytes, hflat]
  norm_num

/-! ## Subtree availability files -/

theorem availabilityByteLength_pos (D : Nat) (hD : 1 ≤ D) : 1 ≤ availabilityByteLength D := by
  have h4 : 4 ^ 1 ≤ 4 ^ D := Nat.pow_le_pow_right (by norm_num) hD
  simp only [availabilityByteLength, subtreeNodeCount]
  omega

theorem childSubtreeAvailabilityByteLength_pos (D : Nat) :
    1 ≤ childSubtreeAvailabilityByteLength D := by
  have h4 : 1 ≤ 4 ^ D := Nat.one_le_pow _ _ (by norm_num)
  simp only [childSubtreeAvailabilityByteLength, childSubtreeCount]
  omega

theorem subtreeJson_members {α : Type} (D a b : Nat) (hD : 1 ≤ D) :
    ((subtreeJson D a b : Json α).get2 "tileAvailability" "constant"
        = if a = 0 then some (Json.int 0)
          else if a = subtreeNodeCount D then some (Json.int 1) else none)
    ∧ ((subtreeJson D a b : Json α).get2 "contentAvailability" "constant"
        = if a = 0 then some (Json.int 0)
          else if a = subtreeNodeCount D then some (Json.int 1) else none)
    ∧ ((subtreeJson D a b : Json α).get2 "tileAvailability" "bufferView"
        = if a = 0 ∨ a = subtreeNodeCount D then none else some (Json.uint 0))
    ∧ ((subtreeJson D a b : Json α).get2 "contentAvailability" "bufferView"
        = if a = 0 ∨ a = subtreeNodeCount D then none else some (Json.uint 0))
    ∧ ((subtreeJson D a b : Json α).get2 "childSubtreeAvailability" "constant"
        = if b = 0 then some (Json.int 0)
          else if b = childSubtreeCount D then some (Json.int 1) else none)
    ∧ ((((subtreeJson D a b : Json α).get "buffers").isSome = true)
        ↔ ¬ ((a = 0 ∨ a = subtreeNodeCount D) ∧ (b = 0 ∨ b = childSubtreeCount D))) := by
  have hn := availabilityByteLength_pos D hD
  have hc := childSubtreeAvailabilityByteLength_pos D
  unfold subtreeJson subtreeJsonState
  generalize availabilityByteLength D = bn at hn ⊢
  generalize childSubtreeAvailabilityByteLength D = bc at hc ⊢
  generalize subtreeNodeCount D = sn
  generalize childSubtreeCount D = sc
  have hn0 : bn ≠ 0 := by omega
  have hc0 : bc ≠ 0 := by omega
  have hnc0 : ¬ (bn = 0 ∧ bc = 0) := by omega
  by_cases ha0 : a = 0 <;> by_cases han : a = sn <;> by_cases hb0 : b = 0 <;>
    by_cases hbn : b = sc <;> (try subst han) <;> (try subst hbn) <;>
    simp [*, Json.get2, Json.get, Json.set, Json.set2, Json.index, Json.pushBack, insertKey,
      List.lookup]

theorem subtreeNodeCount_four : subtreeNodeCount 4 = 85 := by decide

theorem childSubtreeCount_four : childSubtreeCount 4 = 256 := by decide

/-- C6: in the subtree JSON of a subtree of depth `D ≥ 1` with `a` available nodes and `b`
available child subtrees, `tileAvailability` and `contentAvailability` carry `constant`
exactly when `a` is 0 or `S_n` (value 0 for `a = 0`, 1 for `a = S_n`) and otherwise both
carry `bufferView` 0; `childSubtreeAvailability` carries `constant` exactly when `b` is 0 or
`S_c` (value 0 for `b = 0`, 1 for `b = S_c`); the key `buffers` is present exactly when one of
the two is not constant.  For `D = 4`, `a = 1`, `b = 0` the JSON has
`tileAvailability.bufferView = 0`, `contentAvailability.bufferView = 0` and
`childSubtreeAvailability.constant = 0`. -/
theorem subtreeJson_availability {α : Type} (D a b : Nat) (hD : 1 ≤ D) :
    (((subtreeJson D a b : Json α).get2 "tileAvailability" "constant"
        = if a = 0 then some (Json.int 0)
          else if a = subtreeNodeCount D then some (Json.int 1) else none)
    ∧ ((subtreeJson D a b : Json α).get2 "contentAvailability" "constant"
        = if a = 0 then some (Json.int 0)
          else if a = subtreeNodeCount D then some (Json.int 1) else none)
    ∧ ((subtreeJson D a b : Json α).get2 "tileAvailability" "bufferView"
        = if a = 0 ∨ a = subtreeNodeCount D then none else some (Json.uint 0))
    ∧ ((subtreeJson D a b : Json α).get2 "contentAvailability" "bufferView"
        = if a = 0 ∨ a = subtreeNodeCount D then none else some (Json.uint 0))
    ∧ ((subtreeJson D a b : Json α).get2 "childSubtreeAvailability" "constant"
        = if b = 0 then some (Json.int 0)
          else if b = childSubtreeCount D then some (Json.int 1) else none)
    ∧ ((((subtreeJson D a b : Json α).get "buffers").isSome = true)
        ↔ ¬ ((a = 0 ∨ a = subtreeNodeCount D) ∧ (b = 0 ∨ b = childSubtreeCount D))))
    ∧ ((subtreeJson 4 1 0 : Json α).get2 "tileAvailability" "bufferView" = some (Json.uint 0)
      ∧ (subtreeJson 4 1 0 : Json α).get2 "contentAvailability" "bufferView"
          = some (Json.uint 0)
      ∧ (subtreeJson 4 1 0 : Json α).get2 "childSubtreeAvailability" "constant"
          = some (Json.int 0)) := by
  refine ⟨subtreeJson_members D a b hD, ?_⟩
  obtain ⟨-, -, h3, h4, h5, -⟩ := subtreeJson_members (α := α) 4 1 0 (by norm_num)
  rw [h3, h4, h5, subtreeNodeCount_four]
  simp

/-- Witness of C6: a full subtree of depth 4 (85 nodes) with 3 available child subtrees. -/
theorem subtreeJson_availability_witness :
    1 ≤ 4
    ∧ (subtreeJson 4 85 3 : Json ℚ).get2 "tileAvailability" "constant" = some (Json.int 1)
    ∧ (subtreeJson 4 85 3 : Json ℚ).get2 "childSubtreeAvailability" "constant" = none
    ∧ ((subtreeJson 4 85 3 : Json ℚ).get "buffers").isSome = true := by
  obtain ⟨⟨h1, -, -, -, h5, h6⟩, -⟩ := subtreeJson_availability (α := ℚ) 4 85 3 (by norm_num)
  refine ⟨by norm_num, ?_, ?_, ?_⟩
  · rw [h1, subtreeNodeCount_four]
    simp
  · rw [h5, childSubtreeCount_four]
    simp
  · rw [h6, subtreeNodeCount_four, childSubtreeCount_four]
    simp

theorem writeAt_prefix (mem pre src : List Nat) (off : Nat) (h : pre <+: mem)
    (hoff : off = pre.length) : pre ++ src <+: writeAt mem off src := by
  obtain ⟨t, rfl⟩ := h
  subst hoff
  refine ⟨List.drop src.length t, ?_⟩
  simp [writeAt, List.drop_append]

theorem subtreeJsonState_accum {α : Type} (D a b : Nat) :
    (subtreeJsonState D a b : SubtreeJsonState α).bufferByteLengthAccum
      = (if a = 0 ∨ a = subtreeNodeCount D then 0 else nodeAvailabilityByteLengthWithPadding D)
        + (if b = 0 ∨ b = childSubtreeCount D then 0
            else childSubtreeAvailabilityByteLengthWithPadding D) := by
  unfold subtreeJsonState
  by_cases ha : a = 0 ∨ a = subtreeNodeCount D <;>
    by_cases hb : b = 0 ∨ b = childSubtreeCount D <;>
    simp only [Bool.or_eq_true, beq_iff_eq, ha, hb, if_true, if_false] <;>
    split <;> simp

/-- The first `written` bytes of the memory of the model for one subtree: header, padded JSON,
then the copied bitmaps; they are the file when the stores are in bounds
(`SubtreeFile.file`). -/
theorem serializeSubtree_bytes {α : Type} (dump : Json α → List Nat) (D a b : Nat)
    (buffer : List Nat) (hbuf : buffer.length = bufferByteLength D * 2) :
    (serializeSubtree dump D a b buffer).bytes
        = u32le 0x74627573 ++ u32le 1 ++ u64le (alignTo8 (dump (subtreeJson D a b)).length)
          ++ u64le (subtreeJsonState D a b : SubtreeJsonState α).bufferByteLengthAccum
          ++ dump (subtreeJson D a b)
          ++ List.replicate (alignTo8 (dump (subtreeJson D a b)).length
              - (dump (subtreeJson D a b)).length) 32
          ++ (if a = 0 ∨ a = subtreeNodeCount D then []
              else (buffer.drop headerByteLength).take (nodeAvailabilityByteLengthWithPadding D))
          ++ (if b = 0 ∨ b = childSubtreeCount D then []
              else (buffer.drop (childSubtreeAvailabilityByteOffset D)).take
                (childSubtreeAvailabilityByteLengthWithPadding D))
    ∧ ((buffer.drop headerByteLength).take (nodeAvailabilityByteLengthWithPadding D)).length
        = nodeAvailabilityByteLengthWithPadding D
    ∧ ((buffer.drop (childSubtreeAvailabilityByteOffset D)).take
        (childSubtreeAvailabilityByteLengthWithPadding D)).length
        = childSubtreeAvailabilityByteLengthWithPadding D := by
  have hnl : ((buffer.drop headerByteLength).take
      (nodeAvailabilityByteLengthWithPadding D)).length
      = nodeAvailabilityByteLengthWithPadding D := by
    have := alignTo8_lt (availabilityByteLength D)
    simp only [List.length_take, List.length_drop, hbuf, bufferByteLength, headerByteLength,
      nodeAvailabilityByteLengthWithPadding]
    omega
  have hcl : ((buffer.drop (childSubtreeAvailabilityByteOffset D)).take
      (childSubtreeAvailabilityByteLengthWithPadding D)).length
      = childSubtreeAvailabilityByteLengthWithPadding D := by
    have := alignTo8_lt (childSubtreeAvailabilityByteLength D)
    simp only [List.length_take, List.length_drop, hbuf, bufferByteLength, headerByteLength,
      childSubtreeAvailabilityByteOffset, childSubtreeAvailabilityByteLengthWithPadding]
    omega
  refine ⟨?_, hnl, hcl⟩
  have hpad := le_alignTo8 (dump (subtreeJson D a b : Json α)).length
  unfold serializeSubtree SubtreeFile.bytes
  simp only []
  rw [show (subtreeJsonState D a b : SubtreeJsonState α).subtreeJson = subtreeJson D a b
    from rfl]
  generalize hjs : dump (subtreeJson D a b : Json α) = js at hpad ⊢
  generalize (subtreeJsonState D a b : SubtreeJsonState α).bufferByteLengthAccum = bin
  generalize hnb : (buffer.drop headerByteLength).take
    (nodeAvailabilityByteLengthWithPadding D) = nb at hnl ⊢
  generalize hcb : (buffer.drop (childSubtreeAvailabilityByteOffset D)).take
    (childSubtreeAvailabilityByteLengthWithPadding D) = cb at hcl ⊢
  generalize alignTo8 js.length + bufferByteLength D = allocated
  have p0 : ([] : List Nat) <+: List.replicate allocated 0 := List.nil_prefix
  have p1 := writeAt_prefix _ _ (u32le 0x74627573) 0 p0 rfl
  have p2 := writeAt_prefix _ _ (u32le 1) 4 p1 rfl
  have p3 := writeAt_prefix _ _ (u64le (alignTo8 js.length)) 8 p2 rfl
  have p4 := writeAt_prefix _ _ (u64le bin) 16 p3 rfl
  have p5 := writeAt_prefix _ _ js headerByteLength p4 rfl
  have p6 := writeAt_prefix _ _ (List.replicate (alignTo8 js.length - js.length) 32)
    (headerByteLength + js.length) p5 (by
      simp only [List.length_append, length_u32le, length_u64le, List.length_nil,
        headerByteLength])
  have hoff : headerByteLength + alignTo8 js.length
      = ([] ++ u32le 0x74627573 ++ u32le 1 ++ u64le (alignTo8 js.length) ++ u64le bin ++ js
          ++ List.replicate (alignTo8 js.length - js.length) 32).length := by
    simp only [List.length_append, length_u32le, length_u64le, List.length_replicate,
      List.length_nil, headerByteLength]
    omega
  simp only [List.nil_append] at p6 hoff
  by_cases ha : a = 0 ∨ a = subtreeNodeCount D <;>
    by_cases hb : b = 0 ∨ b = childSubtreeCount D <;>
    simp only [Bool.or_eq_true, beq_iff_eq, ha, hb, if_true, if_false, List.append_nil]
  · have h := (List.prefix_iff_eq_take.mp p6).symm
    rw [← hoff] at h
    exact h
  · have p7 := writeAt_prefix _ _ cb _ p6 hoff
    have h := (List.prefix_iff_eq_take.mp p7).symm
    rw [List.length_append, ← hoff, hcl] at h
    exact h
  · have p7 := writeAt_prefix _ _ nb _ p6 hoff
    have h := (List.prefix_iff_eq_take.mp p7).symm
    rw [List.length_append, ← hoff, hnl] at h
    exact h
  · have p7 := writeAt_prefix _ _ nb _ p6 hoff
    have p8 := writeAt_prefix _ _ cb
      (headerByteLength + alignTo8 js.length + nodeAvailabilityByteLengthWithPadding D) p7
      (by rw [List.length_append, ← hoff, hnl])
    have h := (List.prefix_iff_eq_take.mp p8).symm
    rw [List.length_append, List.length_append, ← hoff, hnl, hcl] at h
    exact h

theorem ascii_subt : ascii "subt" = u32le 0x74627573 := by decide

set_option maxRecDepth 10000 in
theorem length_sampleSubtreeBuffer : sampleSubtreeBuffer.length = bufferByteLength 4 * 2 := by
  decide

theorem alignTo8_eleven : alignTo8 11 = 16 := by rw [alignTo8_eq]

theorem alignTo8_thirtytwo : alignTo8 32 = 32 := by rw [alignTo8_eq]

theorem subtreeJsonState_accum_s1 :
    (subtreeJsonState 4 1 0 : SubtreeJsonState ℚ).bufferByteLengthAccum = 16 := by
  have hb : availabilityByteLength 4 = 11 := by decide
  rw [subtreeJsonState_accum, subtreeNodeCount_four, nodeAvailabilityByteLengthWithPadding, hb,
    alignTo8_eleven]
  simp

/-- C7 (the code evaluated at the failing input): for depth 4 with one available node and no
available child subtree the JSON declares a buffer of 11 bytes, the unpadded bitmap length,
while the header of the file declares a BIN length of 16; with one available node and one
available child subtree the JSON declares a buffer of 43 bytes and a child bufferView at
byte offset 16 of length 32. -/
theorem subtreeJson_buffer_byteLength_unpadded :
    (subtreeJson 4 1 0 : Json ℚ).get "buffers"
        = some (Json.arr [Json.obj [("byteLength", Json.uint 11)]])
    ∧ ((serializeSubtree (sampleDump : Json ℚ → List Nat) 4 1 0 sampleSubtreeBuffer).bytes.drop
          16).take 8 = u64le 16
    ∧ u64At (serializeSubtree (sampleDump : Json ℚ → List Nat) 4 1 0 sampleSubtreeBuffer).bytes 16
        = 16
    ∧ (subtreeJson 4 1 1 : Json ℚ).get "buffers"
        = some (Json.arr [Json.obj [("byteLength", Json.uint 43)]])
    ∧ (subtreeJson 4 1 1 : Json ℚ).get "bufferViews"
        = some (Json.arr [
            Json.obj [("buffer", Json.int 0), ("byteOffset", Json.uint 0),
              ("byteLength", Json.uint 11)],
            Json.obj [("buffer", Json.int 0), ("byteOffset", Json.uint 16),
              ("byteLength", Json.uint 32)]]) := by
  obtain ⟨hbytes, -, -⟩ := serializeSubtree_bytes (sampleDump : Json ℚ → List Nat) 4 1 0
    sampleSubtreeBuffer length_sampleSubtreeBuffer
  have h : ((serializeSubtree (sampleDump : Json ℚ → List Nat) 4 1 0
      sampleSubtreeBuffer).bytes.drop 16).take 8 = u64le 16 := by
    rw [hbytes, subtreeJsonState_accum_s1]
    simp [u32le, u64le]
  have hb : availabilityByteLength 4 = 11 := by decide
  have hc : childSubtreeAvailabilityByteLength 4 = 32 := by decide
  refine ⟨rfl, h, ?_, rfl, ?_⟩
  · rw [u64At, h]
    decide
  · simp [subtreeJson, subtreeJsonState, subtreeNodeCount_four, childSubtreeCount_four, hb, hc,
      nodeAvailabilityByteLengthWithPadding, alignTo8_eleven, Json.set, Json.set2, Json.get,
      Json.index, Json.pushBack, insertKey, List.lookup]

/-! ## JSON members -/

theorem lookup_insertKey_self {β : Type} (ms : List (String × β)) (k : String) (v : β) :
    (insertKey ms k v).lookup k = some v := by
  induction ms with
  | nil => simp [insertKey, List.lookup]
  | cons m ms ih =>
    obtain ⟨k', v'⟩ := m
    by_cases h : k' = k
    · simp [insertKey, h, List.lookup]
    · have h' : (k == k') = false := by simpa using fun e => h e.symm
      simp [insertKey, h, List.lookup, h', ih]

theorem lookup_insertKey_ne {β : Type} (ms : List (String × β)) (k k' : String) (v : β)
    (hne : k' ≠ k) : (insertKey ms k v).lookup k' = ms.lookup k' := by
  induction ms with
  | nil =>
    have h' : (k' == k) = false := by simpa using hne
    simp [insertKey, List.lookup, h']
  | cons m ms ih =>
    obtain ⟨k0, v0⟩ := m
    by_cases h : k0 = k
    · subst h
      have h' : (k' == k0) = false := by simpa using hne
      simp [insertKey, List.lookup, h']
    · simp only [insertKey, h, if_false, List.lookup]
      rw [ih]

theorem Json.get_set_self {α : Type} (j : Json α) (k : String) (v : Json α) :
    (j.set k v).get k = some v := by
  cases j <;> simp [Json.set, Json.get, List.lookup, lookup_insertKey_self]

theorem Json.get_set_ne {α : Type} (j : Json α) (k k' : String) (v : Json α) (hne : k' ≠ k) :
    (j.set k v).get k' = j.get k' := by
  have h' : (k' == k) = false := by simpa using hne
  cases j <;> simp [Json.set, Json.get, List.lookup, lookup_insertKey_ne _ _ _ _ hne, h']

theorem Json.get_set2_self {α : Type} (j : Json α) (k1 k2 : String) (v : Json α) :
    (j.set2 k1 k2 v).get2 k1 k2 = some v := by
  simp [Json.set2, Json.get2, Json.get_set_self]

theorem Json.get_set2_ne {α : Type} (j : Json α) (k1 k2 k' : String) (v : Json α)
    (hne : k' ≠ k1) : (j.set2 k1 k2 v).get k' = j.get k' := by
  simp [Json.set2, Json.get_set_ne _ _ _ _ hne]

theorem Json.get2_set2_ne {α : Type} (j : Json α) (k1 k2 k' : String) (v : Json α)
    (hne : k' ≠ k2) : (j.set2 k1 k2 v).get2 k1 k' = j.get2 k1 k' := by
  simp only [Json.set2, Json.get2, Json.get_set_self, Option.some_bind,
    Json.get_set_ne _ _ _ _ hne, Json.index]
  cases h : j.get k1 with
  | none => simp [Json.get]
  | some w => simp

/-! ## Combined tileset JSON -/

theorem forLoop_succ {σ : Type} (n : Nat) (body : Nat → σ → Option σ) (s : σ) :
    forLoop 0 (n + 1) body s = (forLoop 0 n body s).bind (body n) := by
  unfold forLoop
  simp only [Nat.sub_zero]
  rw [List.range'_concat, List.foldlM_append]
  simp only [Nat.zero_add, Nat.one_mul, List.foldlM_cons, List.foldlM_nil, bind_pure]
  rfl

theorem take_succ_getElem {β : Type} (l : List β) (n : Nat) (h : n < l.length) :
    l.take (n + 1) = l.take n ++ [l[n]] := by
  rw [List.take_succ, List.getElem?_eq_getElem h]
  rfl

/-- The state of the loop of `combineTilesetJson` after `n` iterations. -/
theorem combineLoop_eq {α : Type} [LinearOrderedField α] (paths : List String)
    (regions : List (BoundingRegion α)) (r0 : BoundingRegion α) (n : Nat)
    (hp : n ≤ paths.length) (hr : n ≤ regions.length) :
    forLoop 0 n (combineStep paths regions) (Json.arr [], r0)
      = some (Json.arr ((List.zipWith combineChildJson paths regions).take n),
          (regions.take n).foldl BoundingRegion.computeUnion r0) := by
  induction n with
  | zero => simp [forLoop]
  | succ n ih =>
    have hp' : n < paths.length := by omega
    have hr' : n < regions.length := by omega
    have hz : n < (List.zipWith combineChildJson paths regions).length := by
      rw [List.length_zipWith]
      exact lt_min hp' hr'
    rw [forLoop_succ, ih (by omega) (by omega), Option.some_bind]
    simp only [combineStep, List.getElem?_eq_getElem hp', List.getElem?_eq_getElem hr',
      Option.pure_def, Option.bind_eq_bind, Option.some_bind, Json.pushBack]
    rw [take_succ_getElem _ n hz, take_succ_getElem _ n hr', List.foldl_append,
      List.getElem_zipWith]
    rfl

/-- The members `children` and `boundingVolume` of the root of the combined document. -/
theorem combinedDocument_root {α : Type} [LinearOrderedField α] (paths : List String)
    (r0 : BoundingRegion α) (rs : List (BoundingRegion α))
    (h : paths.length ≤ (r0 :: rs).length) :
    ∃ doc, combinedDocument paths (r0 :: rs) = some doc
      ∧ doc.get2 "root" "children"
          = some (Json.arr (List.zipWith combineChildJson paths (r0 :: rs)))
      ∧ doc.get2 "root" "boundingVolume"
          = some (regionJson (((r0 :: rs).take paths.length).foldl
              BoundingRegion.computeUnion r0))
      ∧ doc.get2 "root" "geometricError" = some (Json.float MAX_GEOMETRIC_ERROR)
      ∧ doc.get "geometricError" = some (Json.float MAX_GEOMETRIC_ERROR) := by
  have hloop := combineLoop_eq paths (r0 :: rs) r0 paths.length (le_refl _) h
  have htake : (List.zipWith combineChildJson paths (r0 :: rs)).take paths.length
      = List.zipWith combineChildJson paths (r0 :: rs) :=
    List.take_of_length_le (by rw [List.length_zipWith]; exact min_le_left _ _)
  rw [htake] at hloop
  refine ⟨_, by
    simp only [combinedDocument, List.head?_cons, hloop, Option.pure_def, Option.bind_eq_bind,
      Option.some_bind]
    rfl, ?_, ?_, ?_, ?_⟩
  · rw [Json.get2_set2_ne _ _ _ _ _ (by decide), Json.get_set2_self]
  · rw [Json.get_set2_self]
  · rw [Json.get2_set2_ne _ _ _ _ _ (by decide), Json.get2_set2_ne _ _ _ _ _ (by decide),
      Json.get_set2_self]
  · rw [Json.get_set2_ne _ _ _ _ _ (by decide), Json.get_set2_ne _ _ _ _ _ (by decide),
      Json.get_set2_ne _ _ _ _ _ (by decide), Json.get_set2_ne _ _ _ _ _ (by decide),
      Json.get_set_ne _ _ _ _ (by decide), Json.get_set_self]

theorem combineChildJson_members {α : Type} [LinearOrderedField α] (path : String)
    (region : BoundingRegion α) :
    (combineChildJson path region).get2 "content" "uri" = some (Json.str path)
    ∧ (combineChildJson path region).get2 "boundingVolume" "region"
        = some (regionArray region)
    ∧ (combineChildJson path region).get "geometricError"
        = some (Json.float MAX_GEOMETRIC_ERROR) := by
  refine ⟨?_, ?_, ?_⟩
  · simp only [combineChildJson, Json.get2, Json.get_set_ne _ _ _ _
      (show "content" ≠ "boundingVolume" by decide)]
    exact Json.get_set2_self _ _ _ _
  · simp only [combineChildJson, Json.get2, Json.get_set_self, Option.some_bind, regionJson]
    rfl
  · simp only [combineChildJson]
    rw [Json.get_set_ne _ _ _ _ (by decide), Json.get_set2_ne _ _ _ _ _ (by decide),
      Json.get_set_ne _ _ _ _ (by decide), Json.get_set_self]

theorem foldl_union_min {α : Type} [LinearOrder α] (f : BoundingRegion α → α)
    (hf : ∀ a b, f (a.computeUnion b) = min (f a) (f b)) (rs : List (BoundingRegion α))
    (r0 : BoundingRegion α) :
    (∀ r ∈ r0 :: rs, f (rs.foldl BoundingRegion.computeUnion r0) ≤ f r)
    ∧ ∃ r ∈ r0 :: rs, f (rs.foldl BoundingRegion.computeUnion r0) = f r := by
  induction rs generalizing r0 with
  | nil => exact ⟨by simp, r0, by simp, rfl⟩
  | cons r rs ih =>
    obtain ⟨hle, x, hx, hxe⟩ := ih (r0.computeUnion r)
    have h0 := hle _ (List.mem_cons_self _ _)
    rw [hf] at h0
    refine ⟨?_, ?_⟩
    · intro y hy
      rw [List.foldl_cons]
      rcases List.mem_cons.mp hy with rfl | hy
      · exact le_trans h0 (min_le_left _ _)
      · rcases List.mem_cons.mp hy with rfl | hy
        · exact le_trans h0 (min_le_right _ _)
        · exact hle _ (List.mem_cons_of_mem _ hy)
    · rw [List.foldl_cons]
      rcases List.mem_cons.mp hx with rfl | hx
      · rw [hf] at hxe
        rcases min_choice (f r0) (f r) with hm | hm
        · exact ⟨r0, by simp, by rw [hxe, hm]⟩
        · exact ⟨r, by simp, by rw [hxe, hm]⟩
      · exact ⟨x, by simp [hx], hxe⟩

theorem foldl_union_max {α : Type} [LinearOrder α] (f : BoundingRegion α → α)
    (hf : ∀ a b, f (a.computeUnion b) = max (f a) (f b)) (rs : List (BoundingRegion α))
    (r0 : BoundingRegion α) :
    (∀ r ∈ r0 :: rs, f r ≤ f (rs.foldl BoundingRegion.computeUnion r0))
    ∧ ∃ r ∈ r0 :: rs, f (rs.foldl BoundingRegion.computeUnion r0) = f r := by
  induction rs generalizing r0 with
  | nil => exact ⟨by simp, r0, by simp, rfl⟩
  | cons r rs ih =>
    obtain ⟨hle, x, hx, hxe⟩ := ih (r0.computeUnion r)
    have h0 := hle _ (List.mem_cons_self _ _)
    rw [hf] at h0
    refine ⟨?_, ?_⟩
    · intro y hy
      rw [List.foldl_cons]
      rcases List.mem_cons.mp hy with rfl | hy
      · exact le_trans (le_max_left _ _) h0
      · rcases List.mem_cons.mp hy with rfl | hy
        · exact le_trans (le_max_right _ _) h0
        · exact hle _ (List.mem_cons_of_mem _ hy)
    · rw [List.foldl_cons]
      rcases List.mem_cons.mp hx with rfl | hx
      · rw [hf] at hxe
        rcases max_choice (f r0) (f r) with hm | hm
        · exact ⟨r0, by simp, by rw [hxe, hm]⟩
        · exact ⟨r, by simp, by rw [hxe, hm]⟩
      · exact ⟨x, by simp [hx], hxe⟩

/-- The union that `combineTilesetJson` accumulates over all regions: componentwise minimum
of west, south and minimum height, componentwise maximum of east, north and maximum height. -/
theorem foldl_union_all {α : Type} [LinearOrder α] (r0 : BoundingRegion α)
    (rs : List (BoundingRegion α)) :
    (∀ r ∈ r0 :: rs, ((r0 :: rs).foldl BoundingRegion.computeUnion r0).contains r)
    ∧ (∃ r ∈ r0 :: rs, ((r0 :: rs).foldl BoundingRegion.computeUnion r0).rectangle.west
        = r.rectangle.west)
    ∧ (∃ r ∈ r0 :: rs, ((r0 :: rs).foldl BoundingRegion.computeUnion r0).rectangle.south
        = r.rectangle.south)
    ∧ (∃ r ∈ r0 :: rs, ((r0 :: rs).foldl BoundingRegion.computeUnion r0).rectangle.east
        = r.rectangle.east)
    ∧ (∃ r ∈ r0 :: rs, ((r0 :: rs).foldl BoundingRegion.computeUnion r0).rectangle.north
        = r.rectangle.north)
    ∧ (∃ r ∈ r0 :: rs, ((r0 :: rs).foldl BoundingRegion.computeUnion r0).minimumHeight
        = r.minimumHeight)
    ∧ (∃ r ∈ r0 :: rs, ((r0 :: rs).foldl BoundingRegion.computeUnion r0).maximumHeight
        = r.maximumHeight) := by
  have hmem : ∀ r, r ∈ r0 :: r0 :: rs → r ∈ r0 :: rs := by
    intro r hr
    rcases List.mem_cons.mp hr with rfl | hr
    · exact List.mem_cons_self _ _
    · exact hr
  obtain ⟨w1, x1, m1, e1⟩ := foldl_union_min (fun r => r.rectangle.west) (fun _ _ => rfl)
    (r0 :: rs) r0
  obtain ⟨w2, x2, m2, e2⟩ := foldl_union_min (fun r => r.rectangle.south) (fun _ _ => rfl)
    (r0 :: rs) r0
  obtain ⟨w3, x3, m3, e3⟩ := foldl_union_max (fun r => r.rectangle.east) (fun _ _ => rfl)
    (r0 :: rs) r0
  obtain ⟨w4, x4, m4, e4⟩ := foldl_union_max (fun r => r.rectangle.north) (fun _ _ => rfl)
    (r0 :: rs) r0
  obtain ⟨w5, x5, m5, e5⟩ := foldl_union_min (fun r => r.minimumHeight) (fun _ _ => rfl)
    (r0 :: rs) r0
  obtain ⟨w6, x6, m6, e6⟩ := foldl_union_max (fun r => r.maximumHeight) (fun _ _ => rfl)
    (r0 :: rs) r0
  refine ⟨fun r hr => ⟨w1 r (List.mem_cons_of_mem _ hr), w2 r (List.mem_cons_of_mem _ hr),
      w3 r (List.mem_cons_of_mem _ hr), w4 r (List.mem_cons_of_mem _ hr),
      w5 r (List.mem_cons_of_mem _ hr), w6 r (List.mem_cons_of_mem _ hr)⟩,
    ⟨x1, hmem _ m1, e1⟩, ⟨x2, hmem _ m2, e2⟩, ⟨x3, hmem _ m3, e3⟩, ⟨x4, hmem _ m4, e4⟩,
    ⟨x5, hmem _ m5, e5⟩, ⟨x6, hmem _ m6, e6⟩⟩

/-- C8: for a non-empty list of regions with one path per region, the root
`boundingVolume.region` emitted by `combineTilesetJson` is the componentwise union of all the
child regions: it contains every child region, and its west, south and minimum height are
those of some child (the minima) and its east, north and maximum height are those of some
child (the maxima).  For `R1 = [-π/2, 0, 0, π/2, 0, 100]` and `R2 = [0, 0, π/2, π/2, -10, 50]`
it is `[-π/2, 0, π/2, π/2, -10, 100]`. -/
theorem combineTilesetJson_rootRegion {α : Type} [LinearOrderedField α] (paths : List String)
    (regions : List (BoundingRegion α)) (hne : regions ≠ [])
    (hlen : paths.length = regions.length) :
    (∃ (doc : Json α) (U : BoundingRegion α), combinedDocument paths regions = some doc
      ∧ doc.get2 "root" "boundingVolume" = some (regionJson U)
      ∧ (∀ r ∈ regions, U.contains r)
      ∧ (∃ r ∈ regions, U.rectangle.west = r.rectangle.west)
      ∧ (∃ r ∈ regions, U.rectangle.south = r.rectangle.south)
      ∧ (∃ r ∈ regions, U.rectangle.east = r.rectangle.east)
      ∧ (∃ r ∈ regions, U.rectangle.north = r.rectangle.north)
      ∧ (∃ r ∈ regions, U.minimumHeight = r.minimumHeight)
      ∧ (∃ r ∈ regions, U.maximumHeight = r.maximumHeight))
    ∧ ∀ p1 p2 : String,
        (combinedDocument [p1, p2]
            [(⟨⟨-(Real.pi / 2), 0, 0, Real.pi / 2⟩, 0, 100⟩ : BoundingRegion ℝ),
              ⟨⟨0, 0, Real.pi / 2, Real.pi / 2⟩, -10, 50⟩]).bind
          (fun doc => doc.get2 "root" "boundingVolume")
        = some (regionJson ⟨⟨-(Real.pi / 2), 0, Real.pi / 2, Real.pi / 2⟩, -10, 100⟩) := by
  constructor
  · cases regions with
    | nil => exact absurd rfl hne
    | cons r0 rs =>
      obtain ⟨doc, hdoc, -, hbv, -, -⟩ := combinedDocument_root paths r0 rs (le_of_eq hlen)
      rw [hlen, List.take_length] at hbv
      exact ⟨doc, _, hdoc, hbv, foldl_union_all r0 rs⟩
  · intro p1 p2
    obtain ⟨doc, hdoc, -, hbv, -, -⟩ := combinedDocument_root [p1, p2]
      (⟨⟨-(Real.pi / 2), 0, 0, Real.pi / 2⟩, 0, 100⟩ : BoundingRegion ℝ)
      [⟨⟨0, 0, Real.pi / 2, Real.pi / 2⟩, -10, 50⟩] (le_refl _)
    rw [hdoc, Option.some_bind, hbv]
    have hpi : (0 : ℝ) ≤ Real.pi / 2 := by positivity
    have hneg : -(Real.pi / 2) ≤ (0 : ℝ) := by linarith
    have h100 : max (100 : ℝ) 50 = 100 := max_eq_left (by norm_num)
    simp [BoundingRegion.computeUnion, GlobeRectangle.computeUnion, hpi, hneg, h100]

/-- Witness of C8: two paths and two regions. -/
theorem combineTilesetJson_rootRegion_witness :
    sampleRegions ≠ [] ∧ samplePaths.length = sampleRegions.length
    ∧ ∃ (doc : Json ℚ) (U : BoundingRegion ℚ),
        combinedDocument samplePaths sampleRegions = some doc
        ∧ doc.get2 "root" "boundingVolume" = some (regionJson U)
        ∧ ∀ r ∈ sampleRegions, U.contains r := by
  obtain ⟨⟨doc, U, hdoc, hbv, hc, -⟩, -⟩ :=
    combineTilesetJson_rootRegion samplePaths sampleRegions (List.cons_ne_nil _ _) (by decide)
  exact ⟨List.cons_ne_nil _ _, by decide, doc, U, hdoc, hbv, hc⟩

/-! ## Tileset JSON of one collection -/

theorem Json.halvesFrom_of_errorNode {α : Type} [LinearOrderedField α] (e : α) (j : Json α)
    (h : j.errorNode e) : j.halvesFrom e := by
  intro path node hnode
  cases path with
  | nil =>
    simp only [Json.descend, Option.some.injEq] at hnode
    subst hnode
    simpa using h.1
  | cons i path =>
    simp only [Json.descend] at hnode
    cases hc : j.child i with
    | none => simp [hc] at hnode
    | some c =>
      rw [hc, Option.some_bind] at hnode
      have := h.2 i c hc path node hnode
      rw [this, List.length_cons, pow_succ, div_div, mul_comm]

theorem Json.child_none_of_get {α : Type} (j : Json α) (i : Nat)
    (h : j.get "children" = none) : j.child i = none := by
  simp [Json.child, h]

theorem Json.child_set_children {α : Type} (j x c : Json α) (i : Nat)
    (h : (j.set "children" ((j.index "children").pushBack x)).child i = some c) :
    j.child i = some c ∨ c = x := by
  simp only [Json.child, Json.get_set_self, Option.some_bind, Json.index] at h ⊢
  cases hg : j.get "children" with
  | none =>
    rw [hg] at h
    simp only [Option.getD_none, Json.pushBack, Json.items, Option.some_bind] at h
    right
    cases i with
    | zero => simpa using h.symm
    | succ i => simp at h
  | some w =>
    rw [hg] at h
    simp only [Option.getD_some, Option.some_bind] at h ⊢
    cases w with
    | arr xs =>
      simp only [Json.pushBack, Json.items, Option.some_bind] at h ⊢
      by_cases hi : i < xs.length
      · left
        rw [List.getElem?_append_left hi] at h
        exact h
      · right
        rw [List.getElem?_append_right (by omega)] at h
        cases hk : i - xs.length with
        | zero => rw [hk] at h; simpa using h.symm
        | succ k => rw [hk] at h; simp at h
    | null | uint _ | int _ | float _ | str _ | obj _ =>
      simp only [Json.pushBack, Json.items, Option.some_bind] at h
      right
      cases i with
      | zero => simpa using h.symm
      | succ i => simp at h

theorem tileContentJson_get {α : Type} (contentURI : Option String)
    (contentRegion : Option (BoundingRegion α)) (json : Json α) (k : String)
    (hk : k ≠ "content") : (tileContentJson contentURI contentRegion json).get k = json.get k := by
  cases contentURI with
  | none => rfl
  | some uri =>
    cases contentRegion with
    | none =>
      simp only [tileContentJson]
      rw [Json.get_set2_ne _ _ _ _ _ hk, Json.get_set_ne _ _ _ _ hk]
    | some region =>
      simp only [tileContentJson]
      rw [Json.get_set2_ne _ _ _ _ _ hk, Json.get_set2_ne _ _ _ _ _ hk,
        Json.get_set_ne _ _ _ _ hk]

theorem convertTilesetToJson_errorNode {α : Type} [LinearOrderedField α] (tile : CDBTile α)
    (e : α) (json : Json α) (h : json.get "children" = none) :
    (convertTilesetToJson tile e json).errorNode e := by
  refine convertTilesetToJson.induct
    (fun tile e json => json.get "children" = none → (convertTilesetToJson tile e json).errorNode e)
    (fun children e json => json.errorNode e → (convertChildren children e json).errorNode e)
    ?_ ?_ ?_ ?_ tile e json h
  · intro tileRegion contentURI contentRegion children e json json1 json2 json3 ih hj
    rw [convertTilesetToJson]
    apply ih
    have h2e : json2.get "geometricError" = some (Json.float e) := by
      simp only [json2, json1]
      rw [Json.get_set_ne _ _ _ _ (by decide), Json.get_set_self]
    have h2c : json2.get "children" = none := by
      simp only [json2, json1]
      rw [Json.get_set_ne _ _ _ _ (by decide), Json.get_set_ne _ _ _ _ (by decide), hj]
    have h3 : json3.get "geometricError" = some (Json.float e)
        ∧ json3.get "children" = none := by
      rw [show json3 = tileContentJson contentURI contentRegion json2 from rfl,
        tileContentJson_get _ _ _ _ (by decide), tileContentJson_get _ _ _ _ (by decide)]
      exact ⟨h2e, h2c⟩
    exact ⟨h3.1, fun i c hc => by rw [Json.child_none_of_get _ _ h3.2] at hc; cases hc⟩
  · intro e json hj
    rw [convertChildren]
    exact hj
  · intro rest e json ih hj
    rw [convertChildren]
    exact ih hj
  · intro child rest e json childJson ihc ihr hj
    rw [convertChildren]
    apply ihr
    refine ⟨?_, ?_⟩
    · rw [Json.get_set_ne _ _ _ _ (by decide)]
      exact hj.1
    · intro i c hc
      rcases Json.child_set_children _ _ _ _ hc with hold | rfl
      · exact hj.2 i c hold
      · exact Json.halvesFrom_of_errorNode _ _ (ihc rfl)

theorem Json.descend_concat {α : Type} (j : Json α) (path : List Nat) (i : Nat) :
    j.descend (path ++ [i]) = (j.descend path).bind (fun node => node.child i) := by
  induction path generalizing j with
  | nil =>
    simp only [List.nil_append, Json.descend, Option.some_bind]
    cases j.child i <;> simp [Json.descend]
  | cons k path ih =>
    simp only [List.cons_append, Json.descend]
    cases j.child k with
    | none => simp
    | some c => simp [ih]

/-- The document of `writeToTilesetJson` for a tileset with a root. -/
theorem tilesetDocument_root {α : Type} [LinearOrderedField α] (root : CDBTile α)
    (replace : Bool) :
    ∃ (doc base : Json α), tilesetDocument ⟨some root⟩ replace = some doc
      ∧ base.get "children" = none
      ∧ doc.index "root" = convertTilesetToJson root MAX_GEOMETRIC_ERROR base
      ∧ doc.get "root" = some (convertTilesetToJson root MAX_GEOMETRIC_ERROR base)
      ∧ doc.get "geometricError"
          = some ((convertTilesetToJson root MAX_GEOMETRIC_ERROR base).index "geometricError") := by
  have aux : ∀ t : Json α,
      ((t.set "root" (convertTilesetToJson root MAX_GEOMETRIC_ERROR (t.index "root"))).set
          "geometricError" (((t.set "root" (convertTilesetToJson root MAX_GEOMETRIC_ERROR
            (t.index "root"))).index "root").index "geometricError")).index "root"
        = convertTilesetToJson root MAX_GEOMETRIC_ERROR (t.index "root")
      ∧ ((t.set "root" (convertTilesetToJson root MAX_GEOMETRIC_ERROR (t.index "root"))).set
          "geometricError" (((t.set "root" (convertTilesetToJson root MAX_GEOMETRIC_ERROR
            (t.index "root"))).index "root").index "geometricError")).get "root"
        = some (convertTilesetToJson root MAX_GEOMETRIC_ERROR (t.index "root"))
      ∧ ((t.set "root" (convertTilesetToJson root MAX_GEOMETRIC_ERROR (t.index "root"))).set
          "geometricError" (((t.set "root" (convertTilesetToJson root MAX_GEOMETRIC_ERROR
            (t.index "root"))).index "root").index "geometricError")).get "geometricError"
        = some ((convertTilesetToJson root MAX_GEOMETRIC_ERROR (t.index "root")).index
            "geometricError") := by
    intro t
    refine ⟨?_, ?_, ?_⟩
    · simp only [Json.index]
      rw [Json.get_set_ne _ _ _ _ (by decide), Json.get_set_self]
      rfl
    · rw [Json.get_set_ne _ _ _ _ (by decide), Json.get_set_self]
    · rw [Json.get_set_self]
      simp only [Json.index, Json.get_set_self, Option.getD_some]
  cases replace with
  | false =>
    exact ⟨_, (((Json.null.set "asset" (Json.obj [("version", Json.str "1.0")])).set "root"
        (Json.obj [])).set2 "root" "refine" (Json.str "ADD")).index "root", rfl,
      by simp [Json.index, Json.set2, Json.set, Json.get, insertKey, List.lookup], aux _⟩
  | true =>
    exact ⟨_, (((Json.null.set "asset" (Json.obj [("version", Json.str "1.0")])).set "root"
        (Json.obj [])).set2 "root" "refine" (Json.str "REPLACE")).index "root", rfl,
      by simp [Json.index, Json.set2, Json.set, Json.get, insertKey, List.lookup], aux _⟩

/-- C10: in the document emitted by `writeToTilesetJson` for a tileset with a root, the
top-level `geometricError` and that of the root are 300000, a node at depth `d` below the root
has `geometricError = 300000 / 2 ^ d`, and the `geometricError` of every node is exactly twice
that of each of its children. -/
theorem writeToTilesetJson_geometricError {α : Type} [LinearOrderedField α]
    (dump : Json α → List Nat) (root : CDBTile α) (replace : Bool) :
    ∃ doc : Json α, tilesetDocument ⟨some root⟩ replace = some doc
      ∧ (writeToTilesetJson dump ⟨some root⟩ replace OFStream.empty).data = dump doc ++ [10]
      ∧ doc.get "geometricError" = some (Json.float 300000)
      ∧ doc.get2 "root" "geometricError" = some (Json.float 300000)
      ∧ (∀ path node, (doc.index "root").descend path = some node →
          node.get "geometricError" = some (Json.float (300000 / 2 ^ path.length)))
      ∧ (∀ path node i child, (doc.index "root").descend path = some node →
          node.child i = some child →
          ∃ e : α, child.get "geometricError" = some (Json.float e)
            ∧ node.get "geometricError" = some (Json.float (2 * e))) := by
  obtain ⟨doc, base, hdoc, hbase, hroot, hget, hge⟩ := tilesetDocument_root root replace
  have hnode := convertTilesetToJson_errorNode root MAX_GEOMETRIC_ERROR base hbase
  have hhalves := Json.halvesFrom_of_errorNode _ _ hnode
  have hR : (convertTilesetToJson root MAX_GEOMETRIC_ERROR base).get "geometricError"
      = some (Json.float (300000 : α)) := hnode.1
  refine ⟨doc, hdoc, ?_, ?_, ?_, ?_, ?_⟩
  · simp only [writeToTilesetJson, hdoc, OFStream.write_empty]
  · rw [hge, Json.index, hR]
    rfl
  · rw [Json.get2, hget, Option.some_bind, hR]
  · intro path node hpath
    rw [hroot] at hpath
    exact hhalves path node hpath
  · intro path node i child hpath hchild
    rw [hroot] at hpath
    have hc : (convertTilesetToJson root MAX_GEOMETRIC_ERROR base).descend (path ++ [i])
        = some child := by
      rw [Json.descend_concat, hpath, Option.some_bind, hchild]
    refine ⟨300000 / 2 ^ (path ++ [i]).length, ?_, ?_⟩
    · exact hhalves _ _ hc
    · rw [hhalves path node hpath, List.length_append, List.length_singleton, pow_succ]
      simp only [MAX_GEOMETRIC_ERROR]
      congr 2
      field_simp
      ring

/-- The sample tileset: the node two levels below the root carries `300000 / 4`. -/
theorem tilesetDocument_sample :
    ((tilesetDocument ⟨some sampleTile⟩ true).bind
        (fun doc => (doc.index "root").descend [0, 0])).bind
        (fun node => node.get "geometricError")
      = some (Json.float 75000) := by
  simp [tilesetDocument, sampleTile, convertTilesetToJson, convertChildren, tileContentJson,
    Json.descend, Json.child, Json.index, Json.set, Json.set2, Json.get, Json.pushBack,
    Json.items, insertKey, List.lookup, MAX_GEOMETRIC_ERROR, regionJson]
  norm_num

/-! ## Geometric error in the combined tileset JSON -/

theorem Json.get_index_of_get2 {α : Type} (j v : Json α) (k1 k2 : String)
    (h : j.get2 k1 k2 = some v) : (j.index k1).get k2 = some v := by
  simp only [Json.get2, Json.index] at h ⊢
  cases hg : j.get k1 with
  | none => rw [hg] at h; simp at h
  | some w => rw [hg] at h; simpa using h

/-- C11 (amended): in the document emitted by `combineTilesetJson` the top-level
`geometricError`, that of the root and that of every child of the root are all 300000: the
`geometricError` of the root equals that of each child (it is not halved). -/
theorem combineTilesetJson_geometricError {α : Type} [LinearOrderedField α]
    (paths : List String) (regions : List (BoundingRegion α))
    (h : paths.length ≤ regions.length) :
    (regions ≠ [] → (combinedDocument paths regions).isSome = true)
    ∧ ∀ doc, combinedDocument paths regions = some doc →
        doc.get "geometricError" = some (Json.float 300000)
        ∧ doc.get2 "root" "geometricError" = some (Json.float 300000)
        ∧ ∃ children : List (Json α), doc.get2 "root" "children" = some (Json.arr children)
            ∧ children.length = paths.length
            ∧ ∀ c ∈ children, c.get "geometricError" = some (Json.float 300000) := by
  cases regions with
  | nil =>
    refine ⟨fun hne => absurd rfl hne, ?_⟩
    intro doc hdoc
    simp [combinedDocument] at hdoc
  | cons r0 rs =>
    obtain ⟨doc, hdoc, hchildren, -, hrg, hg⟩ := combinedDocument_root paths r0 rs h
    refine ⟨fun _ => by rw [hdoc]; rfl, ?_⟩
    intro doc' hdoc'
    rw [hdoc] at hdoc'
    cases hdoc'
    refine ⟨hg, hrg, _, hchildren, ?_, ?_⟩
    · rw [List.length_zipWith]
      exact min_eq_left h
    · intro c hc
      obtain ⟨i, hi, rfl⟩ := List.getElem_of_mem hc
      rw [List.getElem_zipWith]
      exact (combineChildJson_members _ _).2.2

/-- Witness of C11: two paths and two regions. -/
theorem combineTilesetJson_geometricError_witness :
    samplePaths.length ≤ sampleRegions.length
    ∧ (combinedDocument samplePaths sampleRegions).isSome = true :=
  ⟨by decide,
    (combineTilesetJson_geometricError samplePaths sampleRegions (by decide)).1
      (List.cons_ne_nil _ _)⟩

/-- C11 (as stated, refuted): for two paths and two regions the root and its first child both
carry `geometricError` 300000, which is not twice 300000. -/
theorem combineTilesetJson_error_not_halved :
    (combinedDocument samplePaths sampleRegions).bind
        (fun doc => doc.get2 "root" "geometricError") = some (Json.float 300000)
    ∧ (combinedDocument samplePaths sampleRegions).bind
        (fun doc => ((doc.index "root").child 0).bind (fun c => c.get "geometricError"))
        = some (Json.float 300000)
    ∧ (300000 : ℚ) ≠ 2 * 300000 := by
  obtain ⟨doc, hdoc, hchildren, -, hrg, -⟩ :=
    combinedDocument_root samplePaths (⟨⟨-1, 0, 0, 1⟩, 0, 100⟩ : BoundingRegion ℚ)
      [⟨⟨0, 0, 1, 1⟩, -10, 50⟩] (by decide)
  have hdoc' : combinedDocument samplePaths sampleRegions = some doc := hdoc
  have hc := Json.get_index_of_get2 _ _ _ _ hchildren
  refine ⟨by rw [hdoc', Option.some_bind, hrg]; rfl, ?_, by norm_num⟩
  rw [hdoc', Option.some_bind]
  simp only [Json.child, hc, Option.some_bind, Json.items, samplePaths, List.zipWith,
    List.getElem?_cons_zero]
  exact (combineChildJson_members _ _).2.2

/-! ## Feature table of a B3DM -/

theorem length_ascii (s : String) : (ascii s).length = s.length := by
  simp [ascii]

theorem b3dmFeatureTableString_eq (instancesAttribs : Option CDBInstancesAttributes) :
    b3dmFeatureTableString instancesAttribs
      = padSpaces 28 (ascii "\x7b\"BATCH_LENGTH\":"
          ++ ascii (Nat.repr (numOfBatchID instancesAttribs)) ++ ascii "\x7d") := by
  cases instancesAttribs <;> rfl

theorem length_batchLengthText (n : Nat) (hn : n < 2 ^ 64) :
    (ascii "\x7b\"BATCH_LENGTH\":" ++ ascii (Nat.repr n) ++ ascii "\x7d").length ≤ 38 := by
  have h := Nat.repr_length n 20 (by norm_num) (lt_trans hn (by norm_num))
  have h1 : (ascii "\x7b\"BATCH_LENGTH\":").length = 16 := by decide
  have h2 : (ascii "\x7d").length = 1 := by decide
  rw [List.length_append, List.length_append, h1, h2, length_ascii]
  omega

/-- C20: in every B3DM written by `writeToB3DM` the feature table JSON, the section that
follows the 28-byte header and whose length the header declares, is the text
`{"BATCH_LENGTH":n}` with `n` the instance count of the attribute table (0 without a table),
followed by the fewest spaces, fewer than 8, that make 28 plus its length a multiple of 8, and
`featureTableBinByteLength` is 0.  Without a table it is `{"BATCH_LENGTH":0}` and two spaces,
20 bytes, and both batch table lengths are 0. -/
theorem writeToB3DM_featureTable {α : Type} (dump : Json α → List Nat) (glb : List Nat)
    (instancesAttribs : Option CDBInstancesAttributes)
    (hn : numOfBatchID instancesAttribs < 2 ^ 64) :
    (∃ pad : Nat, pad < 8
      ∧ (28 + (ascii "\x7b\"BATCH_LENGTH\":" ++ ascii (Nat.repr (numOfBatchID instancesAttribs))
          ++ ascii "\x7d").length + pad) % 8 = 0
      ∧ (∀ q : Nat, (28 + (ascii "\x7b\"BATCH_LENGTH\":"
          ++ ascii (Nat.repr (numOfBatchID instancesAttribs))
          ++ ascii "\x7d").length + q) % 8 = 0 → pad ≤ q)
      ∧ u32At (writeToB3DM dump glb instancesAttribs OFStream.empty).data 12
          = (ascii "\x7b\"BATCH_LENGTH\":" ++ ascii (Nat.repr (numOfBatchID instancesAttribs))
              ++ ascii "\x7d").length + pad
      ∧ ((writeToB3DM dump glb instancesAttribs OFStream.empty).data.drop 28).take
            ((ascii "\x7b\"BATCH_LENGTH\":" ++ ascii (Nat.repr (numOfBatchID instancesAttribs))
              ++ ascii "\x7d").length + pad)
          = ascii "\x7b\"BATCH_LENGTH\":" ++ ascii (Nat.repr (numOfBatchID instancesAttribs))
              ++ ascii "\x7d" ++ List.replicate pad 32
      ∧ u32At (writeToB3DM dump glb instancesAttribs OFStream.empty).data 16 = 0)
    ∧ (u32At (writeToB3DM dump glb none OFStream.empty).data 12 = 20
      ∧ ((writeToB3DM dump glb none OFStream.empty).data.drop 28).take 20
          = ascii "\x7b\"BATCH_LENGTH\":0\x7d  "
      ∧ u32At (writeToB3DM dump glb none OFStream.empty).data 16 = 0
      ∧ u32At (writeToB3DM dump glb none OFStream.empty).data 20 = 0
      ∧ u32At (writeToB3DM dump glb none OFStream.empty).data 24 = 0) := by
  have key : ∀ attribs : Option CDBInstancesAttributes,
      u32At (writeToB3DM dump glb attribs OFStream.empty).data 12
          = (b3dmFeatureTableString attribs).length % 4294967296
      ∧ ((writeToB3DM dump glb attribs OFStream.empty).data.drop 28).take
          (b3dmFeatureTableString attribs).length = b3dmFeatureTableString attribs
      ∧ u32At (writeToB3DM dump glb attribs OFStream.empty).data 16 = 0
      ∧ u32At (writeToB3DM dump glb attribs OFStream.empty).data 20
          = (createBatchTable dump attribs).1.length % 4294967296
      ∧ u32At (writeToB3DM dump glb attribs OFStream.empty).data 24
          = (createBatchTable dump attribs).2.length % 4294967296 := by
    intro attribs
    rw [writeToB3DM_data]
    generalize b3dmFeatureTableString attribs = ft
    generalize (createBatchTable dump attribs).1 = bj
    generalize (createBatchTable dump attribs).2 = bb
    generalize b3dmGlbBuffer glb = g
    have hm : (b3dmHeader ft bj bb g).magic.length = 4 := by simp [b3dmHeader, ascii_b3dm]
    obtain ⟨-, -, -, f3, f4, f5, f6⟩ :=
      b3dmHeader_fields (b3dmHeader ft bj bb g) hm (ft ++ bj ++ bb ++ g)
    simp only [← List.append_assoc] at f3 f4 f5 f6
    have h28 := b3dmHeader_length_bytes (b3dmHeader ft bj bb g) hm
    refine ⟨?_, ?_, ?_, ?_, ?_⟩
    · rw [u32At, f3, fromLE_u32le]
      simp only [b3dmHeader, toU32, Nat.mod_mod]
    · simp only [List.append_assoc]
      rw [List.drop_left' h28, List.take_left]
    · rw [u32At, f4, fromLE_u32le]
      rfl
    · rw [u32At, f5, fromLE_u32le]
      simp only [b3dmHeader, toU32, Nat.mod_mod]
    · rw [u32At, f6, fromLE_u32le]
      simp only [b3dmHeader, toU32, Nat.mod_mod]
  constructor
  · obtain ⟨k12, kft, k16, -, -⟩ := key instancesAttribs
    rw [b3dmFeatureTableString_eq] at k12 kft
    have hlen := length_batchLengthText _ hn
    generalize ascii "\x7b\"BATCH_LENGTH\":" ++ ascii (Nat.repr (numOfBatchID instancesAttribs))
      ++ ascii "\x7d" = text at k12 kft hlen ⊢
    have hpl := length_padSpaces 28 text
    have hle := le_roundUp (28 + text.length)
    have hlt := roundUp_lt (28 + text.length)
    have hmod := roundUp_mod (28 + text.length)
    refine ⟨roundUp (28 + text.length) 8 - (28 + text.length), by omega, by omega,
      fun q hq => by omega, ?_, ?_, k16⟩
    · rw [k12, hpl]
      omega
    · have he : text.length + (roundUp (28 + text.length) 8 - (28 + text.length))
          = (padSpaces 28 text).length := by rw [hpl]; omega
      rw [he, kft]
      rfl
  · obtain ⟨k12, kft, k16, k20, k24⟩ := key none
    have hft : b3dmFeatureTableString none = ascii "\x7b\"BATCH_LENGTH\":0\x7d  " := by decide
    have hbt : createBatchTable dump none = ([], []) := rfl
    rw [hft] at k12 kft
    rw [hbt] at k20 k24
    exact ⟨k12, kft, k16, k20, k24⟩

/-- Witness of C20: the sample attribute table with two instances. -/
theorem writeToB3DM_featureTable_witness :
    numOfBatchID (some sampleAttribs) < 2 ^ 64
    ∧ u32At (writeToB3DM (sampleDump : Json ℚ → List Nat) [1, 2, 3] (some sampleAttribs)
        OFStream.empty).data 16 = 0 := by
  have h : numOfBatchID (some sampleAttribs) < 2 ^ 64 := by decide
  obtain ⟨⟨pad, -, -, -, -, -, h16⟩, -⟩ :=
    writeToB3DM_featureTable (sampleDump : Json ℚ → List Nat) [1, 2, 3] (some sampleAttribs) h
  exact ⟨h, h16⟩

/-! ## Placement of an elevation tile in its subtree -/

theorem subtreePlacement_some (D L u r : Int) (hL : 0 ≤ L) :
    subtreePlacement D L u r = some
      { subtreeRootLevel := L.tdiv D * D
        levelWithinSubtree := L - L.tdiv D * D
        subtreeRootX := r.tdiv (2 ^ (L - L.tdiv D * D).toNat)
        subtreeRootY := u.tdiv (2 ^ (L - L.tdiv D * D).toNat)
        bufferKey := toString (L.tdiv D * D) ++ "_"
          ++ toString (r.tdiv (2 ^ (L - L.tdiv D * D).toNat)) ++ "_"
          ++ toString (u.tdiv (2 ^ (L - L.tdiv D * D).toNat)) } := by
  simp [subtreePlacement, hL]

theorem two_pow_toNat_pos (d : Int) : (0 : Int) < 2 ^ d.toNat := by positivity

/-- C16: for subtree depth `D ≥ 1` and an elevation tile of level `L ≥ 0`, UREF `u ≥ 0` and
RREF `r ≥ 0`, `convert` places the tile: the subtree root level is `(L / D) * D`, a multiple of
`D` not above `L`; `Δ = L - subtreeRootLevel` satisfies `0 ≤ Δ < D`; the root coordinates are
`floor (u / 2 ^ Δ)` and `floor (r / 2 ^ Δ)`; and `root * 2 ^ Δ ≤ coordinate < (root + 1) * 2 ^ Δ`
on each axis. -/
theorem subtreePlacement_root (D L u r : Int) (hD : 1 ≤ D) (hL : 0 ≤ L) (hu : 0 ≤ u)
    (hr : 0 ≤ r) :
    ∃ p : SubtreePlacement, subtreePlacement D L u r = some p
      ∧ p.subtreeRootLevel = (L / D) * D
      ∧ D ∣ p.subtreeRootLevel ∧ 0 ≤ p.subtreeRootLevel ∧ p.subtreeRootLevel ≤ L
      ∧ p.levelWithinSubtree = L - p.subtreeRootLevel
      ∧ 0 ≤ p.levelWithinSubtree ∧ p.levelWithinSubtree < D
      ∧ p.subtreeRootY = u / 2 ^ p.levelWithinSubtree.toNat
      ∧ p.subtreeRootX = r / 2 ^ p.levelWithinSubtree.toNat
      ∧ p.subtreeRootY * 2 ^ p.levelWithinSubtree.toNat ≤ u
      ∧ u < (p.subtreeRootY + 1) * 2 ^ p.levelWithinSubtree.toNat
      ∧ p.subtreeRootX * 2 ^ p.levelWithinSubtree.toNat ≤ r
      ∧ r < (p.subtreeRootX + 1) * 2 ^ p.levelWithinSubtree.toNat := by
  refine ⟨_, subtreePlacement_some D L u r hL, ?_⟩
  have hD0 : (0 : Int) < D := by omega
  have hdiv : L.tdiv D = L / D := Int.tdiv_eq_ediv hL (by omega)
  have hle : L / D * D ≤ L := Int.ediv_mul_le L (by omega)
  have hlt : L < (L / D + 1) * D := Int.lt_ediv_add_one_mul_self L hD0
  have hq : 0 ≤ L / D := Int.ediv_nonneg hL (by omega)
  have hp := two_pow_toNat_pos (L - L / D * D)
  have hu' : u.tdiv (2 ^ (L - L / D * D).toNat) = u / 2 ^ (L - L / D * D).toNat :=
    Int.tdiv_eq_ediv hu hp.le
  have hr' : r.tdiv (2 ^ (L - L / D * D).toNat) = r / 2 ^ (L - L / D * D).toNat :=
    Int.tdiv_eq_ediv hr hp.le
  simp only [hdiv, hu', hr']
  refine ⟨trivial, Dvd.intro_left _ rfl, mul_nonneg hq hD0.le, hle, trivial, by omega, ?_,
    trivial, trivial,
    Int.ediv_mul_le u hp.ne', Int.lt_ediv_add_one_mul_self u hp,
    Int.ediv_mul_le r hp.ne', Int.lt_ediv_add_one_mul_self r hp⟩
  have : (L / D + 1) * D = L / D * D + D := by ring
  omega

/-- Witness of C16: depth 4, the tile of level 6 with UREF 37 and RREF 21 lies in the subtree
rooted at level 4, row 9, column 5. -/
theorem subtreePlacement_root_witness :
    (1 : Int) ≤ 4 ∧ (0 : Int) ≤ 6 ∧ (0 : Int) ≤ 37 ∧ (0 : Int) ≤ 21
    ∧ ∃ p : SubtreePlacement, subtreePlacement 4 6 37 21 = some p
        ∧ p.subtreeRootLevel = (6 / 4) * 4 :=
  ⟨by decide, by decide, by decide, by decide,
    (subtreePlacement_root 4 6 37 21 (by decide) (by decide) (by decide) (by decide)).imp
      (fun _ h => ⟨h.1, h.2.1⟩)⟩

/-- C17 (as stated, refuted): with depth 1, the tile of level 1, UREF 1 and RREF 0 is its own
subtree root; its subtree file is `1_0_1.subtree` (level, RREF-derived, UREF-derived), not
`1_1_0.subtree`. -/
theorem subtreeFilePath_not_uref_first :
    (subtreePlacement 1 1 1 0).map (fun p => (p.subtreeRootLevel, p.subtreeRootY, p.subtreeRootX))
        = some (1, 1, 0)
    ∧ (subtreePlacement 1 1 1 0).map (fun p => subtreeFilePath ["out", "N32W118"] p.bufferKey)
        = some ["out", "N32W118", "Elevation", "subtrees", "1_0_1.subtree"]
    ∧ "1_0_1.subtree" ≠ "1_1_0.subtree" := by
  decide

/-- C17 (amended): for every elevation tile of level `L ≥ 0`, UREF `u ≥ 0` and RREF `r ≥ 0`
and depth `D ≥ 1`, the subtree file of the tile is
`{geocell}/Elevation/subtrees/{rootLevel}_{rootR}_{rootU}.subtree`, where `rootLevel = (L / D) * D`,
`rootR = floor (r / 2 ^ Δ)` is derived from the RREF and `rootU = floor (u / 2 ^ Δ)` from the
UREF: the name lists the level, then the RREF-derived coordinate, then the UREF-derived one. -/
theorem subtreeFilePath_key (geo : List String) (D L u r : Int) (hD : 1 ≤ D) (hL : 0 ≤ L)
    (hu : 0 ≤ u) (hr : 0 ≤ r) :
    (subtreePlacement D L u r).map (fun p => subtreeFilePath geo p.bufferKey)
      = some (geo ++ ["Elevation", "subtrees",
          toString ((L / D) * D) ++ "_" ++ toString (r / 2 ^ (L - (L / D) * D).toNat) ++ "_"
            ++ toString (u / 2 ^ (L - (L / D) * D).toNat) ++ ".subtree"]) := by
  have hdiv : L.tdiv D = L / D := Int.tdiv_eq_ediv hL (by omega)
  have hp := two_pow_toNat_pos (L - L / D * D)
  have hu' : u.tdiv (2 ^ (L - L / D * D).toNat) = u / 2 ^ (L - L / D * D).toNat :=
    Int.tdiv_eq_ediv hu hp.le
  have hr' : r.tdiv (2 ^ (L - L / D * D).toNat) = r / 2 ^ (L - L / D * D).toNat :=
    Int.tdiv_eq_ediv hr hp.le
  rw [subtreePlacement_some D L u r hL]
  simp only [hdiv, hu', hr', Option.map_some', subtreeFilePath, List.append_assoc,
    List.singleton_append]
  rfl

/-- Witness of C17: depth 4, level 6, UREF 37, RREF 21 gives `4_5_9.subtree`. -/
theorem subtreeFilePath_key_witness :
    (1 : Int) ≤ 4 ∧ (0 : Int) ≤ 6 ∧ (0 : Int) ≤ 37 ∧ (0 : Int) ≤ 21
    ∧ (subtreePlacement 4 6 37 21).map (fun p => subtreeFilePath ["out", "N32W118"] p.bufferKey)
        = some ["out", "N32W118", "Elevation", "subtrees", "4_5_9.subtree"] :=
  ⟨by decide, by decide, by decide, by decide,
    (subtreeFilePath_key ["out", "N32W118"] 4 6 37 21 (by decide) (by decide) (by decide)
      (by decide)).trans (by decide)⟩

/-! ## Requested dataset combinations -/

theorem find_not_mem (s : List Char) (c : Char) (h : c ∉ s) : find s c 0 = none := by
  simp [find, List.indexOf_of_not_mem h]

theorem find_append_cons (a b : List Char) (c : Char) (h : c ∉ a) :
    find (a ++ c :: b) c 0 = some a.length := by
  simp [find, List.indexOf_append_of_not_mem h]

theorem find_from (s t : List Char) (c : Char) (pos : Nat) (h : s.drop pos = t) :
    find s c pos = (find t c 0).map (fun i => pos + i) := by
  subst h
  unfold find
  simp only [List.drop_zero, Nat.zero_add]
  split <;> rfl

theorem drop_length_succ (a t : List Char) (c : Char) :
    (a ++ c :: t).drop (a.length + 1) = t := by
  rw [← List.drop_drop, List.drop_left]
  rfl

theorem split_unique (c : Char) : ∀ (a a' b b' : List Char), c ∉ a → c ∉ a' →
    a ++ c :: b = a' ++ c :: b' → a = a' ∧ b = b'
  | [], [], _, _, _, _, h => by simpa using h
  | [], x :: a', _, _, _, h', h => by
      simp only [List.nil_append, List.cons_append, List.cons.injEq] at h
      exact absurd (h.1 ▸ List.mem_cons_self _ _) h'
  | x :: a, [], _, _, h', _, h => by
      simp only [List.nil_append, List.cons_append, List.cons.injEq] at h
      exact absurd (h.1 ▸ List.mem_cons_self _ _) h'
  | x :: a, y :: a', b, b', h1, h2, h => by
      simp only [List.cons_append, List.cons.injEq] at h
      obtain ⟨ha, hb⟩ := split_unique c a a' b b'
        (fun hm => h1 (List.mem_cons_of_mem _ hm)) (fun hm => h2 (List.mem_cons_of_mem _ hm)) h.2
      exact ⟨by rw [h.1, ha], hb⟩

theorem notANumber_eq_false (cs : List Char) :
    notANumber cs = false ↔ cs ≠ [] ∧ ∀ c ∈ cs, c.isDigit = true := by
  cases cs <;> simp [notANumber]

theorem underscore_not_digit (cs : List Char) (h : ∀ c ∈ cs, c.isDigit = true) : '_' ∉ cs :=
  fun hm => absurd (h _ hm) (by decide)

/-- A string without `_` is rejected with the format message. -/
theorem validateDataset_no_separator (DP : List String) (d : String) (h : '_' ∉ d.data) :
    validateDataset DP d = Except.error wrongFormatMessage := by
  simp [validateDataset, find_not_mem _ _ h]

/-- A string with exactly one `_`: the name is checked first, then the format. -/
theorem validateDataset_one_separator (DP : List String) (d : String) (a t : List Char)
    (hd : d.data = a ++ '_' :: t) (ha : '_' ∉ a) (ht : '_' ∉ t) :
    validateDataset DP d
      = if String.mk a ∉ DP then Except.error (unrecognizedMessage DP (String.mk a))
        else Except.error wrongFormatMessage := by
  have h2 : find d.data '_' (a.length + 1) = none := by
    rw [find_from _ t _ _ (by rw [hd, drop_length_succ]), find_not_mem _ _ ht]
    rfl
  have h1 : find d.data '_' 0 = some a.length := by rw [hd, find_append_cons _ _ _ ha]
  have hs : substr d.data 0 a.length = a := by simp [substr, hd]
  simp only [validateDataset, h1, h2, hs]

/-- A string with at least two `_`: the outcome in terms of its three parts. -/
theorem validateDataset_two_separators (DP : List String) (d : String) (a b u : List Char)
    (hd : d.data = a ++ '_' :: (b ++ '_' :: u)) (ha : '_' ∉ a) (hb : '_' ∉ b) :
    validateDataset DP d
      = if String.mk a ∉ DP then Except.error (unrecognizedMessage DP (String.mk a))
        else if notANumber b then Except.error "Component selector 1 has to be a number"
        else if notANumber u then Except.error "Component selector 2 has to be a number"
        else Except.ok () := by
  have h1 : find d.data '_' 0 = some a.length := by rw [hd, find_append_cons _ _ _ ha]
  have h2 : find d.data '_' (a.length + 1) = some (a.length + 1 + b.length) := by
    rw [find_from _ (b ++ '_' :: u) _ _ (by rw [hd, drop_length_succ]),
      find_append_cons _ _ _ hb]
    rfl
  have hs : substr d.data 0 a.length = a := by simp [substr, hd]
  have hs1 : substr d.data (a.length + 1) (a.length + 1 + b.length - a.length - 1) = b := by
    have : a.length + 1 + b.length - a.length - 1 = b.length := by omega
    rw [this, substr, hd, drop_length_succ, List.take_left]
  have hs2 : d.data.drop (a.length + 1 + b.length + 1) = u := by
    have : a.length + 1 + b.length + 1 = (a.length + 1) + (b.length + 1) := by omega
    rw [this, ← List.drop_drop, hd, drop_length_succ, drop_length_succ]
  simp only [validateDataset, h1, h2, hs, hs1, hs2]

theorem validateDataset_ok_iff (DP : List String) (d : String) :
    validateDataset DP d = Except.ok () ↔ WellFormedDataset DP d := by
  by_cases h1 : '_' ∈ d.data
  · obtain ⟨a, t, hd, ha⟩ := List.eq_append_cons_of_mem h1
    by_cases h2 : '_' ∈ t
    · obtain ⟨b, u, ht, hb⟩ := List.eq_append_cons_of_mem h2
      rw [ht] at hd
      rw [validateDataset_two_separators DP d a b u hd ha hb]
      constructor
      · intro h
        split_ifs at h with hn h3 h4
        simp only [Bool.not_eq_true, notANumber_eq_false] at h3 h4
        exact ⟨a, b, u, hd, ha, hn, h3.1, h3.2, h4.1, h4.2⟩
      · rintro ⟨name, cs1, cs2, hd', hn, hm, h3, h3', h4, h4'⟩
        obtain ⟨e1, e2⟩ := split_unique '_' _ _ _ _ ha hn (hd.symm.trans hd')
        obtain ⟨e3, e4⟩ := split_unique '_' _ _ _ _ hb (underscore_not_digit _ h3') e2
        subst e1 e3 e4
        have k3 : notANumber b = false := (notANumber_eq_false b).mpr ⟨h3, h3'⟩
        have k4 : notANumber u = false := (notANumber_eq_false u).mpr ⟨h4, h4'⟩
        simp [hm, k3, k4]
    · rw [validateDataset_one_separator DP d a t hd ha h2]
      constructor
      · intro h
        split_ifs at h
      · rintro ⟨name, cs1, cs2, hd', hn, -, -, -, -, -⟩
        obtain ⟨-, e2⟩ := split_unique '_' _ _ _ _ ha hn (hd.symm.trans hd')
        exact absurd (e2 ▸ List.mem_append_right _ (List.mem_cons_self _ _)) h2
  · rw [validateDataset_no_separator DP d h1]
    constructor
    · intro h
      cases h
    · rintro ⟨name, cs1, cs2, hd', -⟩
      exact absurd (hd' ▸ List.mem_append_right _ (List.mem_cons_self _ _)) h1

theorem forM_ok_iff (f : String → Except String Unit) : ∀ ds : List String,
    ds.forM f = Except.ok () ↔ ∀ d ∈ ds, f d = Except.ok ()
  | [] => by simp [pure, Except.pure]
  | d :: ds => by
      rw [List.forall_mem_cons, ← forM_ok_iff f ds, List.forM]
      cases hf : f d with
      | error e => simp [bind, Except.bind]
      | ok v => cases v; simp [bind, Except.bind]

theorem combineDataset_single (DP : List String) (req : List (List String)) (d : String) :
    combineDataset DP req [d] = (req, Except.ok ()) := rfl

theorem combineDataset_ok_iff (DP : List String) (req : List (List String))
    (ds : List String) (h : ds.length ≠ 1) :
    (combineDataset DP req ds).2 = Except.ok () ↔ ∀ d ∈ ds, WellFormedDataset DP d := by
  simp only [combineDataset, if_neg h, forM_ok_iff]
  exact forall_congr' fun d => imp_congr_right fun _ => validateDataset_ok_iff DP d

/-- C12 (as stated, refuted): a list that holds the single malformed string `garbage` (no `_`
at all) is accepted: `combineDataset` returns without throwing. -/
theorem combineDataset_single_malformed_accepted :
    (combineDataset sampleDatasetPaths [] ["garbage"]).2 = Except.ok ()
    ∧ '_' ∉ "garbage".data
    ∧ validateDataset sampleDatasetPaths "garbage" = Except.error wrongFormatMessage := by
  decide

/-- C12 (amended): a list of dataset strings whose size is not 1 is accepted by
`combineDataset` exactly when every string is well formed, and the call throws when some string
is malformed (fewer than two `_`, a name outside the allowed set, or a selector that is empty
or has a non-digit); a list of exactly one string is accepted without being checked and is
not recorded. -/
theorem combineDataset_validation (DP : List String) (req : List (List String))
    (ds : List String) :
    (ds.length ≠ 1 →
      ((combineDataset DP req ds).2 = Except.ok () ↔ ∀ d ∈ ds, WellFormedDataset DP d)
      ∧ ((∃ d ∈ ds, ¬ WellFormedDataset DP d) →
          ∃ msg, (combineDataset DP req ds).2 = Except.error msg))
    ∧ (ds.length = 1 → combineDataset DP req ds = (req, Except.ok ())) := by
  refine ⟨fun h => ⟨combineDataset_ok_iff DP req ds h, ?_⟩, fun h => ?_⟩
  · rintro ⟨d, hd, hw⟩
    cases hr : (combineDataset DP req ds).2 with
    | error msg => exact ⟨msg, rfl⟩
    | ok v =>
      cases v
      exact absurd ((combineDataset_ok_iff DP req ds h).mp hr d hd) hw
  · simp [combineDataset, h]

/-- Witness of C12: two well-formed strings. -/
theorem combineDataset_validation_witness :
    ["Elevation_1_1", "GSFeature_2_1"].length ≠ 1
    ∧ ((combineDataset sampleDatasetPaths [] ["Elevation_1_1", "GSFeature_2_1"]).2 = Except.ok ()
        ↔ ∀ d ∈ ["Elevation_1_1", "GSFeature_2_1"], WellFormedDataset sampleDatasetPaths d) :=
  ⟨by decide,
    ((combineDataset_validation sampleDatasetPaths [] ["Elevation_1_1", "GSFeature_2_1"]).1
      (by decide)).1⟩

/-- C13 (as stated, refuted): the list `Elevation_0_0`, `Elevation_1_1` is accepted although
both selectors of its first string are `0`, which denotes the integer 0. -/
theorem combineDataset_zero_selector_accepted :
    (combineDataset sampleDatasetPaths [] ["Elevation_0_0", "Elevation_1_1"]).2 = Except.ok ()
    ∧ "Elevation_0_0".data = "Elevation".data ++ '_' :: ("0".data ++ '_' :: "0".data)
    ∧ decimalValue "0".data = 0 := by
  decide

/-- C13 (amended): in a list that `combineDataset` checks (size other than 1) and accepts,
every string is `name_cs1_cs2` with `name` free of `_` and both selectors `cs1`, `cs2` non-empty
strings of decimal digits; the denoted integer may be 0: for an allowed name without `_`,
selectors made of any positive number of `0` digits pass the check. -/
theorem combineDataset_selectors (DP : List String) (req : List (List String))
    (ds : List String) :
    (ds.length ≠ 1 → (combineDataset DP req ds).2 = Except.ok () →
      ∀ d ∈ ds, ∃ name cs1 cs2 : List Char, d.data = name ++ '_' :: (cs1 ++ '_' :: cs2)
        ∧ '_' ∉ name
        ∧ cs1 ≠ [] ∧ (∀ c ∈ cs1, c.isDigit = true)
        ∧ cs2 ≠ [] ∧ (∀ c ∈ cs2, c.isDigit = true))
    ∧ (∀ (name : String) (k1 k2 : Nat), name ∈ DP → '_' ∉ name.data →
        validateDataset DP (String.mk (name.data ++ '_'
          :: (List.replicate (k1 + 1) '0' ++ '_' :: List.replicate (k2 + 1) '0')))
          = Except.ok ()
        ∧ decimalValue (List.replicate (k1 + 1) '0') = 0
        ∧ decimalValue (List.replicate (k2 + 1) '0') = 0) := by
  have hz : ∀ k : Nat, decimalValue (List.replicate k '0') = 0 := by
    intro k
    induction k with
    | zero => rfl
    | succ k ih =>
      rw [List.replicate_succ]
      simpa [decimalValue] using ih
  refine ⟨fun h hok d hd => ?_, fun name k1 k2 hn hu => ⟨?_, hz _, hz _⟩⟩
  · obtain ⟨name, cs1, cs2, e, h1, -, h3, h4, h5, h6⟩ :=
      (combineDataset_ok_iff DP req ds h).mp hok d hd
    exact ⟨name, cs1, cs2, e, h1, h3, h4, h5, h6⟩
  · have hdig : ∀ k : Nat, ∀ c ∈ List.replicate (k + 1) '0', c.isDigit = true := by
      intro k c hc
      rw [List.eq_of_mem_replicate hc]
      decide
    exact (validateDataset_ok_iff DP _).mpr
      ⟨name.data, _, _, rfl, hu, hn, by simp, hdig k1, by simp, hdig k2⟩

/-- Witness of C13: the accepted list with zero selectors. -/
theorem combineDataset_selectors_witness :
    ["Elevation_0_0", "Elevation_1_1"].length ≠ 1
    ∧ (combineDataset sampleDatasetPaths [] ["Elevation_0_0", "Elevation_1_1"]).2 = Except.ok ()
    ∧ ∀ d ∈ ["Elevation_0_0", "Elevation_1_1"], ∃ name cs1 cs2 : List Char,
        d.data = name ++ '_' :: (cs1 ++ '_' :: cs2)
        ∧ '_' ∉ name
        ∧ cs1 ≠ [] ∧ (∀ c ∈ cs1, c.isDigit = true)
        ∧ cs2 ≠ [] ∧ (∀ c ∈ cs2, c.isDigit = true) :=
  ⟨by decide, by decide,
    (combineDataset_selectors sampleDatasetPaths [] ["Elevation_0_0", "Elevation_1_1"]).1
      (by decide) (by decide)⟩

/-! ## Content of the nodes of a tileset JSON -/

theorem Json.child_eq_childList {α : Type} (j : Json α) (i : Nat) :
    j.child i = (j.childList)[i]? := by
  simp only [Json.child, Json.childList]
  cases (j.get "children").bind Json.items <;> simp

theorem Json.childList_of_get {α : Type} (j : Json α) (h : j.get "children" = none) :
    j.childList = [] := by
  simp [Json.childList, h]

theorem Json.childList_congr {α : Type} (j j' : Json α)
    (h : j.get "children" = j'.get "children") : j.childList = j'.childList := by
  simp [Json.childList, h]

theorem Json.childList_set_children {α : Type} (j x : Json α) :
    (j.set "children" ((j.index "children").pushBack x)).childList = j.childList ++ [x] := by
  simp only [Json.childList, Json.get_set_self, Option.some_bind, Json.index]
  cases hg : j.get "children" with
  | none => simp [Json.pushBack, Json.items]
  | some w => cases w <;> simp [Json.pushBack, Json.items]

theorem tileContentJson_content {α : Type} (contentURI : Option String)
    (contentRegion : Option (BoundingRegion α)) (json : Json α)
    (h : json.get "content" = none) :
    ((tileContentJson contentURI contentRegion json).get "content").isSome = contentURI.isSome
    ∧ (tileContentJson contentURI contentRegion json).get2 "content" "uri"
        = contentURI.map Json.str
    ∧ (tileContentJson contentURI contentRegion json).get2 "content" "boundingVolume"
        = contentURI.bind (fun _ => contentRegion.map regionJson) := by
  cases contentURI with
  | none => simp [tileContentJson, Json.get2, h]
  | some uri =>
    cases contentRegion with
    | none =>
      simp only [tileContentJson]
      refine ⟨?_, Json.get_set2_self _ _ _ _, ?_⟩
      · simp [Json.set2, Json.get_set_self]
      · rw [Json.get2_set2_ne _ _ _ _ _ (by decide)]
        simp only [Json.get2, Json.get_set_self, Option.some_bind]
        rfl
    | some region =>
      simp only [tileContentJson]
      refine ⟨?_, ?_, Json.get_set2_self _ _ _ _⟩
      · simp [Json.set2, Json.get_set_self]
      · rw [Json.get2_set2_ne _ _ _ _ _ (by decide)]
        exact Json.get_set2_self _ _ _ _

theorem convertTilesetToJson_mirrors {α : Type} [LinearOrderedField α] (tile : CDBTile α)
    (e : α) (json : Json α) (hc : json.get "children" = none) (hk : json.get "content" = none) :
    (convertTilesetToJson tile e json).mirrors tile := by
  refine convertTilesetToJson.induct
    (fun tile e json => json.get "children" = none → json.get "content" = none →
      (convertTilesetToJson tile e json).mirrors tile)
    (fun children e json => ∃ L : List (Json α),
      (convertChildren children e json).childList = json.childList ++ L
      ∧ (∀ k : String, k ≠ "children" → (convertChildren children e json).get k = json.get k)
      ∧ mirrorsChildren L children)
    ?_ ?_ ?_ ?_ tile e json hc hk
  · intro tileRegion contentURI contentRegion children e json json1 json2 json3 ih hc hk
    obtain ⟨L, hL, hget, hm⟩ := ih
    rw [convertTilesetToJson]
    have h2c : json2.get "children" = none := by
      simp only [json2, json1]
      rw [Json.get_set_ne _ _ _ _ (by decide), Json.get_set_ne _ _ _ _ (by decide), hc]
    have h2k : json2.get "content" = none := by
      simp only [json2, json1]
      rw [Json.get_set_ne _ _ _ _ (by decide), Json.get_set_ne _ _ _ _ (by decide), hk]
    have h3c : json3.get "children" = none := by
      rw [show json3 = tileContentJson contentURI contentRegion json2 from rfl,
        tileContentJson_get _ _ _ _ (by decide)]
      exact h2c
    have h3 := tileContentJson_content contentURI contentRegion json2 h2k
    rw [Json.childList_of_get _ h3c, List.nil_append] at hL
    have hcontent := hget "content" (by decide)
    intro path
    cases path with
    | nil =>
      refine ⟨fun h => ?_, fun t ht => ?_⟩
      · simp [CDBTile.descend] at h
      · simp only [CDBTile.descend, Option.some.injEq] at ht
        subst ht
        refine ⟨_, rfl, ?_⟩
        simp only [Json.contentOf, Json.get2, hcontent, CDBTile.getCustomContentURI,
          CDBTile.getContentRegion]
        exact h3
    | cons i path =>
      have hd : (convertChildren children e json3).descend (i :: path)
          = (L[i]?).bind (fun c => c.descend path) := by
        rw [Json.descend, Json.child_eq_childList, hL]
      rw [hd]
      simp only [CDBTile.descend]
      exact hm i path
  · intro e json
    refine ⟨[], by rw [convertChildren, List.append_nil], fun k _ => by rw [convertChildren], ?_⟩
    intro i path
    simp [descendChildren]
  · intro rest e json ih
    obtain ⟨L, hL, hget, hm⟩ := ih
    refine ⟨L, by rw [convertChildren]; exact hL, fun k hk => by rw [convertChildren]; exact hget k hk,
      ?_⟩
    intro i path
    rw [descendChildren]
    exact hm i path
  · intro child rest e json childJson ihc ihr
    obtain ⟨L, hL, hget, hm⟩ := ihr
    refine ⟨childJson :: L, ?_, ?_, ?_⟩
    · rw [convertChildren, hL, Json.childList_set_children, List.append_assoc]
      rfl
    · intro k hk
      rw [convertChildren, hget k hk, Json.get_set_ne _ _ _ _ hk]
    · intro i path
      cases i with
      | zero =>
        rw [descendChildren]
        simpa using ihc rfl rfl path
      | succ i =>
        rw [descendChildren]
        simpa using hm i path

/-- The root node of the document of `writeToTilesetJson` is the conversion of the root tile
from a node without `children` and without `content`. -/
theorem tilesetDocument_root_node {α : Type} [LinearOrderedField α] (root : CDBTile α)
    (replace : Bool) :
    ∃ (doc base : Json α), tilesetDocument ⟨some root⟩ replace = some doc
      ∧ base.get "children" = none ∧ base.get "content" = none
      ∧ doc.index "root" = convertTilesetToJson root MAX_GEOMETRIC_ERROR base := by
  have aux : ∀ t : Json α,
      ((t.set "root" (convertTilesetToJson root MAX_GEOMETRIC_ERROR (t.index "root"))).set
          "geometricError" (((t.set "root" (convertTilesetToJson root MAX_GEOMETRIC_ERROR
            (t.index "root"))).index "root").index "geometricError")).index "root"
        = convertTilesetToJson root MAX_GEOMETRIC_ERROR (t.index "root") := by
    intro t
    simp only [Json.index]
    rw [Json.get_set_ne _ _ _ _ (by decide), Json.get_set_self]
    rfl
  cases replace with
  | false =>
    exact ⟨_, (((Json.null.set "asset" (Json.obj [("version", Json.str "1.0")])).set "root"
        (Json.obj [])).set2 "root" "refine" (Json.str "ADD")).index "root", rfl,
      by simp [Json.index, Json.set2, Json.set, Json.get, insertKey, List.lookup],
      by simp [Json.index, Json.set2, Json.set, Json.get, insertKey, List.lookup], aux _⟩
  | true =>
    exact ⟨_, (((Json.null.set "asset" (Json.obj [("version", Json.str "1.0")])).set "root"
        (Json.obj [])).set2 "root" "refine" (Json.str "REPLACE")).index "root", rfl,
      by simp [Json.index, Json.set2, Json.set, Json.get, insertKey, List.lookup],
      by simp [Json.index, Json.set2, Json.set, Json.get, insertKey, List.lookup], aux _⟩

/-- C19 (as stated, refuted): for a tile whose content region is its own bounding region, hence
not strictly tighter, the emitted root node still has `content.boundingVolume`, equal to the
`boundingVolume` of the node. -/
theorem writeToTilesetJson_content_volume_not_tighter :
    equalRegionTile.getContentRegion = some equalRegionTile.getBoundRegion
    ∧ (tilesetDocument ⟨some equalRegionTile⟩ true).bind
        (fun doc => (doc.index "root").get2 "content" "boundingVolume")
        = some (regionJson equalRegionTile.getBoundRegion)
    ∧ (tilesetDocument ⟨some equalRegionTile⟩ true).bind
        (fun doc => (doc.index "root").get "boundingVolume")
        = some (regionJson equalRegionTile.getBoundRegion) := by
  refine ⟨rfl, ?_, ?_⟩ <;>
  simp [tilesetDocument, equalRegionTile, convertTilesetToJson, convertChildren,
    tileContentJson, Json.index, Json.set, Json.set2, Json.get, Json.get2, insertKey,
    List.lookup, MAX_GEOMETRIC_ERROR, regionJson, CDBTile.getBoundRegion]

/-- C19 (amended): in the document emitted by `writeToTilesetJson` for a tileset with a root,
the nodes below `root` are exactly the tiles of the tree (null children skipped, order kept),
and for the node of each tile: `content` is present if and only if the tile has a content URI,
`content.uri` is that URI, and `content.boundingVolume` is present if and only if the tile has
both a content URI and a content region, whose six numbers it holds, whether or not that region
is tighter than the tile's own. -/
theorem writeToTilesetJson_content {α : Type} [LinearOrderedField α]
    (dump : Json α → List Nat) (root : CDBTile α) (replace : Bool) :
    ∃ doc : Json α, tilesetDocument ⟨some root⟩ replace = some doc
      ∧ (writeToTilesetJson dump ⟨some root⟩ replace OFStream.empty).data = dump doc ++ [10]
      ∧ ∀ path : List Nat,
          (root.descend path = none → (doc.index "root").descend path = none)
          ∧ ∀ tile : CDBTile α, root.descend path = some tile →
              ∃ node : Json α, (doc.index "root").descend path = some node
                ∧ ((node.get "content").isSome = tile.getCustomContentURI.isSome)
                ∧ node.get2 "content" "uri" = tile.getCustomContentURI.map Json.str
                ∧ node.get2 "content" "boundingVolume"
                    = tile.getCustomContentURI.bind
                        (fun _ => tile.getContentRegion.map regionJson) := by
  obtain ⟨doc, base, hdoc, hc, hk, hroot⟩ := tilesetDocument_root_node root replace
  refine ⟨doc, hdoc, ?_, ?_⟩
  · simp only [writeToTilesetJson, hdoc, OFStream.write_empty]
  · rw [hroot]
    exact convertTilesetToJson_mirrors root MAX_GEOMETRIC_ERROR base hc hk

/-- Witness of C19: in the sample tileset the tile two levels below the root has a URI and a
content region, and its node has `content.uri` and `content.boundingVolume`. -/
theorem writeToTilesetJson_content_witness :
    sampleTile.descend [0, 0]
      = some (CDBTile.mk ⟨⟨0, 0, 1, 1⟩, 0, 20⟩ (some "1_0_0.b3dm") (some ⟨⟨0, 0, 1, 1⟩, 5, 10⟩) [])
    ∧ ∃ doc node : Json ℚ, tilesetDocument ⟨some sampleTile⟩ true = some doc
        ∧ (doc.index "root").descend [0, 0] = some node
        ∧ node.get2 "content" "uri" = some (Json.str "1_0_0.b3dm")
        ∧ node.get2 "content" "boundingVolume" = some (regionJson ⟨⟨0, 0, 1, 1⟩, 5, 10⟩) := by
  have ht : sampleTile.descend [0, 0]
      = some (CDBTile.mk ⟨⟨0, 0, 1, 1⟩, 0, 20⟩ (some "1_0_0.b3dm")
          (some ⟨⟨0, 0, 1, 1⟩, 5, 10⟩) []) := by
    simp [sampleTile, CDBTile.descend, descendChildren]
  obtain ⟨doc, hdoc, -, h⟩ := writeToTilesetJson_content (sampleDump : Json ℚ → List Nat)
    sampleTile true
  obtain ⟨node, hnode, -, huri, hvol⟩ := (h [0, 0]).2 _ ht
  exact ⟨ht, doc, node, hdoc, hnode, huri, hvol⟩

/-! ## Combination of the converted tilesets -/

theorem foldl_gather {β γ δ : Type} (f : β → List γ) (g : β → List δ) :
    ∀ (xs : List β) (acc : List γ × List δ),
      xs.foldl (fun (acc : List γ × List δ) x => (acc.1 ++ f x, acc.2 ++ g x)) acc
        = (acc.1 ++ (xs.map f).flatten, acc.2 ++ (xs.map g).flatten)
  | [], acc => by simp
  | x :: xs, acc => by
      rw [List.foldl_cons, foldl_gather f g xs]
      simp [List.append_assoc]

theorem implicitCombine_eq {α : Type} (st : CombineState α) :
    implicitCombine st
      = [{ fileName := "tileset.json"
           tilesetJsonPaths := (st.combinedTilesets.map (fun tileset => tileset.2)).flatten
           regions := (st.combinedTilesets.map (fun tileset =>
              (st.combinedTilesetsRegions.lookup tileset.1).getD [])).flatten }] := by
  simp only [implicitCombine]
  rw [foldl_gather (fun tileset : String × List String => tileset.2)
    (fun tileset : String × List String =>
      (st.combinedTilesetsRegions.lookup tileset.1).getD [])]
  simp

theorem writeAt_inside (mem src : List Nat) (off : Nat) (h : off + src.length ≤ mem.length) :
    writeAt mem off src = mem.take off ++ src ++ mem.drop (off + src.length) := by
  have h0 : off - mem.length = 0 := by omega
  simp [writeAt, h0]

theorem slice_append_mid (a b c : List Nat) (off n : Nat) (ha : a.length = off)
    (hb : b.length = n) : ((a ++ b ++ c).drop off).take n = b := by
  subst ha hb
  rw [List.append_assoc, List.drop_left, List.take_left]

/-- Reading back the bytes a store has written. -/
theorem writeAt_slice_self (mem src : List Nat) (off : Nat)
    (h : off + src.length ≤ mem.length) :
    ((writeAt mem off src).drop off).take src.length = src := by
  rw [writeAt_inside mem src off h]
  exact slice_append_mid _ _ _ _ _ (by rw [List.length_take]; omega) rfl

/-- A store keeps the bytes of a range it does not touch. -/
theorem writeAt_slice_disjoint (mem src : List Nat) (off a n : Nat)
    (h : off + src.length ≤ mem.length) (hd : a + n ≤ off ∨ off + src.length ≤ a) :
    ((writeAt mem off src).drop a).take n = (mem.drop a).take n := by
  rw [writeAt_inside mem src off h]
  apply List.ext_getElem?
  intro j
  simp only [List.getElem?_take, List.getElem?_drop]
  split
  · rename_i hj
    rcases hd with hd | hd
    · rw [List.append_assoc, List.getElem?_append_left (by rw [List.length_take]; omega),
        List.getElem?_take, if_pos (by omega)]
    · rw [List.getElem?_append_right (by
          rw [List.length_append, List.length_take]; omega),
        List.getElem?_drop, List.length_append, List.length_take]
      congr 1
      omega
  · rfl

theorem length_vec3Bytes {α : Type} (env : I3dmEnv α) (v : Vec3 α) :
    (env.vec3Bytes v).length = 12 := by
  simp [I3dmEnv.vec3Bytes, env.f32_length]

theorem i3dmInstance_records {α : Type} [Sub α] (env : I3dmEnv α) (center : Vec3 α)
    (positions : List (Cartographic α)) (scales : List (Vec3 α)) (orientations : List α)
    (N n : Nat) (mem : List Nat) (hn : n < N) (hp : n < positions.length)
    (hs : n < scales.length) (ho : n < orientations.length) (hm : mem.length = N * 48) :
    ∃ mem', i3dmInstance env center positions scales orientations 0 (N * 12)
        (N * 12 + N * 12) (N * 12 + N * 12 + N * 12) n mem = some mem'
      ∧ mem'.length = N * 48
      ∧ i3dmRecordsAt env center positions scales orientations N mem' n
      ∧ ∀ i, i < n → i3dmRecordsAt env center positions scales orientations N mem i →
          i3dmRecordsAt env center positions scales orientations N mem' i := by
  simp only [i3dmInstance, List.getElem?_eq_getElem hp, List.getElem?_eq_getElem hs,
    List.getElem?_eq_getElem ho, Option.pure_def, Option.bind_eq_bind, Option.some_bind]
  generalize hr1 : env.vec3Bytes ((env.cartographicToCartesian positions[n]).sub center) = r1
  generalize hr2 : env.vec3Bytes scales[n] = r2
  generalize hr3 : env.vec3Bytes
    (env.normalUp (env.cartographicToCartesian positions[n]) orientations[n]) = r3
  generalize hr4 : env.vec3Bytes
    (env.normalRight (env.cartographicToCartesian positions[n]) orientations[n]) = r4
  have l1 : r1.length = 12 := by rw [← hr1, length_vec3Bytes]
  have l2 : r2.length = 12 := by rw [← hr2, length_vec3Bytes]
  have l3 : r3.length = 12 := by rw [← hr3, length_vec3Bytes]
  have l4 : r4.length = 12 := by rw [← hr4, length_vec3Bytes]
  have e1 : (writeAt mem (0 + n * 12) r1).length = N * 48 := by
    rw [length_writeAt]; omega
  have e2 : (writeAt (writeAt mem (0 + n * 12) r1) (N * 12 + n * 12) r2).length = N * 48 := by
    rw [length_writeAt]; omega
  have e3 : (writeAt (writeAt (writeAt mem (0 + n * 12) r1) (N * 12 + n * 12) r2)
      (N * 12 + N * 12 + n * 12) r3).length = N * 48 := by
    rw [length_writeAt]; omega
  have e4 : (writeAt (writeAt (writeAt (writeAt mem (0 + n * 12) r1) (N * 12 + n * 12) r2)
      (N * 12 + N * 12 + n * 12) r3) (N * 12 + N * 12 + N * 12 + n * 12) r4).length
      = N * 48 := by
    rw [length_writeAt]; omega
  have keep : ∀ a : Nat, (a + 12 ≤ 0 + n * 12 ∨ 0 + n * 12 + 12 ≤ a) →
      (a + 12 ≤ N * 12 + n * 12 ∨ N * 12 + n * 12 + 12 ≤ a) →
      (a + 12 ≤ N * 12 + N * 12 + n * 12 ∨ N * 12 + N * 12 + n * 12 + 12 ≤ a) →
      (a + 12 ≤ N * 12 + N * 12 + N * 12 + n * 12
        ∨ N * 12 + N * 12 + N * 12 + n * 12 + 12 ≤ a) →
      ((writeAt (writeAt (writeAt (writeAt mem (0 + n * 12) r1) (N * 12 + n * 12) r2)
        (N * 12 + N * 12 + n * 12) r3) (N * 12 + N * 12 + N * 12 + n * 12) r4).drop a).take 12
        = (mem.drop a).take 12 := by
    intro a d1 d2 d3 d4
    rw [writeAt_slice_disjoint _ _ _ _ _ (by omega) (by omega),
      writeAt_slice_disjoint _ _ _ _ _ (by omega) (by omega),
      writeAt_slice_disjoint _ _ _ _ _ (by omega) (by omega),
      writeAt_slice_disjoint _ _ _ _ _ (by omega) (by omega)]
  refine ⟨_, rfl, e4, ?_, ?_⟩
  · intro p s o hp' hs' ho'
    rw [List.getElem?_eq_getElem hp, Option.some.injEq] at hp'
    rw [List.getElem?_eq_getElem hs, Option.some.injEq] at hs'
    rw [List.getElem?_eq_getElem ho, Option.some.injEq] at ho'
    subst hp' hs' ho'
    rw [hr1, hr2, hr3, hr4]
    refine ⟨?_, ?_, ?_, ?_⟩
    · rw [writeAt_slice_disjoint _ _ _ _ _ (by omega) (by omega),
        writeAt_slice_disjoint _ _ _ _ _ (by omega) (by omega),
        writeAt_slice_disjoint _ _ _ _ _ (by omega) (by omega)]
      have := writeAt_slice_self mem r1 (0 + n * 12) (by omega)
      rwa [l1] at this
    · rw [writeAt_slice_disjoint _ _ _ _ _ (by omega) (by omega),
        writeAt_slice_disjoint _ _ _ _ _ (by omega) (by omega)]
      have := writeAt_slice_self (writeAt mem (0 + n * 12) r1) r2 (N * 12 + n * 12) (by omega)
      rwa [l2] at this
    · rw [writeAt_slice_disjoint _ _ _ _ _ (by omega) (by omega)]
      have := writeAt_slice_self (writeAt (writeAt mem (0 + n * 12) r1) (N * 12 + n * 12) r2) r3
        (N * 12 + N * 12 + n * 12) (by omega)
      rwa [l3] at this
    · have := writeAt_slice_self (writeAt (writeAt (writeAt mem (0 + n * 12) r1)
        (N * 12 + n * 12) r2) (N * 12 + N * 12 + n * 12) r3) r4
        (N * 12 + N * 12 + N * 12 + n * 12) (by omega)
      rwa [l4] at this
  · intro i hi hrec p s o hp' hs' ho'
    obtain ⟨h1, h2, h3, h4⟩ := hrec p s o hp' hs' ho'
    refine ⟨?_, ?_, ?_, ?_⟩
    · rw [keep _ (by omega) (by omega) (by omega) (by omega)]; exact h1
    · rw [keep _ (by omega) (by omega) (by omega) (by omega)]; exact h2
    · rw [keep _ (by omega) (by omega) (by omega) (by omega)]; exact h3
    · rw [keep _ (by omega) (by omega) (by omega) (by omega)]; exact h4

theorem roundUp_i3dm (N : Nat) : roundUp (N * 12 + N * 12 + N * 12 + N * 12) 8 = N * 48 := by
  unfold roundUp
  omega

/-- The feature table buffer of `N` instances: `48 N` bytes holding the records of every
instance. -/
theorem i3dmFeatureTableBuffer_records {α : Type} [Sub α] (env : I3dmEnv α) (N : Nat)
    (center : Vec3 α) (positions : List (Cartographic α)) (scales : List (Vec3 α))
    (orientations : List α) (hp : N ≤ positions.length) (hs : N ≤ scales.length)
    (ho : N ≤ orientations.length) :
    ∃ fb, i3dmFeatureTableBuffer env N center positions scales orientations = some fb
      ∧ fb.length = N * 48
      ∧ ∀ i, i < N → i3dmRecordsAt env center positions scales orientations N fb i := by
  have loop : ∀ n, n ≤ N → ∃ mem,
      forLoop 0 n (i3dmInstance env center positions scales orientations 0 (N * 12)
        (N * 12 + N * 12) (N * 12 + N * 12 + N * 12)) (List.replicate (N * 48) 0) = some mem
      ∧ mem.length = N * 48
      ∧ ∀ i, i < n → i3dmRecordsAt env center positions scales orientations N mem i := by
    intro n
    induction n with
    | zero =>
      intro _
      exact ⟨_, rfl, by simp, fun i hi => absurd hi (Nat.not_lt_zero i)⟩
    | succ n ih =>
      intro hn
      obtain ⟨mem, hmem, hlen, hrec⟩ := ih (by omega)
      obtain ⟨mem', hmem', hlen', hnew, hold⟩ := i3dmInstance_records env center positions
        scales orientations N n mem (by omega) (by omega) (by omega) (by omega) hlen
      refine ⟨mem', ?_, hlen', ?_⟩
      · rw [forLoop_succ, hmem, Option.some_bind, hmem']
      · intro i hi
        by_cases hin : i = n
        · subst hin; exact hnew
        · exact hold i (by omega) (hrec i (by omega))
  obtain ⟨mem, hmem, hlen, hrec⟩ := loop N (le_refl N)
  refine ⟨mem, ?_, hlen, hrec⟩
  simp only [i3dmFeatureTableBuffer, roundUp_i3dm, hmem, Option.map_some']
  rw [List.take_of_length_le (by omega)]

theorem i3dmBoundsOf_step {α : Type} [LinearOrder α] (env : I3dmEnv α)
    (positions : List (Cartographic α)) (k : Nat) (mm : Vec3 α × Vec3 α) (q : Cartographic α)
    (hq : positions[k]? = some q) (h : i3dmBoundsOf env positions k mm) :
    i3dmBoundsOf env positions (k + 1)
      (Vec3.min (env.cartographicToCartesian q) mm.1,
        Vec3.max (env.cartographicToCartesian q) mm.2) := by
  obtain ⟨hb, a1, a2, a3, a4, a5, a6⟩ := h
  have pick : ∀ (g : Vec3 α → α) (m : α),
      (∃ (i : Nat) (p : Cartographic α), i < k ∧ positions[i]? = some p
        ∧ m = g (env.cartographicToCartesian p)) →
      (∃ (i : Nat) (p : Cartographic α), i < k + 1 ∧ positions[i]? = some p
        ∧ min (g (env.cartographicToCartesian q)) m = g (env.cartographicToCartesian p))
      ∧ (∃ (i : Nat) (p : Cartographic α), i < k + 1 ∧ positions[i]? = some p
        ∧ max (g (env.cartographicToCartesian q)) m = g (env.cartographicToCartesian p)) := by
    intro g m hm
    obtain ⟨i, p, hi, hp, e⟩ := hm
    constructor
    · rcases min_choice (g (env.cartographicToCartesian q)) m with h | h
      · exact ⟨k, q, by omega, hq, h⟩
      · exact ⟨i, p, by omega, hp, h.trans e⟩
    · rcases max_choice (g (env.cartographicToCartesian q)) m with h | h
      · exact ⟨k, q, by omega, hq, h⟩
      · exact ⟨i, p, by omega, hp, h.trans e⟩
  refine ⟨?_, (pick (fun v => v.x) _ a1).1, (pick (fun v => v.y) _ a2).1,
    (pick (fun v => v.z) _ a3).1, (pick (fun v => v.x) _ a4).2, (pick (fun v => v.y) _ a5).2,
    (pick (fun v => v.z) _ a6).2⟩
  intro i p hi hp
  simp only [Vec3.min, Vec3.max]
  by_cases hik : i = k
  · subst hik
    rw [hq, Option.some.injEq] at hp
    subst hp
    exact ⟨min_le_left _ _, le_max_left _ _, min_le_left _ _, le_max_left _ _,
      min_le_left _ _, le_max_left _ _⟩
  · obtain ⟨b1, b2, b3, b4, b5, b6⟩ := hb i p (by omega) hp
    exact ⟨le_trans (min_le_right _ _) b1, le_trans b2 (le_max_right _ _),
      le_trans (min_le_right _ _) b3, le_trans b4 (le_max_right _ _),
      le_trans (min_le_right _ _) b5, le_trans b6 (le_max_right _ _)⟩

/-- The bounds computed at lines 129-136 are the componentwise minimum and maximum of the
world positions of the `N` instances. -/
theorem i3dmBounds_spec {α : Type} [LinearOrder α] (env : I3dmEnv α) (N : Nat)
    (positions : List (Cartographic α)) (h1 : 1 ≤ N) (hN : N ≤ positions.length) :
    ∃ b, i3dmBounds env N positions = some b ∧ i3dmBoundsOf env positions N b := by
  cases positions with
  | nil => simp at hN; omega
  | cons p0 ps =>
    have loop : ∀ n, 1 + n ≤ (p0 :: ps).length → ∃ b,
        (List.range' 1 n).foldlM (fun (mm : Vec3 α × Vec3 α) i => do
            let position ← (p0 :: ps)[i]?
            let worldPosition := env.cartographicToCartesian position
            pure (Vec3.min worldPosition mm.1, Vec3.max worldPosition mm.2))
          (env.cartographicToCartesian p0, env.cartographicToCartesian p0) = some b
        ∧ i3dmBoundsOf env (p0 :: ps) (1 + n) b := by
      intro n
      induction n with
      | zero =>
        intro _
        have h0 : (p0 :: ps)[0]? = some p0 := List.getElem?_cons_zero
        refine ⟨_, rfl, ?_, ⟨0, p0, by omega, h0, rfl⟩, ⟨0, p0, by omega, h0, rfl⟩,
          ⟨0, p0, by omega, h0, rfl⟩, ⟨0, p0, by omega, h0, rfl⟩, ⟨0, p0, by omega, h0, rfl⟩,
          ⟨0, p0, by omega, h0, rfl⟩⟩
        intro i p hi hp
        have hi0 : i = 0 := by omega
        subst hi0
        simp only [List.getElem?_cons_zero, Option.some.injEq] at hp
        subst hp
        exact ⟨le_refl _, le_refl _, le_refl _, le_refl _, le_refl _, le_refl _⟩
      | succ n ih =>
        intro hle
        obtain ⟨b, hb, hinv⟩ := ih (by omega)
        have hlt : 1 + n < (p0 :: ps).length := by omega
        refine ⟨_, ?_, i3dmBoundsOf_step env (p0 :: ps) (1 + n) b _
          (List.getElem?_eq_getElem hlt) hinv⟩
        rw [List.range'_concat, List.foldlM_append, hb]
        simp only [Nat.one_mul, List.foldlM_cons, List.foldlM_nil, Option.some_bind,
          Option.bind_eq_bind, List.getElem?_eq_getElem hlt, Option.pure_def]
    obtain ⟨b, hb, hinv⟩ := loop (N - 1) (by omega)
    have hN1 : 1 + (N - 1) = N := by omega
    rw [hN1] at hinv
    refine ⟨b, ?_, hinv⟩
    simp only [i3dmBounds, forLoop, List.head?_cons, Option.pure_def, Option.bind_eq_bind,
      Option.some_bind]
    exact hb

theorem slice_in_section (pre sec rest : List Nat) (n o k : Nat) (hpre : pre.length = n)
    (hk : o + k ≤ sec.length) :
    ((pre ++ (sec ++ rest)).drop (n + o)).take k = (sec.drop o).take k := by
  subst hpre
  rw [← List.drop_drop, List.drop_left, List.drop_append_of_le_length (by omega),
    List.take_append_of_le_length (by rw [List.length_drop]; omega)]

/-- The file of `writeToI3DM` on a fresh stream, in terms of the bounds and of the feature
table buffer: the 32-byte header, the padded feature table JSON, the feature table buffer and
the rest. -/
theorem writeToI3DM_parts {α : Type} [LinearOrderedField α] (env : I3dmEnv α)
    (dump : Json α → List Nat) (uri : List Nat) (attribs : CDBInstancesAttributes)
    (positions : List (Cartographic α)) (scales : List (Vec3 α)) (orientations : List α)
    (b : Vec3 α × Vec3 α) (fb : List Nat)
    (hb : i3dmBounds env attribs.instancesCount positions = some b)
    (hfb : i3dmFeatureTableBuffer env attribs.instancesCount ((b.1.add b.2).half) positions
      scales orientations = some fb) :
    ∃ (hdr : I3dmHeader) (rest : List Nat), hdr.bytes.length = 32
      ∧ (∀ tail : List Nat, u32At (hdr.bytes ++ tail) 16 = fb.length % 4294967296)
      ∧ (writeToI3DM env dump uri attribs positions scales orientations OFStream.empty).map
          (fun r => r.1.data)
        = some (hdr.bytes ++ (padSpaces 32 (dump (i3dmFeatureTableJson attribs.instancesCount
              ((b.1.add b.2).half) 0 (attribs.instancesCount * 12)
              (attribs.instancesCount * 12 + attribs.instancesCount * 12)
              (attribs.instancesCount * 12 + attribs.instancesCount * 12
                + attribs.instancesCount * 12)))
            ++ (fb ++ rest))) := by
  refine ⟨i3dmHeader (padSpaces 32 (dump (i3dmFeatureTableJson attribs.instancesCount
      ((b.1.add b.2).half) 0 (attribs.instancesCount * 12)
      (attribs.instancesCount * 12 + attribs.instancesCount * 12)
      (attribs.instancesCount * 12 + attribs.instancesCount * 12
        + attribs.instancesCount * 12))))
      fb (padSpaces 0 (createBatchTable dump (some attribs)).1)
      (createBatchTable dump (some attribs)).2 (padSpaces 0 uri),
    padSpaces 0 (createBatchTable dump (some attribs)).1
      ++ (createBatchTable dump (some attribs)).2 ++ padSpaces 0 uri,
    i3dmHeader_length_bytes _ (by simp [i3dmHeader, ascii_i3dm]), ?_, ?_⟩
  · intro tail
    rw [(i3dmHeader_fields _ (by simp [i3dmHeader, ascii_i3dm]) tail).2.2.2.2.1]
    simp only [i3dmHeader, toU32, Nat.mod_mod]
  simp only [writeToI3DM, hb, hfb, Option.pure_def, Option.bind_eq_bind, Option.some_bind,
    OFStream.write_empty, OFStream.write_end, Nat.zero_add, Option.map_some',
    List.append_assoc]

theorem sq_mid_le {α : Type} [LinearOrderedField α] (mn w mx : α) (h1 : mn ≤ w)
    (h2 : w ≤ mx) :
    (w - (mn + mx) / 2) * (w - (mn + mx) / 2) ≤ (mx - mn) * (mx - mn) / 4 := by
  have h : (mx - mn) * (mx - mn) / 4 - (w - (mn + mx) / 2) * (w - (mn + mx) / 2)
      = (mx - w) * (w - mn) := by ring
  have hnn : 0 ≤ (mx - w) * (w - mn) := mul_nonneg (sub_nonneg.2 h2) (sub_nonneg.2 h1)
  linarith

theorem i3dmFeatureTableJson_members {α : Type} (N : Nat) (center : Vec3 α)
    (o1 o2 o3 o4 : Nat) :
    (i3dmFeatureTableJson N center o1 o2 o3 o4).get "INSTANCES_LENGTH" = some (Json.uint N)
    ∧ (i3dmFeatureTableJson N center o1 o2 o3 o4).get "RTC_CENTER"
        = some (Json.arr [Json.float center.x, Json.float center.y, Json.float center.z])
    ∧ (i3dmFeatureTableJson N center o1 o2 o3 o4).get2 "POSITION" "byteOffset"
        = some (Json.uint o1)
    ∧ (i3dmFeatureTableJson N center o1 o2 o3 o4).get2 "SCALE_NON_UNIFORM" "byteOffset"
        = some (Json.uint o2)
    ∧ (i3dmFeatureTableJson N center o1 o2 o3 o4).get2 "NORMAL_UP" "byteOffset"
        = some (Json.uint o3)
    ∧ (i3dmFeatureTableJson N center o1 o2 o3 o4).get2 "NORMAL_RIGHT" "byteOffset"
        = some (Json.uint o4) := by
  simp [i3dmFeatureTableJson, Json.get2, Json.get, Json.set, insertKey, List.lookup]

/-- C14: for `N ≥ 1` instances (and at least `N` positions, scales and orientations), with
exact arithmetic, `writeToI3DM` writes a file whose feature table JSON has `RTC_CENTER` equal to
the componentwise midpoint `(min + max) / 2` of the `N` world positions; the `POSITION` record of
instance `i` holds `worldPosition_i - RTC_CENTER`; and the squared norm of that vector is at most
the squared diagonal of the bounding box of the world positions divided by 4, that is, its
norm is at most half the diagonal. -/
theorem writeToI3DM_rtc_center {α : Type} [LinearOrderedField α] (env : I3dmEnv α)
    (dump : Json α → List Nat) (uri : List Nat) (attribs : CDBInstancesAttributes)
    (positions : List (Cartographic α)) (scales : List (Vec3 α)) (orientations : List α)
    (h1 : 1 ≤ attribs.instancesCount) (hp : attribs.instancesCount ≤ positions.length)
    (hs : attribs.instancesCount ≤ scales.length)
    (ho : attribs.instancesCount ≤ orientations.length) :
    ∃ (mn mx : Vec3 α) (json : Json α) (file : List Nat),
      (writeToI3DM env dump uri attribs positions scales orientations OFStream.empty).map
          (fun r => r.1.data) = some file
      ∧ i3dmBoundsOf env positions attribs.instancesCount (mn, mx)
      ∧ (file.drop 32).take (padSpaces 32 (dump json)).length = padSpaces 32 (dump json)
      ∧ json.get "RTC_CENTER" = some (Json.arr [Json.float ((mn.x + mx.x) / 2),
          Json.float ((mn.y + mx.y) / 2), Json.float ((mn.z + mx.z) / 2)])
      ∧ ∀ (i : Nat) (p : Cartographic α), i < attribs.instancesCount →
          positions[i]? = some p →
          (file.drop (32 + (padSpaces 32 (dump json)).length + i * 12)).take 12
              = env.vec3Bytes ((env.cartographicToCartesian p).sub ((mn.add mx).half))
          ∧ ((env.cartographicToCartesian p).sub ((mn.add mx).half)).normSq
              ≤ (mx.sub mn).normSq / 4 := by
  obtain ⟨b, hb, hinv⟩ := i3dmBounds_spec env attribs.instancesCount positions h1 hp
  obtain ⟨fb, hfb, hlen, hrec⟩ := i3dmFeatureTableBuffer_records env attribs.instancesCount
    ((b.1.add b.2).half) positions scales orientations hp hs ho
  obtain ⟨hdr, rest, h32, -, hfile⟩ :=
    writeToI3DM_parts env dump uri attribs positions scales orientations b fb hb hfb
  refine ⟨b.1, b.2, i3dmFeatureTableJson attribs.instancesCount ((b.1.add b.2).half) 0
      (attribs.instancesCount * 12) (attribs.instancesCount * 12 + attribs.instancesCount * 12)
      (attribs.instancesCount * 12 + attribs.instancesCount * 12 + attribs.instancesCount * 12),
    _, hfile, hinv, ?_, (i3dmFeatureTableJson_members _ ((b.1.add b.2).half) _ _ _ _).2.1, ?_⟩
  · rw [List.drop_left' h32, List.take_left]
  · intro i p hi hpi
    have hsi : i < scales.length := by omega
    have hoi : i < orientations.length := by omega
    obtain ⟨r1, -, -, -⟩ := hrec i hi p scales[i] orientations[i] hpi
      (List.getElem?_eq_getElem hsi) (List.getElem?_eq_getElem hoi)
    constructor
    · rw [← List.append_assoc,
        slice_in_section _ fb rest _ (i * 12) 12
          (by rw [List.length_append, h32]) (by omega)]
      rw [Nat.zero_add] at r1
      exact r1
    · obtain ⟨b1, b2, b3, b4, b5, b6⟩ := hinv.1 i p hi hpi
      have hx := sq_mid_le _ _ _ b1 b2
      have hy := sq_mid_le _ _ _ b3 b4
      have hz := sq_mid_le _ _ _ b5 b6
      simp only [Vec3.normSq, Vec3.sub, Vec3.add, Vec3.half]
      have hsum : ((b.2.x - b.1.x) * (b.2.x - b.1.x) + (b.2.y - b.1.y) * (b.2.y - b.1.y)
          + (b.2.z - b.1.z) * (b.2.z - b.1.z)) / 4
          = (b.2.x - b.1.x) * (b.2.x - b.1.x) / 4 + (b.2.y - b.1.y) * (b.2.y - b.1.y) / 4
            + (b.2.z - b.1.z) * (b.2.z - b.1.z) / 4 := by ring
      rw [hsum]
      linarith

/-- Witness of C14: the two sample instances. -/
theorem writeToI3DM_rtc_center_witness :
    1 ≤ sampleAttribs.instancesCount
    ∧ sampleAttribs.instancesCount ≤ samplePositions.length
    ∧ sampleAttribs.instancesCount ≤ sampleScales.length
    ∧ sampleAttribs.instancesCount ≤ sampleOrientations.length
    ∧ ∃ (mn mx : Vec3 ℚ) (json : Json ℚ),
        i3dmBoundsOf sampleEnv samplePositions sampleAttribs.instancesCount (mn, mx)
        ∧ json.get "RTC_CENTER" = some (Json.arr [Json.float ((mn.x + mx.x) / 2),
            Json.float ((mn.y + mx.y) / 2), Json.float ((mn.z + mx.z) / 2)]) := by
  refine ⟨by decide, by decide, by decide, by decide, ?_⟩
  obtain ⟨mn, mx, json, file, -, hinv, -, hc, -⟩ :=
    writeToI3DM_rtc_center sampleEnv sampleDump (ascii "a.glb") sampleAttribs samplePositions
      sampleScales sampleOrientations (by decide) (by decide) (by decide) (by decide)
  exact ⟨mn, mx, json, hinv, hc⟩

/-- C15: for `N ≥ 1` instances (and at least `N` positions, scales and orientations) the
feature table JSON of the file declares `INSTANCES_LENGTH = N` and the byte offsets
`POSITION = 0`, `SCALE_NON_UNIFORM = 12 N`, `NORMAL_UP = 24 N`, `NORMAL_RIGHT = 36 N`; the
feature table binary, which follows it, has length `roundUp (48 N) 8 = 48 N`, declared in the
header; and the 12-byte record of instance `i` of each array stands at the array offset plus
`12 i`, so that the arrays fill `[0, 12 N)`, `[12 N, 24 N)`, `[24 N, 36 N)`, `[36 N, 48 N)` in
the order position, scale, normal-up, normal-right, without overlap and inside the buffer. -/
theorem writeToI3DM_featureTable {α : Type} [LinearOrderedField α] (env : I3dmEnv α)
    (dump : Json α → List Nat) (uri : List Nat) (attribs : CDBInstancesAttributes)
    (positions : List (Cartographic α)) (scales : List (Vec3 α)) (orientations : List α)
    (h1 : 1 ≤ attribs.instancesCount) (hp : attribs.instancesCount ≤ positions.length)
    (hs : attribs.instancesCount ≤ scales.length)
    (ho : attribs.instancesCount ≤ orientations.length) :
    ∃ (center : Vec3 α) (json : Json α) (fb file : List Nat),
      (writeToI3DM env dump uri attribs positions scales orientations OFStream.empty).map
          (fun r => r.1.data) = some file
      ∧ (file.drop 32).take (padSpaces 32 (dump json)).length = padSpaces 32 (dump json)
      ∧ json.get "INSTANCES_LENGTH" = some (Json.uint attribs.instancesCount)
      ∧ json.get2 "POSITION" "byteOffset" = some (Json.uint 0)
      ∧ json.get2 "SCALE_NON_UNIFORM" "byteOffset"
          = some (Json.uint (12 * attribs.instancesCount))
      ∧ json.get2 "NORMAL_UP" "byteOffset" = some (Json.uint (24 * attribs.instancesCount))
      ∧ json.get2 "NORMAL_RIGHT" "byteOffset" = some (Json.uint (36 * attribs.instancesCount))
      ∧ (file.drop (32 + (padSpaces 32 (dump json)).length)).take fb.length = fb
      ∧ fb.length = roundUp (48 * attribs.instancesCount) 8
      ∧ fb.length = 48 * attribs.instancesCount
      ∧ (fb.length < 4294967296 → u32At file 16 = fb.length)
      ∧ ∀ (i : Nat) (p : Cartographic α) (s : Vec3 α) (o : α), i < attribs.instancesCount →
          positions[i]? = some p → scales[i]? = some s → orientations[i]? = some o →
          (fb.drop (0 + 12 * i)).take 12
              = env.vec3Bytes ((env.cartographicToCartesian p).sub center)
          ∧ (fb.drop (12 * attribs.instancesCount + 12 * i)).take 12 = env.vec3Bytes s
          ∧ (fb.drop (24 * attribs.instancesCount + 12 * i)).take 12
              = env.vec3Bytes (env.normalUp (env.cartographicToCartesian p) o)
          ∧ (fb.drop (36 * attribs.instancesCount + 12 * i)).take 12
              = env.vec3Bytes (env.normalRight (env.cartographicToCartesian p) o)
          ∧ 0 + 12 * i + 12 ≤ 12 * attribs.instancesCount
          ∧ 12 * attribs.instancesCount + 12 * i + 12 ≤ 24 * attribs.instancesCount
          ∧ 24 * attribs.instancesCount + 12 * i + 12 ≤ 36 * attribs.instancesCount
          ∧ 36 * attribs.instancesCount + 12 * i + 12 ≤ fb.length
          ∧ ∀ j : Nat, i < j → 12 * i + 12 ≤ 12 * j := by
  obtain ⟨b, hb, -⟩ := i3dmBounds_spec env attribs.instancesCount positions h1 hp
  obtain ⟨fb, hfb, hlen, hrec⟩ := i3dmFeatureTableBuffer_records env attribs.instancesCount
    ((b.1.add b.2).half) positions scales orientations hp hs ho
  obtain ⟨hdr, rest, h32, h16, hfile⟩ :=
    writeToI3DM_parts env dump uri attribs positions scales orientations b fb hb hfb
  obtain ⟨m1, -, m3, m4, m5, m6⟩ := i3dmFeatureTableJson_members attribs.instancesCount
    ((b.1.add b.2).half) 0 (attribs.instancesCount * 12)
    (attribs.instancesCount * 12 + attribs.instancesCount * 12)
    (attribs.instancesCount * 12 + attribs.instancesCount * 12 + attribs.instancesCount * 12)
  have e2 : attribs.instancesCount * 12 = 12 * attribs.instancesCount := by omega
  have e3 : attribs.instancesCount * 12 + attribs.instancesCount * 12
      = 24 * attribs.instancesCount := by omega
  have e4 : attribs.instancesCount * 12 + attribs.instancesCount * 12
      + attribs.instancesCount * 12 = 36 * attribs.instancesCount := by omega
  refine ⟨(b.1.add b.2).half, _, fb, _, hfile, ?_, m1, m3, ?_, ?_, ?_, ?_, ?_, by omega, ?_, ?_⟩
  · rw [List.drop_left' h32, List.take_left]
  · rw [m4, e2]
  · rw [m5, e3]
  · rw [m6, e4]
  · rw [← List.append_assoc, List.drop_left' (by rw [List.length_append, h32]),
      List.take_left]
  · rw [hlen]
    unfold roundUp
    omega
  · intro hlt
    rw [h16, Nat.mod_eq_of_lt hlt]
  · intro i p s o hi hpi hsi hoi
    obtain ⟨r1, r2, r3, r4⟩ := hrec i hi p s o hpi hsi hoi
    have ei : i * 12 = 12 * i := by omega
    rw [e2, ei] at r2
    rw [e3, ei] at r3
    rw [e4, ei] at r4
    rw [ei] at r1
    exact ⟨r1, r2, r3, r4, by omega, by omega, by omega, by omega, fun j hj => by omega⟩

/-- Witness of C15: the two sample instances give a feature table binary of 96 bytes. -/
theorem writeToI3DM_featureTable_witness :
    1 ≤ sampleAttribs.instancesCount
    ∧ sampleAttribs.instancesCount ≤ samplePositions.length
    ∧ sampleAttribs.instancesCount ≤ sampleScales.length
    ∧ sampleAttribs.instancesCount ≤ sampleOrientations.length
    ∧ ∃ (json : Json ℚ) (fb : List Nat),
        json.get "INSTANCES_LENGTH" = some (Json.uint sampleAttribs.instancesCount)
        ∧ fb.length = 48 * sampleAttribs.instancesCount := by
  refine ⟨by decide, by decide, by decide, by decide, ?_⟩
  obtain ⟨center, json, fb, file, -, -, hn, -, -, -, -, -, -, hlen, -⟩ :=
    writeToI3DM_featureTable sampleEnv sampleDump (ascii "a.glb") sampleAttribs samplePositions
      sampleScales sampleOrientations (by decide) (by decide) (by decide) (by decide)
  exact ⟨json, fb, hn, hlen⟩

/-! ## What `combineDataset` records -/

/-- C24 (the code at the failing input): the empty list, which has fewer than two entries, is
appended to the requested combinations and accepted, whatever the allowed names and the
combinations recorded so far; only a list of exactly one string leaves them unchanged. -/
theorem combineDataset_empty_recorded (DP : List String) (req : List (List String)) :
    combineDataset DP req [] = (req ++ [[]], Except.ok ())
    ∧ (combineDataset DP req []).1.length = req.length + 1
    ∧ ∀ d : String, combineDataset DP req [d] = (req, Except.ok ()) := by
  refine ⟨rfl, ?_, fun d => rfl⟩
  simp [combineDataset]

/-- C30: for a list of size other than 1 on which `combineDataset` fails, the list has been
appended to `requestedDatasetToCombine` and stays there: the recorded combinations after the
failed call are the former ones followed by the invalid list, and differ from the former
ones. -/
theorem combineDataset_failure_recorded (DP : List String) (req : List (List String))
    (ds : List String) (msg : String) (h : ds.length ≠ 1)
    (hf : (combineDataset DP req ds).2 = Except.error msg) :
    (combineDataset DP req ds).1 = req ++ [ds]
    ∧ (combineDataset DP req ds).1 ≠ req
    ∧ ∃ d ∈ ds, ¬ WellFormedDataset DP d := by
  have h1 : (combineDataset DP req ds).1 = req ++ [ds] := by
    simp only [combineDataset, if_neg h]
  refine ⟨h1, ?_, ?_⟩
  · rw [h1]
    intro he
    have hl := congrArg List.length he
    simp at hl
  · by_contra hall
    push_neg at hall
    have hok := (combineDataset_ok_iff DP req ds h).mpr hall
    rw [hok] at hf
    cases hf

/-- Witness of C30: the list `garbage`, `Elevation_1_1` fails with the format message. -/
theorem combineDataset_failure_recorded_witness :
    ["garbage", "Elevation_1_1"].length ≠ 1
    ∧ (combineDataset sampleDatasetPaths [["Elevation_1_1", "GSFeature_2_1"]]
        ["garbage", "Elevation_1_1"]).2 = Except.error wrongFormatMessage
    ∧ (combineDataset sampleDatasetPaths [["Elevation_1_1", "GSFeature_2_1"]]
        ["garbage", "Elevation_1_1"]).1
        = [["Elevation_1_1", "GSFeature_2_1"], ["garbage", "Elevation_1_1"]] :=
  ⟨by decide, by decide,
    (combineDataset_failure_recorded sampleDatasetPaths [["Elevation_1_1", "GSFeature_2_1"]]
      ["garbage", "Elevation_1_1"] wrongFormatMessage (by decide) (by decide)).1⟩

/-! ## Sizes of a subtree -/

/-- C25: for a subtree depth `1 ≤ D ≤ 15` the node count of line 116 is exactly
`(4 ^ D - 1) / 3` (3 divides `4 ^ D - 1`) and the child-subtree count `4 ^ D`, both within
`int`; the bitmap byte lengths are the ceilings of the counts over 8, so that every node and
every child has a bit (`8 B ≥ S`) and no byte is unused (`8 (B - 1) < S`); and the working size
of a subtree is `24 + B_n + B_c`. -/
theorem subtree_sizing (D : Nat) (h1 : 1 ≤ D) (h15 : D ≤ 15) :
    3 * subtreeNodeCount D = 4 ^ D - 1
    ∧ 3 ∣ 4 ^ D - 1
    ∧ subtreeNodeCount D < 2 ^ 31
    ∧ childSubtreeCount D = 4 ^ D
    ∧ childSubtreeCount D < 2 ^ 31
    ∧ subtreeNodeCount D ≤ 8 * availabilityByteLength D
    ∧ 8 * (availabilityByteLength D - 1) < subtreeNodeCount D
    ∧ childSubtreeCount D ≤ 8 * childSubtreeAvailabilityByteLength D
    ∧ 8 * (childSubtreeAvailabilityByteLength D - 1) < childSubtreeCount D
    ∧ bufferByteLength D
        = 24 + availabilityByteLength D + childSubtreeAvailabilityByteLength D := by
  have hx : 4 ^ D % 3 = 1 := by
    rw [Nat.pow_mod]
    simp
  have hle : 4 ^ D ≤ 4 ^ 15 := Nat.pow_le_pow_right (by norm_num) h15
  have h4 : 4 ≤ 4 ^ D := by
    calc 4 = 4 ^ 1 := by norm_num
      _ ≤ 4 ^ D := Nat.pow_le_pow_right (by norm_num) h1
  have h15v : (4 : Nat) ^ 15 = 1073741824 := by norm_num
  rw [h15v] at hle
  simp only [subtreeNodeCount, childSubtreeCount, availabilityByteLength,
    childSubtreeAvailabilityByteLength, bufferByteLength, headerByteLength]
  generalize 4 ^ D = x at hx hle h4 ⊢
  refine ⟨by omega, by omega, by omega, trivial, by omega, by omega, by omega, by omega, by omega,
    by omega⟩

/-- Witness of C25: depth 4 gives 85 nodes, 256 child subtrees, bitmaps of 11 and 32 bytes and
a working size of 67 bytes. -/
theorem subtree_sizing_witness :
    1 ≤ 4 ∧ 4 ≤ 15 ∧ 3 * subtreeNodeCount 4 = 4 ^ 4 - 1
    ∧ bufferByteLength 4 = 24 + availabilityByteLength 4 + childSubtreeAvailabilityByteLength 4 :=
  ⟨by decide, by decide, (subtree_sizing 4 (by decide) (by decide)).1,
    (subtree_sizing 4 (by decide) (by decide)).2.2.2.2.2.2.2.2.2⟩

/-! ## Extent of the stores and of the buffer views of a subtree file -/

theorem availabilityByteLength_mod (D : Nat) (hD : 1 ≤ D) :
    availabilityByteLength D % 8 = 1 ∨ availabilityByteLength D % 8 = 3 := by
  match D, hD with
  | 1, _ => left; decide
  | 2, _ => left; decide
  | k + 3, _ =>
    right
    have hx : 4 ^ k % 3 = 1 := by
      rw [Nat.pow_mod]
      simp
    have hp : 4 ^ (k + 3) = 64 * 4 ^ k := by ring
    simp only [availabilityByteLength, subtreeNodeCount, hp]
    generalize 4 ^ k = x at hx
    omega

theorem lt_alignTo8_availabilityByteLength (D : Nat) (hD : 1 ≤ D) :
    availabilityByteLength D < alignTo8 (availabilityByteLength D) := by
  have hm := availabilityByteLength_mod D hD
  rw [alignTo8_eq]
  omega

/-- The size of `outputBuffer` and the end of the last store of `serializeSubtree`. -/
theorem serializeSubtree_extent {α : Type} (dump : Json α → List Nat) (D a b : Nat)
    (buffer : List Nat) :
    (serializeSubtree dump D a b buffer).allocated
        = alignTo8 (dump (subtreeJson D a b)).length + bufferByteLength D
    ∧ (serializeSubtree dump D a b buffer).written
        = 24 + alignTo8 (dump (subtreeJson D a b)).length
          + (if a = 0 ∨ a = subtreeNodeCount D then 0
              else alignTo8 (availabilityByteLength D))
          + (if b = 0 ∨ b = childSubtreeCount D then 0
              else alignTo8 (childSubtreeAvailabilityByteLength D)) := by
  refine ⟨rfl, ?_⟩
  unfold serializeSubtree
  simp only [headerByteLength, nodeAvailabilityByteLengthWithPadding,
    childSubtreeAvailabilityByteLengthWithPadding]
  rw [show (subtreeJsonState D a b : SubtreeJsonState α).subtreeJson = subtreeJson D a b
    from rfl]
  by_cases ha : a = 0 ∨ a = subtreeNodeCount D <;>
    by_cases hb : b = 0 ∨ b = childSubtreeCount D <;>
    simp [ha, hb, Bool.or_eq_true, beq_iff_eq]

/-- C26 (the code where it fails): for every depth `D ≥ 1`, when both bitmaps are emitted
(neither count is 0 or the full count) the stores into `outputBuffer` end past its allocated
size: the buffer has `padded JSON length + 24 + B_n + B_c` bytes while the last store ends at
`24 + padded JSON length + alignTo8 B_n + alignTo8 B_c`, which is larger because `B_n` is never
a multiple of 8. -/
theorem serializeSubtree_writes_past_allocation {α : Type} (dump : Json α → List Nat)
    (D a b : Nat) (buffer : List Nat) (hD : 1 ≤ D)
    (ha : ¬ (a = 0 ∨ a = subtreeNodeCount D)) (hb : ¬ (b = 0 ∨ b = childSubtreeCount D)) :
    (serializeSubtree dump D a b buffer).allocated
        = alignTo8 (dump (subtreeJson D a b)).length + 24 + availabilityByteLength D
          + childSubtreeAvailabilityByteLength D
    ∧ (serializeSubtree dump D a b buffer).written
        = 24 + alignTo8 (dump (subtreeJson D a b)).length
          + alignTo8 (availabilityByteLength D)
          + alignTo8 (childSubtreeAvailabilityByteLength D)
    ∧ (serializeSubtree dump D a b buffer).allocated
        < (serializeSubtree dump D a b buffer).written := by
  obtain ⟨hal, hwr⟩ := serializeSubtree_extent dump D a b buffer
  rw [if_neg ha, if_neg hb] at hwr
  have hn := lt_alignTo8_availabilityByteLength D hD
  have hc := le_alignTo8 (childSubtreeAvailabilityByteLength D)
  rw [hal, hwr]
  simp only [bufferByteLength, headerByteLength]
  refine ⟨by omega, trivial, by omega⟩

/-- Witness of C26: depth 2 with one available node and one available child subtree: 35 bytes
are allocated and the stores end at byte 48. -/
theorem serializeSubtree_writes_past_allocation_witness :
    1 ≤ 2 ∧ ¬ (1 = 0 ∨ 1 = subtreeNodeCount 2) ∧ ¬ (1 = 0 ∨ 1 = childSubtreeCount 2)
    ∧ (serializeSubtree (sampleDump : Json ℚ → List Nat) 2 1 1
        (List.replicate 54 0)).allocated = 35
    ∧ (serializeSubtree (sampleDump : Json ℚ → List Nat) 2 1 1
        (List.replicate 54 0)).allocated
        < (serializeSubtree (sampleDump : Json ℚ → List Nat) 2 1 1
            (List.replicate 54 0)).written :=
  ⟨by decide, by decide, by decide, by
      rw [(serializeSubtree_extent _ _ _ _ _).1, alignTo8_eq]
      decide,
    (serializeSubtree_writes_past_allocation (sampleDump : Json ℚ → List Nat) 2 1 1
      (List.replicate 54 0) (by decide) (by decide) (by decide)).2.2⟩

/-- The buffer and the buffer views declared in the subtree JSON when both bitmaps are
emitted. -/
theorem subtreeJson_bufferViews {α : Type} (D a b : Nat) (hD : 1 ≤ D)
    (ha : ¬ (a = 0 ∨ a = subtreeNodeCount D)) (hb : ¬ (b = 0 ∨ b = childSubtreeCount D)) :
    (subtreeJson D a b : Json α).get "buffers"
        = some (Json.arr [Json.obj [("byteLength",
            Json.uint (availabilityByteLength D + childSubtreeAvailabilityByteLength D))]])
    ∧ (subtreeJson D a b : Json α).get "bufferViews"
        = some (Json.arr [
            Json.obj [("buffer", Json.int 0), ("byteOffset", Json.uint 0),
              ("byteLength", Json.uint (availabilityByteLength D))],
            Json.obj [("buffer", Json.int 0),
              ("byteOffset", Json.uint (alignTo8 (availabilityByteLength D))),
              ("byteLength", Json.uint (childSubtreeAvailabilityByteLength D))]]) := by
  have hn := availabilityByteLength_pos D hD
  have hc := childSubtreeAvailabilityByteLength_pos D
  unfold subtreeJson subtreeJsonState
  simp only [nodeAvailabilityByteLengthWithPadding]
  generalize alignTo8 (availabilityByteLength D) = pn
  generalize availabilityByteLength D = bn at hn ⊢
  generalize childSubtreeAvailabilityByteLength D = bc at hc ⊢
  generalize subtreeNodeCount D = sn at ha
  generalize childSubtreeCount D = sc at hb
  have hn0 : bn ≠ 0 := by omega
  have hc0 : bc ≠ 0 := by omega
  have ha0 : a ≠ 0 := fun h => ha (Or.inl h)
  have han : a ≠ sn := fun h => ha (Or.inr h)
  have hb0 : b ≠ 0 := fun h => hb (Or.inl h)
  have hbn : b ≠ sc := fun h => hb (Or.inr h)
  simp [*, Json.get, Json.set, Json.set2, Json.index, Json.pushBack, insertKey, List.lookup]

/-- C27 (the code where it fails): for every depth `D ≥ 1`, when both bitmaps are emitted the
subtree JSON declares a buffer of `B_n + B_c` bytes, a node view at offset 0 of length `B_n` and
a child view at offset `alignTo8 B_n` of length `B_c`: the node view lies in the buffer and ends
before the child view starts, but the child view ends at `alignTo8 B_n + B_c`, past the declared
length of the buffer. -/
theorem subtreeJson_child_view_past_buffer {α : Type} (D a b : Nat) (hD : 1 ≤ D)
    (ha : ¬ (a = 0 ∨ a = subtreeNodeCount D)) (hb : ¬ (b = 0 ∨ b = childSubtreeCount D)) :
    ∃ declared nodeOffset nodeLength childOffset childLength : Nat,
      (subtreeJson D a b : Json α).get "buffers"
          = some (Json.arr [Json.obj [("byteLength", Json.uint declared)]])
      ∧ (subtreeJson D a b : Json α).get "bufferViews"
          = some (Json.arr [
              Json.obj [("buffer", Json.int 0), ("byteOffset", Json.uint nodeOffset),
                ("byteLength", Json.uint nodeLength)],
              Json.obj [("buffer", Json.int 0), ("byteOffset", Json.uint childOffset),
                ("byteLength", Json.uint childLength)]])
      ∧ nodeOffset + nodeLength ≤ declared
      ∧ nodeOffset + nodeLength ≤ childOffset
      ∧ declared < childOffset + childLength := by
  obtain ⟨h1, h2⟩ := subtreeJson_bufferViews (α := α) D a b hD ha hb
  have hn := lt_alignTo8_availabilityByteLength D hD
  exact ⟨_, _, _, _, _, h1, h2, by omega, by omega, by omega⟩

/-- Witness of C27: depth 4 with one available node and one available child subtree: the
declared buffer has 43 bytes and the child view spans bytes 16 to 48. -/
theorem subtreeJson_child_view_past_buffer_witness :
    1 ≤ 4 ∧ ¬ (1 = 0 ∨ 1 = subtreeNodeCount 4) ∧ ¬ (1 = 0 ∨ 1 = childSubtreeCount 4)
    ∧ ∃ declared nodeOffset nodeLength childOffset childLength : Nat,
      (subtreeJson 4 1 1 : Json ℚ).get "buffers"
          = some (Json.arr [Json.obj [("byteLength", Json.uint declared)]])
      ∧ (subtreeJson 4 1 1 : Json ℚ).get "bufferViews"
          = some (Json.arr [
              Json.obj [("buffer", Json.int 0), ("byteOffset", Json.uint nodeOffset),
                ("byteLength", Json.uint nodeLength)],
              Json.obj [("buffer", Json.int 0), ("byteOffset", Json.uint childOffset),
                ("byteLength", Json.uint childLength)]])
      ∧ nodeOffset + nodeLength ≤ declared
      ∧ nodeOffset + nodeLength ≤ childOffset
      ∧ declared < childOffset + childLength :=
  ⟨by decide, by decide, by decide,
    subtreeJson_child_view_past_buffer 4 1 1 (by decide) (by decide) (by decide)⟩

/-- C22 (the code where it fails): when the node-availability bitmap is emitted, the bytes of
the node-availability section that follow its `B_n` bitmap bytes are not zeros written by the
serializer: they are the bytes that follow the node bitmap in the subtree buffer, that is, the
first `alignTo8 B_n - B_n` bytes at `childSubtreeAvailabilityBuffer`, the child-subtree
bitmap; there is at least one such byte. -/
theorem serializeSubtree_node_padding_from_child_bitmap {α : Type} (dump : Json α → List Nat)
    (D a b : Nat) (buffer : List Nat) (hbuf : buffer.length = bufferByteLength D * 2)
    (hD : 1 ≤ D) (ha : ¬ (a = 0 ∨ a = subtreeNodeCount D)) :
    ((serializeSubtree dump D a b buffer).bytes.drop
        (24 + alignTo8 (dump (subtreeJson D a b)).length + availabilityByteLength D)).take
        (alignTo8 (availabilityByteLength D) - availabilityByteLength D)
      = (buffer.drop (childSubtreeAvailabilityByteOffset D)).take
          (alignTo8 (availabilityByteLength D) - availabilityByteLength D)
    ∧ 0 < alignTo8 (availabilityByteLength D) - availabilityByteLength D := by
  obtain ⟨hbytes, hnl, -⟩ := serializeSubtree_bytes dump D a b buffer hbuf
  have hn := lt_alignTo8_availabilityByteLength D hD
  have hpad := le_alignTo8 (dump (subtreeJson D a b : Json α)).length
  refine ⟨?_, by omega⟩
  rw [hbytes, if_neg ha]
  simp only [nodeAvailabilityByteLengthWithPadding] at hnl ⊢
  have hpre : (u32le 0x74627573 ++ u32le 1 ++ u64le (alignTo8 (dump (subtreeJson D a b)).length)
      ++ u64le (subtreeJsonState D a b : SubtreeJsonState α).bufferByteLengthAccum
      ++ dump (subtreeJson D a b)
      ++ List.replicate (alignTo8 (dump (subtreeJson D a b)).length
          - (dump (subtreeJson D a b)).length) 32).length
      = 24 + alignTo8 (dump (subtreeJson D a b)).length := by
    simp only [List.length_append, length_u32le, length_u64le, List.length_replicate]
    omega
  generalize (u32le 0x74627573 ++ u32le 1 ++ u64le (alignTo8 (dump (subtreeJson D a b)).length)
      ++ u64le (subtreeJsonState D a b : SubtreeJsonState α).bufferByteLengthAccum
      ++ dump (subtreeJson D a b)
      ++ List.replicate (alignTo8 (dump (subtreeJson D a b)).length
          - (dump (subtreeJson D a b)).length) 32) = pre at hpre ⊢
  rw [List.append_assoc, slice_in_section pre _ _ _ _ _ hpre (by rw [hnl]; omega),
    List.drop_take, List.take_take, List.drop_drop, Nat.min_self]
  simp only [childSubtreeAvailabilityByteOffset, headerByteLength]

set_option maxRecDepth 8000 in
/-- Witness of C22: depth 4, one available node, one available child subtree and the bit of
child subtree 0 set: the first padding byte of the node-availability section is 1. -/
theorem serializeSubtree_node_padding_from_child_bitmap_witness :
    sampleSubtreeBufferWithChild.length = bufferByteLength 4 * 2
    ∧ 1 ≤ 4 ∧ ¬ (1 = 0 ∨ 1 = subtreeNodeCount 4)
    ∧ ((serializeSubtree (sampleDump : Json ℚ → List Nat) 4 1 1
          sampleSubtreeBufferWithChild).bytes.drop
          (24 + alignTo8 (sampleDump (subtreeJson 4 1 1 : Json ℚ)).length
            + availabilityByteLength 4)).take
          (alignTo8 (availabilityByteLength 4) - availabilityByteLength 4)
        = [1, 0, 0, 0, 0] := by
  have hlen : sampleSubtreeBufferWithChild.length = bufferByteLength 4 * 2 := by decide
  refine ⟨hlen, by decide, by decide, ?_⟩
  rw [(serializeSubtree_node_padding_from_child_bitmap (sampleDump : Json ℚ → List Nat) 4 1 1
    sampleSubtreeBufferWithChild hlen (by decide) (by decide)).1]
  have hb : availabilityByteLength 4 = 11 := by decide
  rw [hb, alignTo8_eleven]
  decide

/-! ## Regions handed to `combineTilesetJson` -/

theorem existTilesets_acc {α : Type} (aggregate : List (String × BoundingRegion α)) :
    ∀ (tilesets : List String) (acc : List String × List (BoundingRegion α)),
      acc.1.length = acc.2.length →
      (tilesets.foldl
        (fun (acc : List String × List (BoundingRegion α)) tileset =>
          match aggregate.lookup tileset with
          | some tilesetRegion => (acc.1 ++ [tileset ++ ".json"], acc.2 ++ [tilesetRegion])
          | none => acc) acc).1.length
      = (tilesets.foldl
        (fun (acc : List String × List (BoundingRegion α)) tileset =>
          match aggregate.lookup tileset with
          | some tilesetRegion => (acc.1 ++ [tileset ++ ".json"], acc.2 ++ [tilesetRegion])
          | none => acc) acc).2.length
  | [], acc, h => h
  | t :: ts, acc, h => by
      rw [List.foldl_cons]
      apply existTilesets_acc aggregate ts
      cases aggregate.lookup t with
      | none => exact h
      | some r => simp [h]

theorem existTilesets_none {α : Type} (aggregate : List (String × BoundingRegion α)) :
    ∀ (tilesets : List String), (∀ t ∈ tilesets, aggregate.lookup t = none) →
      existTilesets aggregate tilesets = ([], [])
  | [], _ => rfl
  | t :: ts, h => by
      have ht := h t (List.mem_cons_self _ _)
      have hts := existTilesets_none aggregate ts (fun x hx => h x (List.mem_cons_of_mem _ hx))
      unfold existTilesets at hts ⊢
      rw [List.foldl_cons, ht]
      exact hts

/-- C28 (the code where it fails): in explicit mode, for every requested combination none of
whose tilesets was converted, `convert` calls `combineTilesetJson` with no path and no region,
so that `regions.front()` is taken of an empty vector; in implicit mode the same happens when
no default tileset was converted.  The paths and regions of a requested combination are
always equally many. -/
theorem convertCombine_empty_regions {α : Type} [LinearOrderedField α] (st : CombineState α) :
    (∀ tilesets ∈ st.requestedDatasetToCombine,
        (∀ t ∈ tilesets, st.aggregateTilesetsRegion.lookup t = none) →
        ∃ call ∈ convertCombine false st, call.tilesetJsonPaths = [] ∧ call.regions = []
          ∧ combinedDocument call.tilesetJsonPaths call.regions = none)
    ∧ (st.combinedTilesets = [] →
        ∃ call ∈ convertCombine true st, call.tilesetJsonPaths = [] ∧ call.regions = []
          ∧ combinedDocument call.tilesetJsonPaths call.regions = none)
    ∧ (∀ call ∈ requestedCombine st, call.tilesetJsonPaths.length = call.regions.length) := by
  refine ⟨?_, ?_, ?_⟩
  · intro tilesets hmem hnone
    have he := existTilesets_none st.aggregateTilesetsRegion tilesets hnone
    refine ⟨{ fileName := combinedTilesetName st.requestedDatasetToCombine tilesets
              tilesetJsonPaths := (existTilesets st.aggregateTilesetsRegion tilesets).1
              regions := (existTilesets st.aggregateTilesetsRegion tilesets).2 }, ?_, ?_⟩
    · simp only [convertCombine, Bool.false_eq_true, if_false, List.mem_append]
      right
      exact List.mem_map.mpr ⟨tilesets, hmem, rfl⟩
    · simp only [he]
      exact ⟨trivial, trivial, rfl⟩
  · intro hempty
    refine ⟨_, by rw [convertCombine, if_pos rfl, implicitCombine_eq]; exact List.mem_singleton_self _,
      ?_⟩
    simp only [hempty, List.map_nil, List.flatten_nil]
    exact ⟨trivial, trivial, rfl⟩
  · intro call hcall
    obtain ⟨tilesets, -, rfl⟩ := List.mem_map.mp hcall
    exact existTilesets_acc st.aggregateTilesetsRegion tilesets ([], []) rfl

/-- Witness of C28: one requested combination of two tilesets that were not converted. -/
theorem convertCombine_empty_regions_witness :
    ["GSFeature_2_1", "GTFeature_1_1"]
        ∈ (sampleCombineState [["GSFeature_2_1", "GTFeature_1_1"]]).requestedDatasetToCombine
    ∧ (∀ t ∈ ["GSFeature_2_1", "GTFeature_1_1"],
        (sampleCombineState [["GSFeature_2_1", "GTFeature_1_1"]]).aggregateTilesetsRegion.lookup t
          = none)
    ∧ ∃ call ∈ convertCombine false (sampleCombineState [["GSFeature_2_1", "GTFeature_1_1"]]),
        call.tilesetJsonPaths = [] ∧ call.regions = []
        ∧ combinedDocument call.tilesetJsonPaths call.regions = none := by
  have h1 : ["GSFeature_2_1", "GTFeature_1_1"]
      ∈ (sampleCombineState [["GSFeature_2_1", "GTFeature_1_1"]]).requestedDatasetToCombine :=
    List.mem_singleton_self _
  have h2 : ∀ t ∈ ["GSFeature_2_1", "GTFeature_1_1"],
      (sampleCombineState [["GSFeature_2_1", "GTFeature_1_1"]]).aggregateTilesetsRegion.lookup t
        = none := by
    intro t ht
    simp only [List.mem_cons, List.mem_singleton, List.not_mem_nil, or_false] at ht
    rcases ht with rfl | rfl <;> rfl
  exact ⟨h1, h2, (convertCombine_empty_regions
    (sampleCombineState [["GSFeature_2_1", "GTFeature_1_1"]])).1 _ h1 h2⟩

/-! ## Layout of the batch table -/

theorem Json.get2_congr {α : Type} (j j' : Json α) (k1 k2 : String)
    (h : j.get k1 = j'.get k1) : j.get2 k1 k2 = j'.get2 k1 k2 := by
  simp only [Json.get2, h]

theorem batchTableColumn_byteOffset {α : Type} (ct : String) (st : BatchTableState α)
    (key : String) (column : List Nat) :
    (batchTableColumn ct st key column).json.get2 key "byteOffset"
      = some (Json.uint st.offset) := by
  simp only [batchTableColumn]
  rw [Json.get2_set2_ne _ _ _ _ _ (by decide), Json.get2_set2_ne _ _ _ _ _ (by decide),
    Json.get_set2_self]

theorem batchTableColumn_get {α : Type} (ct : String) (st : BatchTableState α)
    (key k : String) (column : List Nat) (hk : k ≠ key) :
    (batchTableColumn ct st key column).json.get k = st.json.get k := by
  simp only [batchTableColumn]
  rw [Json.get_set2_ne _ _ _ _ _ hk, Json.get_set2_ne _ _ _ _ _ hk,
    Json.get_set2_ne _ _ _ _ _ hk]

/-- The loop over the columns of one kind, each encoded in `w` bytes: the columns are stored
one after the other from the starting offset, inside the memory, with their offsets declared;
the memory before the starting offset and the members of other names are kept. -/
theorem foldl_batchTableColumn_spec {α : Type} {γ : Type} (ct : String) (enc : γ → List Nat)
    (w M : Nat) : ∀ (cols : List (String × γ)) (st : BatchTableState α),
    (∀ kv ∈ cols, (enc kv.2).length = w) → (cols.map Prod.fst).Nodup →
    st.mem.length = M → st.offset + cols.length * w ≤ M →
    (cols.foldl (fun st kv => batchTableColumn ct st kv.1 (enc kv.2)) st).offset
        = st.offset + cols.length * w
    ∧ (cols.foldl (fun st kv => batchTableColumn ct st kv.1 (enc kv.2)) st).mem.length = M
    ∧ (∀ (i : Nat) (kv : String × γ), cols[i]? = some kv →
        ((cols.foldl (fun st kv => batchTableColumn ct st kv.1 (enc kv.2)) st).mem.drop
            (st.offset + i * w)).take w = enc kv.2
        ∧ (cols.foldl (fun st kv => batchTableColumn ct st kv.1 (enc kv.2)) st).json.get2
            kv.1 "byteOffset" = some (Json.uint (st.offset + i * w)))
    ∧ (∀ a n : Nat, a + n ≤ st.offset →
        ((cols.foldl (fun st kv => batchTableColumn ct st kv.1 (enc kv.2)) st).mem.drop a).take n
          = (st.mem.drop a).take n)
    ∧ (∀ k : String, k ∉ cols.map Prod.fst →
        (cols.foldl (fun st kv => batchTableColumn ct st kv.1 (enc kv.2)) st).json.get k
          = st.json.get k)
  | [], st, _, _, hM, _ => by
      refine ⟨by simp, by simpa using hM, ?_, fun a n _ => rfl, fun k _ => rfl⟩
      intro i kv h
      simp at h
  | c :: cols, st, hw, hnd, hM, hle => by
      have hc : (enc c.2).length = w := hw c (List.mem_cons_self _ _)
      rw [List.map_cons, List.nodup_cons] at hnd
      rw [List.length_cons] at hle
      have hmul : (cols.length + 1) * w = cols.length * w + w := by ring
      have hM1 : (batchTableColumn ct st c.1 (enc c.2)).mem.length = M := by
        simp only [batchTableColumn, length_writeAt]
        omega
      have ho1 : (batchTableColumn ct st c.1 (enc c.2)).offset = st.offset + w := by
        simp only [batchTableColumn, hc]
      obtain ⟨h1, h2, h3, h4, h5⟩ := foldl_batchTableColumn_spec ct enc w M cols
        (batchTableColumn ct st c.1 (enc c.2))
        (fun kv hkv => hw kv (List.mem_cons_of_mem _ hkv)) hnd.2 hM1 (by rw [ho1]; omega)
      rw [List.foldl_cons]
      refine ⟨by rw [h1, ho1, List.length_cons]; omega, h2, ?_, ?_, ?_⟩
      · intro i kv hi
        cases i with
        | zero =>
          simp only [List.getElem?_cons_zero, Option.some.injEq] at hi
          subst hi
          constructor
          · rw [Nat.zero_mul, Nat.add_zero, h4 st.offset w (by rw [ho1])]
            have := writeAt_slice_self st.mem (enc c.2) st.offset (by omega)
            rw [hc] at this
            exact this
          · rw [Json.get2_congr _ _ _ _ (h5 c.1 hnd.1), batchTableColumn_byteOffset,
              Nat.zero_mul, Nat.add_zero]
        | succ i =>
          rw [List.getElem?_cons_succ] at hi
          obtain ⟨g1, g2⟩ := h3 i kv hi
          have he : st.offset + (i + 1) * w = st.offset + w + i * w := by ring
          rw [he, ← ho1]
          exact ⟨g1, g2⟩
      · intro a n han
        rw [h4 a n (by rw [ho1]; omega)]
        simp only [batchTableColumn]
        exact writeAt_slice_disjoint _ _ _ _ _ (by omega) (Or.inl han)
      · intro k hk
        rw [List.map_cons, List.mem_cons, not_or] at hk
        rw [h5 k hk.2, batchTableColumn_get _ _ _ _ _ hk.1]

theorem length_flatMap_i32le (c : List Int) : (c.flatMap i32le).length = 4 * c.length := by
  induction c with
  | nil => rfl
  | cons v c ih => simp only [List.flatMap_cons, List.length_append, length_i32le, ih,
      List.length_cons]; omega

theorem length_flatMap_u64le (c : List Nat) : (c.flatMap u64le).length = 8 * c.length := by
  induction c with
  | nil => rfl
  | cons v c ih => simp only [List.flatMap_cons, List.length_append, length_u64le, ih,
      List.length_cons]; omega

/-- The state of `createBatchTable` after both loops, for a table whose integer and double
columns have `instancesCount` entries each and distinct names. -/
theorem batchTableColumns_spec {α : Type} (attribs : CDBInstancesAttributes)
    (hint : ∀ kv ∈ attribs.integerAttribs, kv.2.length = attribs.instancesCount)
    (hdbl : ∀ kv ∈ attribs.doubleAttribs, kv.2.length = attribs.instancesCount)
    (hnames : (attribs.integerAttribs.map Prod.fst
      ++ attribs.doubleAttribs.map Prod.fst).Nodup) :
    (batchTableColumns attribs : BatchTableState α).mem.length
        = roundUp (attribs.integerAttribs.length * 4 * attribs.instancesCount) 8
          + attribs.doubleAttribs.length * 8 * attribs.instancesCount
    ∧ (∀ (i : Nat) (kv : String × List Int), attribs.integerAttribs[i]? = some kv →
        ((batchTableColumns attribs : BatchTableState α).mem.drop
            (i * (4 * attribs.instancesCount))).take (4 * attribs.instancesCount)
          = kv.2.flatMap i32le
        ∧ (batchTableColumns attribs : BatchTableState α).json.get2 kv.1 "byteOffset"
          = some (Json.uint (i * (4 * attribs.instancesCount))))
    ∧ (∀ (j : Nat) (kv : String × List Nat), attribs.doubleAttribs[j]? = some kv →
        ((batchTableColumns attribs : BatchTableState α).mem.drop
            (roundUp (attribs.integerAttribs.length * 4 * attribs.instancesCount) 8
              + j * (8 * attribs.instancesCount))).take (8 * attribs.instancesCount)
          = kv.2.flatMap u64le
        ∧ (batchTableColumns attribs : BatchTableState α).json.get2 kv.1 "byteOffset"
          = some (Json.uint
              (roundUp (attribs.integerAttribs.length * 4 * attribs.instancesCount) 8
                + j * (8 * attribs.instancesCount)))) := by
  obtain ⟨hni, hnd, hdisj⟩ := List.nodup_append.mp hnames
  generalize hN : attribs.instancesCount = N at *
  generalize hM : roundUp (attribs.integerAttribs.length * 4 * N) 8
    + attribs.doubleAttribs.length * 8 * N = M
  have e1 : attribs.integerAttribs.length * 4 * N
      = attribs.integerAttribs.length * (4 * N) := by ring
  have e2 : attribs.doubleAttribs.length * 8 * N
      = attribs.doubleAttribs.length * (8 * N) := by ring
  have hr := le_roundUp (attribs.integerAttribs.length * 4 * N)
  unfold batchTableColumns
  simp only [hN, hM]
  generalize hst0 : (BatchTableState.mk (List.foldl
        (fun (j : Json α) (kv : String × List String) => j.set kv.1 (Json.strings kv.2))
        (Json.null.set "CNAM" (Json.strings attribs.CNAMs)) attribs.stringAttribs)
      (List.replicate M 0) 0 : BatchTableState α) = st0
  have hst0m : st0.mem.length = M := by rw [← hst0]; simp
  have hst0o : st0.offset = 0 := by rw [← hst0]
  obtain ⟨a1, a2, a3, -, -⟩ := foldl_batchTableColumn_spec (α := α) "INT"
    (fun c : List Int => c.flatMap i32le) (4 * N) M attribs.integerAttribs st0
    (fun kv hkv => by rw [length_flatMap_i32le, hint kv hkv]) hni hst0m
    (by rw [hst0o]; omega)
  generalize attribs.integerAttribs.foldl
    (fun st kv => batchTableColumn "INT" st kv.1 (kv.2.flatMap i32le)) st0 = st1 at a1 a2 a3 ⊢
  rw [hst0o, Nat.zero_add] at a1
  obtain ⟨b1, b2, b3, b4, b5⟩ := foldl_batchTableColumn_spec (α := α) "DOUBLE"
    (fun c : List Nat => c.flatMap u64le) (8 * N) M attribs.doubleAttribs
    { st1 with offset := roundUp st1.offset 8 }
    (fun kv hkv => by rw [length_flatMap_u64le, hdbl kv hkv]) hnd a2
    (by simp only [a1, ← e1]; omega)
  simp only [a1, ← e1] at b1 b2 b3 b4 b5 ⊢
  refine ⟨b2, ?_, b3⟩
  intro i kv hi
  obtain ⟨c1, c2⟩ := a3 i kv hi
  rw [hst0o, Nat.zero_add] at c1 c2
  have hilt : i < attribs.integerAttribs.length := by
    rcases Nat.lt_or_ge i attribs.integerAttribs.length with h | h
    · exact h
    · rw [List.getElem?_eq_none h] at hi; cases hi
  have hle : i * (4 * N) + 4 * N ≤ attribs.integerAttribs.length * (4 * N) := by
    have := Nat.mul_le_mul_right (4 * N) (Nat.succ_le_of_lt hilt)
    rw [Nat.succ_mul] at this
    exact this
  have hkv : kv ∈ attribs.integerAttribs := by
    rw [List.getElem?_eq_getElem hilt, Option.some.injEq] at hi
    rw [← hi]
    exact List.getElem_mem ..
  have hmem : kv.1 ∈ attribs.integerAttribs.map Prod.fst :=
    List.mem_map.mpr ⟨kv, hkv, rfl⟩
  constructor
  · rw [b4 _ _ (by omega)]
    exact c1
  · rw [Json.get2_congr _ _ _ _ (b5 kv.1 (fun h => hdisj hmem h))]
    exact c2

/-- C29: for an attribute table whose `k_int` integer and `k_dbl` double columns all have
`N = instancesCount` entries, and whose column names are distinct from one another and from
`CNAM` and the string columns, `createBatchTable` produces a buffer of
`roundUp (4 k_int N) 8 + 8 k_dbl N` bytes, a multiple of 8; integer column `i` occupies the
`4 N` bytes from `4 N i`, inside `[0, roundUp (4 k_int N) 8)`, and double column `j` the `8 N`
bytes from `roundUp (4 k_int N) 8 + 8 N j`, a multiple of 8, inside the buffer; the JSON
declares each of these offsets as `byteOffset` of the column; the JSON text is followed by
spaces up to a multiple of 8; and without a table the text and the buffer are empty. -/
theorem createBatchTable_layout {α : Type} (dump : Json α → List Nat)
    (attribs : CDBInstancesAttributes)
    (hint : ∀ kv ∈ attribs.integerAttribs, kv.2.length = attribs.instancesCount)
    (hdbl : ∀ kv ∈ attribs.doubleAttribs, kv.2.length = attribs.instancesCount)
    (hnames : ("CNAM" :: (attribs.stringAttribs.map Prod.fst
      ++ (attribs.integerAttribs.map Prod.fst ++ attribs.doubleAttribs.map Prod.fst))).Nodup) :
    ∃ json : Json α,
      (createBatchTable dump (some attribs)).1
          = dump json ++ List.replicate (roundUp (dump json).length 8 - (dump json).length) 32
      ∧ (createBatchTable dump (some attribs)).1.length % 8 = 0
      ∧ (createBatchTable dump (some attribs)).2.length
          = roundUp (4 * attribs.integerAttribs.length * attribs.instancesCount) 8
            + 8 * attribs.doubleAttribs.length * attribs.instancesCount
      ∧ (createBatchTable dump (some attribs)).2.length % 8 = 0
      ∧ (∀ (i : Nat) (kv : String × List Int), attribs.integerAttribs[i]? = some kv →
          ((createBatchTable dump (some attribs)).2.drop (4 * attribs.instancesCount * i)).take
              (4 * attribs.instancesCount) = kv.2.flatMap i32le
          ∧ json.get2 kv.1 "byteOffset" = some (Json.uint (4 * attribs.instancesCount * i))
          ∧ 4 * attribs.instancesCount * i + 4 * attribs.instancesCount
              ≤ roundUp (4 * attribs.integerAttribs.length * attribs.instancesCount) 8)
      ∧ (∀ (j : Nat) (kv : String × List Nat), attribs.doubleAttribs[j]? = some kv →
          ((createBatchTable dump (some attribs)).2.drop
              (roundUp (4 * attribs.integerAttribs.length * attribs.instancesCount) 8
                + 8 * attribs.instancesCount * j)).take (8 * attribs.instancesCount)
            = kv.2.flatMap u64le
          ∧ json.get2 kv.1 "byteOffset" = some (Json.uint
              (roundUp (4 * attribs.integerAttribs.length * attribs.instancesCount) 8
                + 8 * attribs.instancesCount * j))
          ∧ (roundUp (4 * attribs.integerAttribs.length * attribs.instancesCount) 8
                + 8 * attribs.instancesCount * j) % 8 = 0
          ∧ roundUp (4 * attribs.integerAttribs.length * attribs.instancesCount) 8
                + 8 * attribs.instancesCount * j + 8 * attribs.instancesCount
              ≤ (createBatchTable dump (some attribs)).2.length)
      ∧ createBatchTable dump none = ([], []) := by
  have hnd : (attribs.integerAttribs.map Prod.fst
      ++ attribs.doubleAttribs.map Prod.fst).Nodup :=
    (List.nodup_append.mp (List.nodup_cons.mp hnames).2).2.1
  obtain ⟨hlen, hI, hD⟩ := batchTableColumns_spec (α := α) attribs hint hdbl hnd
  have e1 : 4 * attribs.integerAttribs.length * attribs.instancesCount
      = attribs.integerAttribs.length * 4 * attribs.instancesCount := by ring
  have e2 : 8 * attribs.doubleAttribs.length * attribs.instancesCount
      = attribs.doubleAttribs.length * 8 * attribs.instancesCount := by ring
  have hbuf : (createBatchTable dump (some attribs)).2
      = (batchTableColumns attribs : BatchTableState α).mem := by
    simp only [createBatchTable]
    rw [List.take_of_length_le (by rw [hlen])]
  have hr := le_roundUp (attribs.integerAttribs.length * 4 * attribs.instancesCount)
  have hrm := roundUp_mod (attribs.integerAttribs.length * 4 * attribs.instancesCount)
  refine ⟨(batchTableColumns attribs).json, rfl, createBatchTable_json_length dump _,
    by rw [hbuf, hlen, e1, e2], createBatchTable_buffer_mod dump _, ?_, ?_, rfl⟩
  · intro i kv hi
    obtain ⟨c1, c2⟩ := hI i kv hi
    have hilt : i < attribs.integerAttribs.length := by
      rcases Nat.lt_or_ge i attribs.integerAttribs.length with h | h
      · exact h
      · rw [List.getElem?_eq_none h] at hi; cases hi
    have hmul : 4 * attribs.instancesCount * i = i * (4 * attribs.instancesCount) := by ring
    have hle : i * (4 * attribs.instancesCount) + 4 * attribs.instancesCount
        ≤ attribs.integerAttribs.length * (4 * attribs.instancesCount) := by
      have := Nat.mul_le_mul_right (4 * attribs.instancesCount) (Nat.succ_le_of_lt hilt)
      rw [Nat.succ_mul] at this
      exact this
    have e3 : attribs.integerAttribs.length * (4 * attribs.instancesCount)
        = attribs.integerAttribs.length * 4 * attribs.instancesCount := by ring
    rw [hbuf, hmul, e1]
    exact ⟨c1, c2, by omega⟩
  · intro j kv hj
    obtain ⟨c1, c2⟩ := hD j kv hj
    have hjlt : j < attribs.doubleAttribs.length := by
      rcases Nat.lt_or_ge j attribs.doubleAttribs.length with h | h
      · exact h
      · rw [List.getElem?_eq_none h] at hj; cases hj
    have hmul : 8 * attribs.instancesCount * j = j * (8 * attribs.instancesCount) := by ring
    have hle : j * (8 * attribs.instancesCount) + 8 * attribs.instancesCount
        ≤ attribs.doubleAttribs.length * (8 * attribs.instancesCount) := by
      have := Nat.mul_le_mul_right (8 * attribs.instancesCount) (Nat.succ_le_of_lt hjlt)
      rw [Nat.succ_mul] at this
      exact this
    have e3 : attribs.doubleAttribs.length * (8 * attribs.instancesCount)
        = attribs.doubleAttribs.length * 8 * attribs.instancesCount := by ring
    have h8 : j * (8 * attribs.instancesCount) = 8 * (j * attribs.instancesCount) := by ring
    rw [hbuf, hmul, e1, hlen]
    exact ⟨c1, c2, by omega, by omega⟩

/-- Witness of C29: the sample table with one integer and one double column of two entries has
a buffer of 24 bytes. -/
theorem createBatchTable_layout_witness :
    (∀ kv ∈ sampleAttribs.integerAttribs, kv.2.length = sampleAttribs.instancesCount)
    ∧ (∀ kv ∈ sampleAttribs.doubleAttribs, kv.2.length = sampleAttribs.instancesCount)
    ∧ ("CNAM" :: (sampleAttribs.stringAttribs.map Prod.fst
        ++ (sampleAttribs.integerAttribs.map Prod.fst
          ++ sampleAttribs.doubleAttribs.map Prod.fst))).Nodup
    ∧ (createBatchTable (sampleDump : Json ℚ → List Nat) (some sampleAttribs)).2.length
        = roundUp (4 * sampleAttribs.integerAttribs.length * sampleAttribs.instancesCount) 8
          + 8 * sampleAttribs.doubleAttribs.length * sampleAttribs.instancesCount := by
  have h1 : ∀ kv ∈ sampleAttribs.integerAttribs, kv.2.length = sampleAttribs.instancesCount := by
    decide
  have h2 : ∀ kv ∈ sampleAttribs.doubleAttribs, kv.2.length = sampleAttribs.instancesCount := by
    decide
  have h3 : ("CNAM" :: (sampleAttribs.stringAttribs.map Prod.fst
        ++ (sampleAttribs.integerAttribs.map Prod.fst
          ++ sampleAttribs.doubleAttribs.map Prod.fst))).Nodup := by
    decide
  obtain ⟨json, -, -, hlen, -⟩ :=
    createBatchTable_layout (sampleDump : Json ℚ → List Nat) sampleAttribs h1 h2 h3
  exact ⟨h1, h2, h3, hlen⟩

/-! ## Shape of the tileset JSON -/

theorem descendChildren_eq {α : Type} : ∀ (children : List (Option (CDBTile α))) (i : Nat)
    (path : List Nat),
    descendChildren children i path
      = ((children.filterMap id)[i]?).bind (fun c => c.descend path)
  | [], i, path => by simp [descendChildren]
  | none :: rest, i, path => by
      rw [descendChildren, descendChildren_eq rest i path]
      simp
  | some child :: rest, 0, path => by
      rw [descendChildren]
      simp
  | some child :: rest, i + 1, path => by
      rw [descendChildren, descendChildren_eq rest i path]
      simp

/-- The loop over the children appends the conversions of the non-null children, in order, to
the member `children` and leaves the other members alone. -/
theorem convertChildren_shape {α : Type} [LinearOrderedField α] :
    ∀ (children : List (Option (CDBTile α))) (e : α) (json : Json α),
    (convertChildren children e json).childList
        = json.childList
          ++ (children.filterMap id).map (fun c => convertTilesetToJson c (e / 2) (Json.obj []))
    ∧ (∀ k : String, k ≠ "children" → (convertChildren children e json).get k = json.get k)
    ∧ ((convertChildren children e json).get "children").isSome
        = ((json.get "children").isSome || !(children.filterMap id).isEmpty)
  | [], e, json => by
      rw [convertChildren]
      simp
  | none :: rest, e, json => by
      rw [convertChildren]
      simpa using convertChildren_shape rest e json
  | some child :: rest, e, json => by
      rw [convertChildren]
      obtain ⟨h1, h2, h3⟩ := convertChildren_shape rest e
        (json.set "children" ((json.index "children").pushBack
          (convertTilesetToJson child (e / 2) (Json.obj []))))
      refine ⟨?_, ?_, ?_⟩
      · rw [h1, Json.childList_set_children]
        simp
      · intro k hk
        rw [h2 k hk, Json.get_set_ne _ _ _ _ hk]
      · rw [h3, Json.get_set_self]
        simp

/-- The node of a tile: its members and its children. -/
theorem convertTilesetToJson_node {α : Type} [LinearOrderedField α]
    (region : BoundingRegion α) (uri : Option String) (cregion : Option (BoundingRegion α))
    (children : List (Option (CDBTile α))) (e : α) (json : Json α)
    (hc : json.get "children" = none) :
    (convertTilesetToJson (CDBTile.mk region uri cregion children) e json).get "boundingVolume"
        = some (regionJson region)
    ∧ (convertTilesetToJson (CDBTile.mk region uri cregion children) e json).childList
        = (children.filterMap id).map (fun c => convertTilesetToJson c (e / 2) (Json.obj []))
    ∧ ((convertTilesetToJson (CDBTile.mk region uri cregion children) e json).get
          "children").isSome = !(children.filterMap id).isEmpty
    ∧ (convertTilesetToJson (CDBTile.mk region uri cregion children) e json).get "refine"
        = json.get "refine" := by
  rw [convertTilesetToJson]
  obtain ⟨h1, h2, h3⟩ := convertChildren_shape children e
    (tileContentJson uri cregion ((json.set "geometricError" (Json.float e)).set
      "boundingVolume" (regionJson region)))
  have hch : (tileContentJson uri cregion ((json.set "geometricError" (Json.float e)).set
      "boundingVolume" (regionJson region))).get "children" = none := by
    rw [tileContentJson_get _ _ _ _ (by decide), Json.get_set_ne _ _ _ _ (by decide),
      Json.get_set_ne _ _ _ _ (by decide), hc]
  refine ⟨?_, ?_, ?_, ?_⟩
  · rw [h2 _ (by decide), tileContentJson_get _ _ _ _ (by decide), Json.get_set_self]
  · rw [h1, Json.childList_of_get _ hch, List.nil_append]
  · rw [h3, hch]
    simp
  · rw [h2 _ (by decide), tileContentJson_get _ _ _ _ (by decide),
      Json.get_set_ne _ _ _ _ (by decide), Json.get_set_ne _ _ _ _ (by decide)]

/-- The node at a path of the JSON tree is the conversion of the tile at the same path of the
tile tree, and there is none where the tile tree has none. -/
theorem convertTilesetToJson_descend {α : Type} [LinearOrderedField α] :
    ∀ (path : List Nat) (tile : CDBTile α) (e : α) (json : Json α),
    json.get "children" = none →
    (∀ t : CDBTile α, tile.descend path = some t →
        ∃ (e' : α) (json' : Json α), json'.get "children" = none
          ∧ (convertTilesetToJson tile e json).descend path
              = some (convertTilesetToJson t e' json'))
    ∧ (tile.descend path = none → (convertTilesetToJson tile e json).descend path = none)
  | [], tile, e, json, hc => by
      cases tile with
      | mk region uri cregion children =>
        refine ⟨fun t ht => ?_, fun h => ?_⟩
        · simp only [CDBTile.descend, Option.some.injEq] at ht
          subst ht
          exact ⟨e, json, hc, rfl⟩
        · simp [CDBTile.descend] at h
  | i :: path, tile, e, json, hc => by
      cases tile with
      | mk region uri cregion children =>
        obtain ⟨-, hl, -, -⟩ := convertTilesetToJson_node region uri cregion children e json hc
        have hd : (convertTilesetToJson (CDBTile.mk region uri cregion children) e json).descend
            (i :: path)
            = ((children.filterMap id)[i]?).bind (fun c =>
                (convertTilesetToJson c (e / 2) (Json.obj [])).descend path) := by
          rw [Json.descend, Json.child_eq_childList, hl, List.getElem?_map]
          cases (children.filterMap id)[i]? <;> rfl
        rw [hd]
        simp only [CDBTile.descend, descendChildren_eq]
        cases hci : (children.filterMap id)[i]? with
        | none => simp
        | some c =>
          simp only [Option.some_bind]
          exact convertTilesetToJson_descend path c (e / 2) (Json.obj []) rfl

theorem exists_nonNull_iff {α : Type} (children : List (Option (CDBTile α))) :
    (!(children.filterMap id).isEmpty) = true ↔ ∃ c : CDBTile α, some c ∈ children := by
  constructor
  · intro h
    cases hl : children.filterMap id with
    | nil => rw [hl] at h; simp at h
    | cons c rest =>
      have hc : c ∈ children.filterMap id := by rw [hl]; exact List.mem_cons_self _ _
      obtain ⟨a, ha, hac⟩ := List.mem_filterMap.mp hc
      simp only [id_eq] at hac
      exact ⟨c, hac ▸ ha⟩
  · rintro ⟨c, hc⟩
    have hm : c ∈ children.filterMap id := List.mem_filterMap.mpr ⟨some c, hc, rfl⟩
    cases hl : children.filterMap id with
    | nil => rw [hl] at hm; cases hm
    | cons _ _ => rfl

/-- The document of `writeToTilesetJson` for a tileset with a root: its `asset` and the node
from which the root is converted. -/
theorem tilesetDocument_shape {α : Type} [LinearOrderedField α] (root : CDBTile α)
    (replace : Bool) :
    ∃ (doc base : Json α), tilesetDocument ⟨some root⟩ replace = some doc
      ∧ base.get "children" = none
      ∧ base.get "refine" = some (Json.str (if replace then "REPLACE" else "ADD"))
      ∧ doc.index "root" = convertTilesetToJson root MAX_GEOMETRIC_ERROR base
      ∧ doc.get "root" = some (convertTilesetToJson root MAX_GEOMETRIC_ERROR base)
      ∧ doc.get2 "asset" "version" = some (Json.str "1.0") := by
  have aux : ∀ t : Json α,
      ((t.set "root" (convertTilesetToJson root MAX_GEOMETRIC_ERROR (t.index "root"))).set
          "geometricError" (((t.set "root" (convertTilesetToJson root MAX_GEOMETRIC_ERROR
            (t.index "root"))).index "root").index "geometricError")).index "root"
        = convertTilesetToJson root MAX_GEOMETRIC_ERROR (t.index "root")
      ∧ ((t.set "root" (convertTilesetToJson root MAX_GEOMETRIC_ERROR (t.index "root"))).set
          "geometricError" (((t.set "root" (convertTilesetToJson root MAX_GEOMETRIC_ERROR
            (t.index "root"))).index "root").index "geometricError")).get "root"
        = some (convertTilesetToJson root MAX_GEOMETRIC_ERROR (t.index "root"))
      ∧ ((t.set "root" (convertTilesetToJson root MAX_GEOMETRIC_ERROR (t.index "root"))).set
          "geometricError" (((t.set "root" (convertTilesetToJson root MAX_GEOMETRIC_ERROR
            (t.index "root"))).index "root").index "geometricError")).get2 "asset" "version"
        = t.get2 "asset" "version" := by
    intro t
    refine ⟨?_, ?_, ?_⟩
    · simp only [Json.index]
      rw [Json.get_set_ne _ _ _ _ (by decide), Json.get_set_self]
      rfl
    · rw [Json.get_set_ne _ _ _ _ (by decide), Json.get_set_self]
    · simp only [Json.get2]
      rw [Json.get_set_ne _ _ _ _ (by decide), Json.get_set_ne _ _ _ _ (by decide)]
  cases replace with
  | false =>
    obtain ⟨a1, a2, a3⟩ := aux (((Json.null.set "asset"
      (Json.obj [("version", Json.str "1.0")])).set "root" (Json.obj [])).set2 "root" "refine"
      (Json.str "ADD"))
    exact ⟨_, _, rfl,
      by simp [Json.index, Json.set2, Json.set, Json.get, insertKey, List.lookup],
      by simp [Json.index, Json.set2, Json.set, Json.get, insertKey, List.lookup], a1, a2,
      a3.trans (by simp [Json.get2, Json.index, Json.set2, Json.set, Json.get, insertKey,
        List.lookup])⟩
  | true =>
    obtain ⟨a1, a2, a3⟩ := aux (((Json.null.set "asset"
      (Json.obj [("version", Json.str "1.0")])).set "root" (Json.obj [])).set2 "root" "refine"
      (Json.str "REPLACE"))
    exact ⟨_, _, rfl,
      by simp [Json.index, Json.set2, Json.set, Json.get, insertKey, List.lookup],
      by simp [Json.index, Json.set2, Json.set, Json.get, insertKey, List.lookup], a1, a2,
      a3.trans (by simp [Json.get2, Json.index, Json.set2, Json.set, Json.get, insertKey,
        List.lookup])⟩

/-- C23: for a tileset with a root, `writeToTilesetJson` writes a document with
`asset.version` `"1.0"` and `root.refine` `"REPLACE"` when the flag is set, `"ADD"` otherwise;
the nodes below `root` are exactly the tiles of the tree reached through non-null children, in
child order; the node of a tile carries the region of the tile as
`[west, south, east, north, minimum height, maximum height]`, has the key `children` exactly
when the tile has a non-null child, and has as many children as the tile has non-null
children.  For a tileset without a root the stream is left as it was. -/
theorem writeToTilesetJson_tree {α : Type} [LinearOrderedField α]
    (dump : Json α → List Nat) (root : CDBTile α) (replace : Bool) (fs : OFStream) :
    writeToTilesetJson dump ⟨none⟩ replace fs = fs
    ∧ ∃ doc : Json α, tilesetDocument ⟨some root⟩ replace = some doc
      ∧ (writeToTilesetJson dump ⟨some root⟩ replace OFStream.empty).data = dump doc ++ [10]
      ∧ doc.get2 "asset" "version" = some (Json.str "1.0")
      ∧ doc.get2 "root" "refine" = some (Json.str (if replace then "REPLACE" else "ADD"))
      ∧ ∀ path : List Nat,
          (root.descend path = none → (doc.index "root").descend path = none)
          ∧ ∀ tile : CDBTile α, root.descend path = some tile →
              ∃ node : Json α, (doc.index "root").descend path = some node
                ∧ node.get2 "boundingVolume" "region"
                    = some (Json.arr [Json.float tile.getBoundRegion.rectangle.west,
                        Json.float tile.getBoundRegion.rectangle.south,
                        Json.float tile.getBoundRegion.rectangle.east,
                        Json.float tile.getBoundRegion.rectangle.north,
                        Json.float tile.getBoundRegion.minimumHeight,
                        Json.float tile.getBoundRegion.maximumHeight])
                ∧ ((node.get "children").isSome = true ↔ ∃ c : CDBTile α, some c ∈ tile.getChildren)
                ∧ node.childList.length = (tile.getChildren.filterMap id).length := by
  refine ⟨rfl, ?_⟩
  obtain ⟨doc, base, hdoc, hc, hrefine, hroot, hget, hasset⟩ := tilesetDocument_shape root replace
  refine ⟨doc, hdoc, ?_, hasset, ?_, ?_⟩
  · simp only [writeToTilesetJson, hdoc, OFStream.write_empty]
  · rw [Json.get2, hget, Option.some_bind]
    cases root with
    | mk region uri cregion children =>
      rw [(convertTilesetToJson_node region uri cregion children _ base hc).2.2.2, hrefine]
  · intro path
    rw [hroot]
    obtain ⟨hsome, hnone⟩ := convertTilesetToJson_descend path root MAX_GEOMETRIC_ERROR base hc
    refine ⟨hnone, fun tile ht => ?_⟩
    obtain ⟨e', json', hc', hnode⟩ := hsome tile ht
    refine ⟨_, hnode, ?_⟩
    cases tile with
    | mk region uri cregion children =>
      obtain ⟨n1, n2, n3, -⟩ := convertTilesetToJson_node region uri cregion children e' json' hc'
      refine ⟨?_, ?_, ?_⟩
      · rw [Json.get2, n1, Option.some_bind]
        rfl
      · rw [n3]
        exact exists_nonNull_iff children
      · rw [n2, List.length_map]
        rfl

/-- Witness of C23: the sample tileset has one node under the root, for the second child of the root tile, the
first being null; the node carries the region of that child. -/
theorem writeToTilesetJson_tree_witness :
    ∃ doc node : Json ℚ, tilesetDocument ⟨some sampleTile⟩ true = some doc
      ∧ doc.get2 "root" "refine" = some (Json.str "REPLACE")
      ∧ (doc.index "root").descend [0] = some node
      ∧ (doc.index "root").descend [1] = none
      ∧ node.get2 "boundingVolume" "region"
          = some (Json.arr [Json.float 0, Json.float 0, Json.float 2, Json.float 2,
              Json.float 0, Json.float 50]) := by
  have ht : sampleTile.descend [0]
      = some (CDBTile.mk ⟨⟨0, 0, 2, 2⟩, 0, 50⟩ (some "0_0_0.b3dm") none
        [some (CDBTile.mk ⟨⟨0, 0, 1, 1⟩, 0, 20⟩ (some "1_0_0.b3dm")
          (some ⟨⟨0, 0, 1, 1⟩, 5, 10⟩) [])]) := by
    simp [sampleTile, CDBTile.descend, descendChildren]
  have hn : sampleTile.descend [1] = none := by
    simp [sampleTile, CDBTile.descend, descendChildren]
  obtain ⟨-, doc, hdoc, -, -, hrefine, h⟩ :=
    writeToTilesetJson_tree (sampleDump : Json ℚ → List Nat) sampleTile true OFStream.empty
  obtain ⟨node, hnode, hregion, -, -⟩ := (h [0]).2 _ ht
  exact ⟨doc, node, hdoc, hrefine, hnode, (h [1]).1 hn, hregion⟩

/-! ## Elevation pass of one geocell -/

theorem lookup_isSome_iff_mem_keys {β : Type} (m : List (String × β)) (k : String) :
    (m.lookup k).isSome = true ↔ k ∈ m.map Prod.fst := by
  induction m with
  | nil => simp
  | cons kv m ih =>
    obtain ⟨k', v'⟩ := kv
    rw [List.lookup_cons]
    by_cases h : k = k'
    · subst h
      simp
    · have hb : (k == k') = false := by simpa using h
      simp only [hb, List.map_cons, List.mem_cons, h, false_or]
      exact ih

theorem map_fst_insertKey {β : Type} (m : List (String × β)) (k : String) (v : β)
    (h : k ∈ m.map Prod.fst) : (insertKey m k v).map Prod.fst = m.map Prod.fst := by
  induction m with
  | nil => simp at h
  | cons kv m ih =>
    obtain ⟨k', v'⟩ := kv
    by_cases hk : k' = k
    · simp [insertKey, hk]
    · have hm : k ∈ m.map Prod.fst := by
        rcases List.mem_cons.mp h with h' | h'
        · exact absurd h'.symm hk
        · exact h'
      simp [insertKey, hk, ih hm]

theorem lookup_mapInsert_new {β : Type} (m : List (String × β)) (k k' : String) (v : β)
    (h : m.lookup k = none) :
    (mapInsert m k v).lookup k' = if k' = k then some v else m.lookup k' := by
  simp only [mapInsert, h, Option.isSome_none, Bool.false_eq_true, if_false, List.lookup_append]
  by_cases hk : k' = k
  · subst hk
    simp [h, List.lookup_cons]
  · have hb : (k' == k) = false := by simpa using hk
    simp [List.lookup_cons, hb, hk]

/-- The entry of `key` after one call of the callback. -/
theorem lookup_elevationStep {ε : Type} (env : ElevationEnv ε) (D : Nat)
    (m : List (String × SubtreeEntry)) (t : ε) (key : String) :
    (elevationStep env D m t).lookup key
      = match subtreePlacement D (env.getLevel t) (env.getUREF t) (env.getRREF t) with
        | some p =>
          if p.bufferKey = key then
            some (env.addElevationAvailability t ((m.lookup key).getD (newSubtreeEntry D))
              p.subtreeRootLevel p.subtreeRootX p.subtreeRootY)
          else m.lookup key
        | none => m.lookup key := by
  unfold elevationStep
  cases subtreePlacement D (env.getLevel t) (env.getUREF t) (env.getRREF t) with
  | none => rfl
  | some p =>
    simp only []
    cases hm : m.lookup p.bufferKey with
    | none =>
      have h1 := lookup_mapInsert_new m p.bufferKey p.bufferKey (newSubtreeEntry D) hm
      rw [if_pos rfl] at h1
      simp only [Option.isNone_none, if_true, h1]
      by_cases hk : p.bufferKey = key
      · subst hk
        rw [lookup_insertKey_self, if_pos rfl, hm]
        rfl
      · rw [lookup_insertKey_ne _ _ _ _ (fun h => hk h.symm), if_neg hk,
          lookup_mapInsert_new m p.bufferKey key _ hm, if_neg (fun h => hk h.symm)]
    | some entry =>
      simp only [Option.isNone_some, Bool.false_eq_true, if_false, hm]
      by_cases hk : p.bufferKey = key
      · subst hk
        rw [lookup_insertKey_self, if_pos rfl, hm]
        rfl
      · rw [lookup_insertKey_ne _ _ _ _ (fun h => hk h.symm), if_neg hk]

theorem lookup_foldl_elevationStep {ε : Type} (env : ElevationEnv ε) (D : Nat) (key : String) :
    ∀ (tiles : List ε) (m : List (String × SubtreeEntry)),
      (tiles.foldl (elevationStep env D) m).lookup key
        = subtreeEntryOf env D key (m.lookup key) tiles
  | [], m => rfl
  | t :: tiles, m => by
      rw [List.foldl_cons, lookup_foldl_elevationStep env D key tiles, lookup_elevationStep]
      simp only [subtreeEntryOf, List.foldl_cons]

theorem nodup_keys_elevationStep {ε : Type} (env : ElevationEnv ε) (D : Nat)
    (m : List (String × SubtreeEntry)) (t : ε) (h : (m.map Prod.fst).Nodup) :
    ((elevationStep env D m t).map Prod.fst).Nodup := by
  unfold elevationStep
  cases subtreePlacement D (env.getLevel t) (env.getUREF t) (env.getRREF t) with
  | none => exact h
  | some p =>
    simp only []
    cases hm : m.lookup p.bufferKey with
    | none =>
      have h1 := lookup_mapInsert_new m p.bufferKey p.bufferKey (newSubtreeEntry D) hm
      rw [if_pos rfl] at h1
      have hnot : p.bufferKey ∉ m.map Prod.fst := by
        intro hin
        have := (lookup_isSome_iff_mem_keys m p.bufferKey).mpr hin
        rw [hm] at this
        cases this
      have hkeys : (mapInsert m p.bufferKey (newSubtreeEntry D)).map Prod.fst
          = m.map Prod.fst ++ [p.bufferKey] := by
        simp [mapInsert, hm]
      simp only [Option.isNone_none, if_true, h1]
      rw [map_fst_insertKey _ _ _ (by rw [hkeys]; simp), hkeys]
      exact List.nodup_append.mpr ⟨h, List.nodup_singleton _, by
        intro a ha hb
        rw [List.mem_singleton] at hb
        exact hnot (hb ▸ ha)⟩
    | some entry =>
      simp only [Option.isNone_some, Bool.false_eq_true, if_false, hm]
      rw [map_fst_insertKey _ _ _ ((lookup_isSome_iff_mem_keys m p.bufferKey).mp (by rw [hm]; rfl))]
      exact h

theorem nodup_keys_foldl_elevationStep {ε : Type} (env : ElevationEnv ε) (D : Nat) :
    ∀ (tiles : List ε) (m : List (String × SubtreeEntry)), (m.map Prod.fst).Nodup →
      ((tiles.foldl (elevationStep env D) m).map Prod.fst).Nodup
  | [], _, h => h
  | t :: tiles, m, h => by
      rw [List.foldl_cons]
      exact nodup_keys_foldl_elevationStep env D tiles _ (nodup_keys_elevationStep env D m t h)

theorem subtreeEntryOf_isSome {ε : Type} (env : ElevationEnv ε) (D : Nat) (key : String) :
    ∀ (tiles : List ε) (start : Option SubtreeEntry),
      (subtreeEntryOf env D key start tiles).isSome = true
        ↔ start.isSome = true ∨ ∃ t ∈ tiles, ∃ p : SubtreePlacement,
            subtreePlacement D (env.getLevel t) (env.getUREF t) (env.getRREF t) = some p
            ∧ p.bufferKey = key
  | [], start => by simp [subtreeEntryOf]
  | t :: tiles, start => by
      have ih := subtreeEntryOf_isSome env D key tiles
      simp only [subtreeEntryOf, List.foldl_cons] at ih ⊢
      rw [ih]
      cases hp : subtreePlacement D (env.getLevel t) (env.getUREF t) (env.getRREF t) with
      | none => simp [hp]
      | some p =>
        by_cases hk : p.bufferKey = key
        · simp [hp, hk]
        · simp [hp, hk]

theorem subtreePlacement_eq_some_iff (D L u r : Int) (p : SubtreePlacement)
    (h : subtreePlacement D L u r = some p) :
    0 ≤ L ∧ p.bufferKey = toString p.subtreeRootLevel ++ "_" ++ toString p.subtreeRootX ++ "_"
      ++ toString p.subtreeRootY := by
  by_cases hL : 0 ≤ L
  · rw [subtreePlacement_some D L u r hL, Option.some.injEq] at h
    subst h
    exact ⟨hL, rfl⟩
  · have hn : ¬ L ≥ 0 := hL
    simp [subtreePlacement, hn] at h

theorem subtreeEntryOf_append {ε : Type} (env : ElevationEnv ε) (D : Nat) (key : String)
    (start : Option SubtreeEntry) (pre post : List ε) :
    subtreeEntryOf env D key start (pre ++ post)
      = subtreeEntryOf env D key (subtreeEntryOf env D key start pre) post := by
  simp only [subtreeEntryOf, List.foldl_append]

/-- C21: after the elevation pass of a geocell the subtree maps do not depend on what the
previous geocell left in them; a key is present exactly when it is the key of the subtree root
of a yielded tile of level at least 0 (the text `rootLevel_rootX_rootY`), tiles of negative
level having no subtree; no key is present twice; and the entry of a key is what
`addElevationAvailability` made, tile after tile of that subtree in the order yielded, of an
entry that was new (`2 * bufferByteLength` zero bytes, both counters 0) when the first tile of
the subtree was met and was not reset afterwards. -/
theorem elevationPass_keys {ε : Type} (env : ElevationEnv ε) (D : Nat)
    (previous : List (String × SubtreeEntry)) (tiles : List ε) :
    elevationPass env D previous tiles = elevationPass env D [] tiles
    ∧ (∀ key : String, key ∈ (elevationPass env D previous tiles).map Prod.fst
        ↔ ∃ t ∈ tiles, ∃ p : SubtreePlacement,
            subtreePlacement D (env.getLevel t) (env.getUREF t) (env.getRREF t) = some p
            ∧ p.bufferKey = key)
    ∧ (∀ (t : ε) (p : SubtreePlacement),
        subtreePlacement D (env.getLevel t) (env.getUREF t) (env.getRREF t) = some p →
        0 ≤ env.getLevel t
        ∧ p.bufferKey = toString p.subtreeRootLevel ++ "_" ++ toString p.subtreeRootX ++ "_"
            ++ toString p.subtreeRootY)
    ∧ ((elevationPass env D previous tiles).map Prod.fst).Nodup
    ∧ (∀ key : String, (elevationPass env D previous tiles).lookup key
        = subtreeEntryOf env D key none tiles)
    ∧ (∀ (pre post : List ε) (t : ε) (p : SubtreePlacement), tiles = pre ++ t :: post →
        subtreePlacement D (env.getLevel t) (env.getUREF t) (env.getRREF t) = some p →
        (∀ s ∈ pre, ∀ q : SubtreePlacement,
          subtreePlacement D (env.getLevel s) (env.getUREF s) (env.getRREF s) = some q →
          q.bufferKey ≠ p.bufferKey) →
        (elevationPass env D previous tiles).lookup p.bufferKey
          = subtreeEntryOf env D p.bufferKey
              (some (env.addElevationAvailability t (newSubtreeEntry D) p.subtreeRootLevel
                p.subtreeRootX p.subtreeRootY)) post) := by
  have hlook : ∀ key : String, (elevationPass env D previous tiles).lookup key
      = subtreeEntryOf env D key none tiles := by
    intro key
    simp only [elevationPass, mapClear]
    rw [lookup_foldl_elevationStep]
    rfl
  refine ⟨rfl, ?_, fun t p hp => subtreePlacement_eq_some_iff _ _ _ _ p hp, ?_, hlook, ?_⟩
  · intro key
    rw [← lookup_isSome_iff_mem_keys, hlook, subtreeEntryOf_isSome]
    simp
  · simp only [elevationPass, mapClear]
    exact nodup_keys_foldl_elevationStep env D tiles [] List.nodup_nil
  · intro pre post t p htiles hp hpre
    have hnone : subtreeEntryOf env D p.bufferKey none pre = none := by
      cases hs : subtreeEntryOf env D p.bufferKey none pre with
      | none => rfl
      | some entry =>
        have hsome := (subtreeEntryOf_isSome env D p.bufferKey pre none).mp (by rw [hs]; rfl)
        rcases hsome with h | ⟨s, hs', q, hq, hkey⟩
        · cases h
        · exact absurd hkey (hpre s hs' q hq)
    rw [hlook, htiles, subtreeEntryOf_append, hnone]
    simp only [subtreeEntryOf, List.foldl_cons, hp, if_true, Option.getD_none]

set_option maxRecDepth 8000 in
/-- Witness of C21: depth 2 and the tiles (level, UREF, RREF) = (0, 0, 0), (1, 1, 0),
(-1, 0, 0), (2, 3, 1): the keys are `0_0_0`, met twice, and `2_1_3`. -/
theorem elevationPass_keys_witness :
    (elevationPass sampleElevationEnv 2 [("9_9_9", newSubtreeEntry 2)]
        [(0, 0, 0), (1, 1, 0), (-1, 0, 0), (2, 3, 1)]).map Prod.fst = ["0_0_0", "2_1_3"]
    ∧ (elevationPass sampleElevationEnv 2 [("9_9_9", newSubtreeEntry 2)]
        [(0, 0, 0), (1, 1, 0), (-1, 0, 0), (2, 3, 1)]).lookup "0_0_0"
        = some { buffer := List.replicate 54 0, availableNodeCount := 2,
                 availableChildCount := 0 } := by
  refine ⟨by decide, ?_⟩
  rw [(elevationPass_keys sampleElevationEnv 2 [("9_9_9", newSubtreeEntry 2)]
    [(0, 0, 0), (1, 1, 0), (-1, 0, 0), (2, 3, 1)]).2.2.2.2.1 "0_0_0"]
  decide

/-! ## Layout of a subtree file -/

theorem childSubtreeAvailabilityByteLength_of_three_le (D : Nat) (hD : 3 ≤ D) :
    alignTo8 (childSubtreeAvailabilityByteLength D) = childSubtreeAvailabilityByteLength D
    ∧ 8 ≤ childSubtreeAvailabilityByteLength D := by
  obtain ⟨k, rfl⟩ : ∃ k, D = k + 3 := ⟨D - 3, by omega⟩
  have hp : 4 ^ (k + 3) = 64 * 4 ^ k := by ring
  have h1 : 1 ≤ 4 ^ k := Nat.one_le_pow _ _ (by norm_num)
  rw [alignTo8_eq]
  simp only [childSubtreeAvailabilityByteLength, childSubtreeCount, hp]
  generalize 4 ^ k = x at h1
  omega

/-- C4 (the code, with the input on which it fails): for a subtree buffer as `convert`
allocates it, depth `D ≥ 1` and any counts, whenever the stores of the serializer stay inside
`outputBuffer` a file is written, and it begins with `subt` (the little-endian word
`0x74627573`), the 32-bit version 1, a 64-bit JSON byte length and a 64-bit BIN byte length,
both multiples of 8; the JSON length is the JSON text length rounded up to 8 and the text is
followed by spaces up to that length; the BIN length is the sum of the 8-padded lengths of
exactly the bitmaps that are not constant; and the number of bytes written is
24 + JSON length + BIN length.  The stores stay inside when no bitmap is emitted, and for
`D ≥ 3` when at most one is; when both bitmaps are emitted, whatever `D`, and for `D ≤ 2` when
any bitmap is emitted, the last store ends past `outputBuffer` and the source determines no
file. -/
theorem serializeSubtree_layout {α : Type} (dump : Json α → List Nat) (D a b : Nat)
    (buffer : List Nat) (hbuf : buffer.length = bufferByteLength D * 2) (hD : 1 ≤ D) :
    ((serializeSubtree dump D a b buffer).written
        ≤ (serializeSubtree dump D a b buffer).allocated →
      ∃ file : List Nat, (serializeSubtree dump D a b buffer).file = some file
        ∧ file.take 4 = ascii "subt"
        ∧ file.take 4 = u32le 0x74627573
        ∧ (file.drop 4).take 4 = u32le 1
        ∧ (file.drop 8).take 8 = u64le (alignTo8 (dump (subtreeJson D a b)).length)
        ∧ (file.drop 16).take 8
            = u64le ((if a = 0 ∨ a = subtreeNodeCount D then 0
                  else alignTo8 (availabilityByteLength D))
                + (if b = 0 ∨ b = childSubtreeCount D then 0
                  else alignTo8 (childSubtreeAvailabilityByteLength D)))
        ∧ u64At file 8 % 8 = 0
        ∧ u64At file 16 % 8 = 0
        ∧ alignTo8 (dump (subtreeJson D a b)).length % 8 = 0
        ∧ (dump (subtreeJson D a b)).length ≤ alignTo8 (dump (subtreeJson D a b)).length
        ∧ alignTo8 (dump (subtreeJson D a b)).length < (dump (subtreeJson D a b)).length + 8
        ∧ (file.drop 24).take (alignTo8 (dump (subtreeJson D a b)).length)
            = dump (subtreeJson D a b)
              ++ List.replicate (alignTo8 (dump (subtreeJson D a b)).length
                  - (dump (subtreeJson D a b)).length) 32
        ∧ (serializeSubtree dump D a b buffer).written = file.length
        ∧ file.length
            = 24 + alignTo8 (dump (subtreeJson D a b)).length
              + ((if a = 0 ∨ a = subtreeNodeCount D then 0
                  else alignTo8 (availabilityByteLength D))
                + (if b = 0 ∨ b = childSubtreeCount D then 0
                  else alignTo8 (childSubtreeAvailabilityByteLength D))))
    ∧ ((a = 0 ∨ a = subtreeNodeCount D) → (b = 0 ∨ b = childSubtreeCount D) →
        (serializeSubtree dump D a b buffer).written
          ≤ (serializeSubtree dump D a b buffer).allocated)
    ∧ (3 ≤ D → ((a = 0 ∨ a = subtreeNodeCount D) ∨ (b = 0 ∨ b = childSubtreeCount D)) →
        (serializeSubtree dump D a b buffer).written
          ≤ (serializeSubtree dump D a b buffer).allocated)
    ∧ (¬ (a = 0 ∨ a = subtreeNodeCount D) → ¬ (b = 0 ∨ b = childSubtreeCount D) →
        (serializeSubtree dump D a b buffer).allocated
          < (serializeSubtree dump D a b buffer).written
        ∧ (serializeSubtree dump D a b buffer).file = none)
    ∧ (D ≤ 2 → ¬ ((a = 0 ∨ a = subtreeNodeCount D) ∧ (b = 0 ∨ b = childSubtreeCount D)) →
        (serializeSubtree dump D a b buffer).allocated
          < (serializeSubtree dump D a b buffer).written
        ∧ (serializeSubtree dump D a b buffer).file = none) := by
  obtain ⟨hal, hwr⟩ := serializeSubtree_extent dump D a b buffer
  have hnlt := lt_alignTo8_availabilityByteLength D hD
  have hnub := alignTo8_lt (availabilityByteLength D)
  have hcle := le_alignTo8 (childSubtreeAvailabilityByteLength D)
  refine ⟨fun hin => ⟨(serializeSubtree dump D a b buffer).bytes, by
      simp only [SubtreeFile.file, if_pos hin], ?_⟩, ?_, ?_, ?_, ?_⟩
  · obtain ⟨hbytes, hnl, hcl⟩ := serializeSubtree_bytes dump D a b buffer hbuf
    have hacc := subtreeJsonState_accum (α := α) D a b
    simp only [nodeAvailabilityByteLengthWithPadding,
      childSubtreeAvailabilityByteLengthWithPadding] at hacc hnl hcl hbytes
    have hpad := le_alignTo8 (dump (subtreeJson D a b : Json α)).length
    have hpad8 := alignTo8_mod (dump (subtreeJson D a b : Json α)).length
    have hpadlt := alignTo8_lt (dump (subtreeJson D a b : Json α)).length
    have hn8 := alignTo8_mod (availabilityByteLength D)
    have hc8 := alignTo8_mod (childSubtreeAvailabilityByteLength D)
    have hlen : (serializeSubtree dump D a b buffer).bytes.length
        = 24 + alignTo8 (dump (subtreeJson D a b)).length
          + ((if a = 0 ∨ a = subtreeNodeCount D then 0
              else alignTo8 (availabilityByteLength D))
            + (if b = 0 ∨ b = childSubtreeCount D then 0
              else alignTo8 (childSubtreeAvailabilityByteLength D))) := by
      rw [hbytes]
      simp only [List.length_append, length_u32le, length_u64le, List.length_replicate]
      split <;> split <;> simp only [List.length_nil, hnl, hcl] <;> omega
    have hwritten : (serializeSubtree dump D a b buffer).written
        = (serializeSubtree dump D a b buffer).bytes.length := by
      rw [hlen]
      unfold serializeSubtree
      simp only []
      rw [show (subtreeJsonState D a b : SubtreeJsonState α).subtreeJson = subtreeJson D a b
        from rfl]
      by_cases ha : a = 0 ∨ a = subtreeNodeCount D <;>
        by_cases hb : b = 0 ∨ b = childSubtreeCount D <;>
        simp only [Bool.or_eq_true, beq_iff_eq, ha, hb, if_true, if_false, headerByteLength,
          nodeAvailabilityByteLengthWithPadding, childSubtreeAvailabilityByteLengthWithPadding]
          <;> omega
    have hbin8 : ((if a = 0 ∨ a = subtreeNodeCount D then 0
          else alignTo8 (availabilityByteLength D))
        + (if b = 0 ∨ b = childSubtreeCount D then 0
          else alignTo8 (childSubtreeAvailabilityByteLength D))) % 8 = 0 := by
      split <;> split <;> omega
    refine ⟨?_, ?_, ?_, ?_, ?_, ?_, ?_, hpad8, hpad, hpadlt, ?_, hwritten, hlen⟩
    · rw [hbytes, ascii_subt]; simp [u32le, u64le]
    · rw [hbytes]; simp [u32le, u64le]
    · rw [hbytes]; simp [u32le, u64le]
    · rw [hbytes]; simp [u32le, u64le]
    · rw [hbytes, hacc]; simp [u32le, u64le]
    · rw [hbytes, show u64At _ 8 = fromLE (u64le (alignTo8 (dump (subtreeJson D a b)).length))
        by simp [u64At, u32le, u64le], fromLE_u64le]
      omega
    · rw [hbytes, hacc, show u64At _ 16
          = fromLE (u64le ((if a = 0 ∨ a = subtreeNodeCount D then 0
                else alignTo8 (availabilityByteLength D))
              + (if b = 0 ∨ b = childSubtreeCount D then 0
                else alignTo8 (childSubtreeAvailabilityByteLength D))))
        by simp [u64At, u32le, u64le], fromLE_u64le]
      omega
    · rw [hbytes]
      generalize dump (subtreeJson D a b : Json α) = js at hpad
      have hH : (u32le 0x74627573 ++ u32le 1 ++ u64le (alignTo8 js.length)
          ++ u64le (subtreeJsonState D a b : SubtreeJsonState α).bufferByteLengthAccum).length
          = 24 := rfl
      have hJ : (js ++ List.replicate (alignTo8 js.length - js.length) 32).length
          = alignTo8 js.length := by
        rw [List.length_append, List.length_replicate]
        omega
      generalize u32le 0x74627573 ++ u32le 1 ++ u64le (alignTo8 js.length)
        ++ u64le (subtreeJsonState D a b : SubtreeJsonState α).bufferByteLengthAccum = H at hH ⊢
      simp only [List.append_assoc]
      rw [List.drop_left' hH, ← List.append_assoc js, List.take_left' hJ]
  · intro ha hb
    rw [hal, hwr, if_pos ha, if_pos hb]
    simp only [bufferByteLength, headerByteLength]
    omega
  · intro h3 hab
    obtain ⟨hc1, hc2⟩ := childSubtreeAvailabilityByteLength_of_three_le D h3
    rw [hal, hwr]
    simp only [bufferByteLength, headerByteLength]
    rcases hab with ha | hb
    · rw [if_pos ha, hc1]
      split <;> omega
    · rw [if_pos hb]
      split <;> omega
  · intro ha hb
    have hlt : (serializeSubtree dump D a b buffer).allocated
        < (serializeSubtree dump D a b buffer).written := by
      rw [hal, hwr, if_neg ha, if_neg hb]
      simp only [bufferByteLength, headerByteLength]
      omega
    exact ⟨hlt, by simp only [SubtreeFile.file, if_neg (Nat.not_le.mpr hlt)]⟩
  · intro h2 hne
    have hsmall : availabilityByteLength D + childSubtreeAvailabilityByteLength D ≤ 3
        ∧ alignTo8 (availabilityByteLength D) = 8
        ∧ alignTo8 (childSubtreeAvailabilityByteLength D) = 8 := by
      have hD12 : D = 1 ∨ D = 2 := by omega
      rcases hD12 with rfl | rfl
      · refine ⟨by decide, ?_, ?_⟩ <;> rw [alignTo8_eq] <;> decide
      · refine ⟨by decide, ?_, ?_⟩ <;> rw [alignTo8_eq] <;> decide
    obtain ⟨hs1, hs2, hs3⟩ := hsmall
    have hlt : (serializeSubtree dump D a b buffer).allocated
        < (serializeSubtree dump D a b buffer).written := by
      rw [hal, hwr, hs2, hs3]
      simp only [bufferByteLength, headerByteLength]
      by_cases ha : a = 0 ∨ a = subtreeNodeCount D
      · have hb : ¬ (b = 0 ∨ b = childSubtreeCount D) := fun hb => hne ⟨ha, hb⟩
        rw [if_pos ha, if_neg hb]
        omega
      · rw [if_neg ha]
        split <;> omega
    exact ⟨hlt, by simp only [SubtreeFile.file, if_neg (Nat.not_le.mpr hlt)]⟩

/-- Witness of C4: depth 4 and one available node; without an available child subtree the
stores stay inside `outputBuffer` and the file begins with `subt`; with one, both bitmaps are
emitted and no file is determined. -/
theorem serializeSubtree_layout_witness :
    sampleSubtreeBuffer.length = bufferByteLength 4 * 2
    ∧ (∃ file : List Nat,
        (serializeSubtree (sampleDump : Json ℚ → List Nat) 4 1 0 sampleSubtreeBuffer).file
          = some file
        ∧ file.take 4 = ascii "subt"
        ∧ (serializeSubtree (sampleDump : Json ℚ → List Nat) 4 1 0 sampleSubtreeBuffer).written
          = file.length)
    ∧ (serializeSubtree (sampleDump : Json ℚ → List Nat) 4 1 1 sampleSubtreeBuffer).file
        = none := by
  have h := serializeSubtree_layout (sampleDump : Json ℚ → List Nat) 4 1 0 sampleSubtreeBuffer
    length_sampleSubtreeBuffer (by decide)
  have h' := serializeSubtree_layout (sampleDump : Json ℚ → List Nat) 4 1 1 sampleSubtreeBuffer
    length_sampleSubtreeBuffer (by decide)
  obtain ⟨file, hf, hm, -, -, -, -, -, -, -, -, -, -, hw, -⟩ :=
    h.1 (h.2.2.1 (by decide) (Or.inr (Or.inl rfl)))
  exact ⟨length_sampleSubtreeBuffer, ⟨file, hf, hm, hw⟩,
    (h'.2.2.2.1 (by decide) (by decide)).2⟩

end CDBTo3DTiles
